import Mathlib

/-!
# Event-store middlewares and subscription registry of Mainflux

A shallow embedding of

* `bootstrap/redis/producer/streams.go`: the event-store middleware of the
  bootstrap service, with its unpublished-events buffer and its background
  publishing routine;
* `things/policies/redis/streams.go`: the event-store middleware of the
  thing-policies service;
* the subscription registry exercised by `pkg/messaging/nats/pubsub_test.go`.

Go's `error` is an optional value (`none` is `nil`).  A method with a pointer
receiver becomes a function that takes the receiver and returns the updated
receiver next to the method's results.  The Redis client is the outside world:
it is modelled by the log of the commands sent to it and by an arbitrary
function giving the store's answer to each command.
-/

/-- Go's `error`: `none` is `nil`, `some msg` a non-nil error. -/
abbrev error := Option String

namespace redis

/-- The fields of `redis.XAddArgs` that the middlewares set. -/
structure XAddArgs where
  Stream : String
  MaxLenApprox : Nat
  Values : List (String × String)
deriving DecidableEq, Repr

/-- The commands the middlewares send to the store. -/
inductive Cmd where
  | Ping
  | XAdd (a : XAddArgs)
deriving DecidableEq, Repr

/-- The Redis client with the store behind it.  `reply n cmd` is the answer
the store gives when `cmd` is the command sent after `n` earlier ones; `sent`
is the log of the commands sent so far with their answers, oldest first. -/
structure Client where
  reply : Nat → Cmd → error
  sent : List (Cmd × error)

/-- Send one command: the store answers and the exchange is logged. -/
def Client.send (c : Client) (cmd : Cmd) : Client × error :=
  let err := c.reply c.sent.length cmd
  ({ c with sent := c.sent ++ [(cmd, err)] }, err)

/-- The result of `client.Ping(ctx).Err()`. -/
def Client.Ping (c : Client) : Client × error := c.send Cmd.Ping

/-- The result of `client.XAdd(ctx, a).Err()`. -/
def Client.XAdd (c : Client) (a : XAddArgs) : Client × error := c.send (Cmd.XAdd a)

/-- The append attempts among logged exchanges, oldest first. -/
def attempts : List (Cmd × error) → List XAddArgs
  | [] => []
  | (Cmd.XAdd a, _) :: rest => a :: attempts rest
  | (Cmd.Ping, _) :: rest => attempts rest

/-- The records the store accepted among logged exchanges, oldest first. -/
def appended : List (Cmd × error) → List XAddArgs
  | [] => []
  | (Cmd.XAdd a, none) :: rest => a :: appended rest
  | _ :: rest => appended rest

end redis

namespace producer

open redis

def streamID : String := "mainflux.bootstrap"

def streamLen : Nat := 1000

/-- The data types of package `bootstrap` that the middleware passes through.
They are declared outside the files modelled here, so they are parameters. -/
structure Types where
  Config : Type
  ConfigsPage : Type
  Channel : Type
  State : Type
  /-- The type of the `FullMatch` and `PartialMatch` fields of a filter. -/
  Match : Type

/-- The two fields of `bootstrap.Filter` the middleware reads. -/
structure Filter (T : Types) where
  FullMatch : T.Match
  PartialMatch : T.Match

/-- The operation tags named in `streams.go`. -/
inductive operation where
  | configCreate
  | configList
  | configUpdate
  | configHandlerRemove
  | channelHandlerRemove
deriving DecidableEq, Repr

/-- The events built in `streams.go`, each with the fields its literal sets. -/
inductive event (T : Types) where
  | configEvent (cfg : T.Config) (op : operation)
  | updateCertEvent (thingKey clientCert clientKey caCert : String)
  | updateConnectionsEvent (mfThing : String) (mfChannels : List String)
  | listConfigsEvent (offset limit : Nat) (fullMatch partialMatch : T.Match)
  | removeConfigEvent (mfThing : String)
  | bootstrapEvent (cfg : T.Config) (externalID : String) (success : Bool)
  | changeStateEvent (mfThing : String) (state : T.State)
  | removeHandlerEvent (id : String) (op : operation)
  | updateChannelHandlerEvent (channel : T.Channel)
  | disconnectThingEvent (channelID thingID : String)

/-- The wrapped `bootstrap.Service`: each method answers with its results. -/
structure Service (T : Types) where
  Add : String → T.Config → T.Config × error
  View : String → String → T.Config × error
  Update : String → T.Config → error
  UpdateCert : String → String → String → String → String → T.Config × error
  UpdateConnections : String → String → List String → error
  List : String → Filter T → Nat → Nat → T.ConfigsPage × error
  Remove : String → String → error
  Bootstrap : String → String → Bool → T.Config × error
  ChangeState : String → String → T.State → error
  RemoveConfigHandler : String → error
  RemoveChannelHandler : String → error
  UpdateChannelHandler : T.Channel → error
  DisconnectThingHandler : String → String → error

/-- The functions of other files that `streams.go` calls: the `encode` method
of the events and `errors.Wrap`.  They are parameters of the model. -/
structure Deps (T : Types) where
  encode : event T → List (String × String) × error
  Wrap : error → error → error

/-- What the `select` of the publishing routine receives. -/
inductive Signal where
  | tick
  | done
deriving DecidableEq, Repr

/-- The signals the publishing routine receives, in order. -/
abbrev Signals := List Signal

structure eventStore (T : Types) where
  svc : Service T
  client : Client
  unpublishedEvents : List XAddArgs

variable {T : Types}

/-- The middleware as `NewEventStoreMiddleware` builds it. -/
def NewEventStoreMiddleware (svc : Service T) (client : Client) : eventStore T :=
  { svc := svc, client := client, unpublishedEvents := [] }

def eventStore.checkRedisConnection (es : eventStore T) : eventStore T × error :=
  let (c, err) := es.client.Ping
  ({ es with client := c }, err)

/-- The record `publish` builds from encoded values. -/
def record (values : List (String × String)) : XAddArgs :=
  { Stream := streamID, MaxLenApprox := streamLen, Values := values }

def eventStore.publish (d : Deps T) (es : eventStore T) (ev : event T) : eventStore T × error :=
  let (values, err) := d.encode ev
  if err ≠ none then
    (es, err)
  else
    let record := record values
    let (es, err) := es.checkRedisConnection
    if err ≠ none then
      ({ es with unpublishedEvents := es.unpublishedEvents ++ [record] }, none)
    else
      let (c, err) := es.client.XAdd record
      ({ es with client := c }, err)

def eventStore.Add (d : Deps T) (es : eventStore T) (token : String) (cfg : T.Config) :
    eventStore T × T.Config × error :=
  let (saved, err) := es.svc.Add token cfg
  if err ≠ none then
    (es, saved, err)
  else
    let ev := event.configEvent saved operation.configCreate
    let (es, err1) := es.publish d ev
    if err1 ≠ none then
      (es, saved, d.Wrap err err1)
    else
      (es, saved, err)

def eventStore.View (d : Deps T) (es : eventStore T) (token id : String) :
    eventStore T × T.Config × error :=
  let (cfg, err) := es.svc.View token id
  if err ≠ none then
    (es, cfg, err)
  else
    let ev := event.configEvent cfg operation.configList
    let (es, err1) := es.publish d ev
    if err1 ≠ none then
      (es, cfg, d.Wrap err err1)
    else
      (es, cfg, err)

def eventStore.Update (d : Deps T) (es : eventStore T) (token : String) (cfg : T.Config) :
    eventStore T × error :=
  let err := es.svc.Update token cfg
  if err ≠ none then
    (es, err)
  else
    let ev := event.configEvent cfg operation.configUpdate
    es.publish d ev

/-- The one method of the middleware with a value receiver: it runs on a copy
of the receiver.  The copy shares the client (a pointer), so the commands it
sends reach the store, but the assignment `publish` makes to the copy's
`unpublishedEvents` does not reach the receiver.  The closing statement
`return es.publish(ctx, ev)` names an error only, so the configuration in the
result is `none` there. -/
def eventStore.UpdateCert (d : Deps T) (es : eventStore T)
    (token thingKey clientCert clientKey caCert : String) :
    eventStore T × Option T.Config × error :=
  let (cfg, err) := es.svc.UpdateCert token thingKey clientCert clientKey caCert
  if err ≠ none then
    (es, some cfg, err)
  else
    let ev := event.updateCertEvent thingKey clientCert clientKey caCert
    let (copy, err) := es.publish d ev
    ({ es with client := copy.client }, none, err)

def eventStore.UpdateConnections (d : Deps T) (es : eventStore T) (token id : String)
    (connections : List String) : eventStore T × error :=
  let err := es.svc.UpdateConnections token id connections
  if err ≠ none then
    (es, err)
  else
    let ev := event.updateConnectionsEvent id connections
    es.publish d ev

def eventStore.List (d : Deps T) (es : eventStore T) (token : String) (filter : Filter T)
    (offset limit : Nat) : eventStore T × T.ConfigsPage × error :=
  let (bp, err) := es.svc.List token filter offset limit
  if err ≠ none then
    (es, bp, err)
  else
    let ev := event.listConfigsEvent offset limit filter.FullMatch filter.PartialMatch
    let (es, err1) := es.publish d ev
    if err1 ≠ none then
      (es, bp, d.Wrap err err1)
    else
      (es, bp, none)

def eventStore.Remove (d : Deps T) (es : eventStore T) (token id : String) :
    eventStore T × error :=
  let err := es.svc.Remove token id
  if err ≠ none then
    (es, err)
  else
    let ev := event.removeConfigEvent id
    es.publish d ev

def eventStore.Bootstrap (d : Deps T) (es : eventStore T) (externalKey externalID : String)
    (secure : Bool) : eventStore T × T.Config × error :=
  let (cfg, err) := es.svc.Bootstrap externalKey externalID secure
  let ev := event.bootstrapEvent cfg externalID true
  let ev := if err ≠ none then event.bootstrapEvent cfg externalID false else ev
  let (es, err1) := es.publish d ev
  if err1 ≠ none then
    (es, cfg, err1)
  else
    (es, cfg, err)

def eventStore.ChangeState (d : Deps T) (es : eventStore T) (token id : String)
    (state : T.State) : eventStore T × error :=
  let err := es.svc.ChangeState token id state
  if err ≠ none then
    (es, err)
  else
    let ev := event.changeStateEvent id state
    es.publish d ev

def eventStore.RemoveConfigHandler (d : Deps T) (es : eventStore T) (id : String) :
    eventStore T × error :=
  let err := es.svc.RemoveConfigHandler id
  if err ≠ none then
    (es, err)
  else
    let ev := event.removeHandlerEvent id operation.configHandlerRemove
    es.publish d ev

def eventStore.RemoveChannelHandler (d : Deps T) (es : eventStore T) (id : String) :
    eventStore T × error :=
  let err := es.svc.RemoveChannelHandler id
  if err ≠ none then
    (es, err)
  else
    let ev := event.removeHandlerEvent id operation.channelHandlerRemove
    es.publish d ev

def eventStore.UpdateChannelHandler (d : Deps T) (es : eventStore T) (channel : T.Channel) :
    eventStore T × error :=
  let err := es.svc.UpdateChannelHandler channel
  if err ≠ none then
    (es, err)
  else
    let ev := event.updateChannelHandlerEvent channel
    es.publish d ev

def eventStore.DisconnectThingHandler (d : Deps T) (es : eventStore T)
    (channelID thingID : String) : eventStore T × error :=
  let err := es.svc.DisconnectThingHandler channelID thingID
  if err ≠ none then
    (es, err)
  else
    let ev := event.disconnectThingEvent channelID thingID
    es.publish d ev

/-- The loop `for i := len(es.unpublishedEvents) - 1; i >= 0; i--` of the
publishing routine: `es.flush n` runs the iterations `i = n - 1, ..., 0`.
Reading `es.unpublishedEvents[i]` outside the slice stops the program, which
is the result `none`. -/
def eventStore.flush (es : eventStore T) : Nat → Option (eventStore T)
  | 0 => some es
  | i + 1 =>
    match es.unpublishedEvents[i]? with
    | none => none
    | some r =>
      let (c, err) := es.client.XAdd r
      let es := { es with client := c }
      let es :=
        if err = none then
          { es with unpublishedEvents :=
              es.unpublishedEvents.take i ++ es.unpublishedEvents.drop (i + 1) }
        else es
      es.flush i

/-- The body of `case <-ticker.C` of the publishing routine. -/
def eventStore.tick (es : eventStore T) : Option (eventStore T) :=
  let (es, err) := es.checkRedisConnection
  if err = none then
    es.flush es.unpublishedEvents.length
  else
    some es

/-- The publishing routine run on the signals it receives, in order: a tick
runs one flush cycle, `ctx.Done()` returns.  The result is the middleware
when the routine returns or has used up the signals. -/
def eventStore.startPublishingRoutine (es : eventStore T) : Signals → Option (eventStore T)
  | [] => some es
  | Signal.done :: _ => some es
  | Signal.tick :: rest =>
    match es.tick with
    | none => none
    | some es => es.startPublishingRoutine rest

end producer

namespace policies

open redis

def streamID : String := "mainflux.things"

def streamLen : Nat := 1000

/-- The data types of package `policies` that the middleware passes through,
with the zero values `policies.Policy{}` and `policies.PolicyPage{}`.  They
are declared outside the files modelled here, so they are parameters. -/
structure Types where
  AccessRequest : Type
  Policy : Type
  Page : Type
  PolicyPage : Type
  zeroPolicy : Policy
  zeroPolicyPage : PolicyPage

/-- The operation tags named in `streams.go`. -/
inductive operation where
  | policyAdd
  | policyUpdate
  | policyDelete
deriving DecidableEq, Repr

/-- The events built in `streams.go`, each with the fields its literal sets. -/
inductive event (T : Types) where
  | authorizeEvent (ar : T.AccessRequest) (entity : String)
  | policyEvent (policy : T.Policy) (op : operation)
  | listPoliciesEvent (page : T.Page)

/-- The wrapped `policies.Service`: each method answers with its results. -/
structure Service (T : Types) where
  Authorize : T.AccessRequest → String → String × error
  AddPolicy : String → T.Policy → T.Policy × error
  UpdatePolicy : String → T.Policy → T.Policy × error
  ListPolicies : String → T.Page → T.PolicyPage × error
  DeletePolicy : String → T.Policy → error

structure eventStore (T : Types) where
  svc : Service T
  client : Client

variable {T : Types}

/-- The middleware as `NewEventStoreMiddleware` builds it. -/
def NewEventStoreMiddleware (svc : Service T) (client : Client) : eventStore T :=
  { svc := svc, client := client }

/-- The record every method builds from its event; `Encode`, the method of
the events, is declared in another file and is a parameter of the model. -/
def record (Encode : event T → List (String × String)) (ev : event T) : XAddArgs :=
  { Stream := streamID, MaxLenApprox := streamLen, Values := Encode ev }

def eventStore.Authorize (Encode : event T → List (String × String)) (es : eventStore T)
    (ar : T.AccessRequest) (entity : String) : eventStore T × String × error :=
  let (id, err) := es.svc.Authorize ar entity
  if err ≠ none then
    (es, "", err)
  else
    let event := event.authorizeEvent ar entity
    let record := record Encode event
    let (c, err) := es.client.XAdd record
    if err ≠ none then
      ({ es with client := c }, id, err)
    else
      ({ es with client := c }, id, none)

def eventStore.AddPolicy (Encode : event T → List (String × String)) (es : eventStore T)
    (token : String) (policy : T.Policy) : eventStore T × T.Policy × error :=
  let (policy, err) := es.svc.AddPolicy token policy
  if err ≠ none then
    (es, T.zeroPolicy, err)
  else
    let event := event.policyEvent policy operation.policyAdd
    let record := record Encode event
    let (c, err) := es.client.XAdd record
    if err ≠ none then
      ({ es with client := c }, T.zeroPolicy, err)
    else
      ({ es with client := c }, policy, none)

def eventStore.UpdatePolicy (Encode : event T → List (String × String)) (es : eventStore T)
    (token : String) (policy : T.Policy) : eventStore T × T.Policy × error :=
  let (policy, err) := es.svc.UpdatePolicy token policy
  if err ≠ none then
    (es, T.zeroPolicy, err)
  else
    let event := event.policyEvent policy operation.policyUpdate
    let record := record Encode event
    let (c, err) := es.client.XAdd record
    if err ≠ none then
      ({ es with client := c }, T.zeroPolicy, err)
    else
      ({ es with client := c }, policy, none)

def eventStore.ListPolicies (Encode : event T → List (String × String)) (es : eventStore T)
    (token : String) (page : T.Page) : eventStore T × T.PolicyPage × error :=
  let (policypage, err) := es.svc.ListPolicies token page
  if err ≠ none then
    (es, T.zeroPolicyPage, err)
  else
    let event := event.listPoliciesEvent page
    let record := record Encode event
    let (c, err) := es.client.XAdd record
    if err ≠ none then
      ({ es with client := c }, T.zeroPolicyPage, err)
    else
      ({ es with client := c }, policypage, none)

def eventStore.DeletePolicy (Encode : event T → List (String × String)) (es : eventStore T)
    (token : String) (policy : T.Policy) : eventStore T × error :=
  let err := es.svc.DeletePolicy token policy
  if err ≠ none then
    (es, err)
  else
    let event := event.policyEvent policy operation.policyDelete
    let record := record Encode event
    let (c, err) := es.client.XAdd record
    if err ≠ none then
      ({ es with client := c }, err)
    else
      ({ es with client := c }, none)

end policies

namespace messaging

/-- The six fields of `messaging.Message`. -/
structure Message where
  Channel : String
  Subtopic : String
  Publisher : String
  Protocol : String
  Payload : List Nat
  Created : Int
deriving DecidableEq, Repr

/-- The interface `messaging.MessageHandler`: the capability pair `Handle`
and `Cancel`. -/
class MessageHandler (H : Type) where
  Handle : H → Message → error
  Cancel : H → error

end messaging

namespace nats

open messaging

/-- Modelled from the spec: the error `EmptyTopic` of subscribe, unsubscribe
and publish; `pubsub.go`, which declares it, is not among the sources. -/
def ErrEmptyTopic : error := some "empty topic"

/-- Modelled from the spec: the error `EmptyID` of subscribe and unsubscribe;
`pubsub.go`, which declares it, is not among the sources. -/
def ErrEmptyID : error := some "empty id"

/-- Modelled from the spec: the error `NotSubscribed` of unsubscribe on an
absent key; `pubsub.go`, which declares it, is not among the sources. -/
def ErrNotSubscribed : error := some "not subscribed"

/-- Modelled from the spec: the subscription registry of `pubsub.go`, which is
not among the sources.  Subscriptions are keyed by `(clientID, topic)`; the
value is the handler. -/
structure pubsub (H : Type) where
  subscriptions : List ((String × String) × H)

variable {H : Type}

/-- The handler registered under a key, if any. -/
def pubsub.find (ps : pubsub H) (id topic : String) : Option H :=
  ps.subscriptions.lookup (id, topic)

/-- Modelled from the spec: `Subscribe` of `pubsub.go`, which is not among the
sources.  The client identity and the topic are validated to be non-empty;
when no entry exists for the key one is created; when an entry exists the old
handler's `Cancel` is invoked: if it fails the call aborts with that error and
the registry is unchanged, if it succeeds the handler is replaced in place. -/
def pubsub.Subscribe [MessageHandler H] (ps : pubsub H) (id topic : String) (handler : H) :
    pubsub H × error :=
  if id = "" then
    (ps, ErrEmptyID)
  else if topic = "" then
    (ps, ErrEmptyTopic)
  else
    match ps.find id topic with
    | none => ({ subscriptions := ps.subscriptions ++ [((id, topic), handler)] }, none)
    | some old =>
      let err := MessageHandler.Cancel old
      if err ≠ none then
        (ps, err)
      else
        ({ subscriptions := ps.subscriptions.map
            fun e => if e.1 = (id, topic) then (e.1, handler) else e }, none)

/-- Modelled from the spec: `Unsubscribe` of `pubsub.go`, which is not among
the sources.  The client identity and the topic are validated to be non-empty;
when no entry exists for the key the call fails with `NotSubscribed`; when one
exists its `Cancel` is invoked, the error (if any) is propagated to the caller
and the entry is removed from the registry regardless. -/
def pubsub.Unsubscribe [MessageHandler H] (ps : pubsub H) (id topic : String) :
    pubsub H × error :=
  if id = "" then
    (ps, ErrEmptyID)
  else if topic = "" then
    (ps, ErrEmptyTopic)
  else
    match ps.find id topic with
    | none => (ps, ErrNotSubscribed)
    | some current =>
      let err := MessageHandler.Cancel current
      ({ subscriptions := ps.subscriptions.filter fun e => e.1 ≠ (id, topic) }, err)

/-- The error `errFailed` of `pubsub_test.go`. -/
def errFailed : error := some "failed"

/-- The handler of `pubsub_test.go`. -/
structure handler where
  fail : Bool
deriving DecidableEq, Repr

/-- The method `Handle` of the test's handler hands the message on and
returns `nil`. -/
def handler.Handle (_h : handler) (_msg : Message) : error := none

def handler.Cancel (h : handler) : error :=
  if h.fail then errFailed else none

instance : MessageHandler handler where
  Handle := handler.Handle
  Cancel := handler.Cancel

end nats

namespace producer

open redis

/-- Concrete types for the worked examples. -/
def T0 : Types :=
  { Config := String, ConfigsPage := List String, Channel := String, State := Nat,
    Match := List (String × String) }

/-- An encoding for the worked examples: the kind of the event and, for the
configuration events, the configuration. -/
def encode0 : event T0 → List (String × String) × error
  | event.configEvent cfg operation.configCreate => ([("config", cfg), ("operation", "create")], none)
  | event.configEvent cfg _ => ([("config", cfg), ("operation", "config")], none)
  | event.updateCertEvent k _ _ _ => ([("thing_key", k), ("operation", "cert")], none)
  | event.bootstrapEvent cfg _ true => ([("config", cfg), ("success", "1")], none)
  | event.bootstrapEvent cfg _ false => ([("config", cfg), ("success", "0")], none)
  | _ => ([("operation", "other")], none)

/-- Dependencies for the worked examples; `Wrap` answers its first argument
when either argument is `nil`. -/
def d0 : Deps T0 :=
  { encode := encode0
    Wrap := fun wrapper err =>
      match wrapper, err with
      | some w, some e => some (w ++ " : " ++ e)
      | _, _ => wrapper }

/-- A wrapped service all of whose calls succeed, answering their input. -/
def svcOk : Service T0 :=
  { Add := fun _ cfg => (cfg, none)
    View := fun _ id => (id, none)
    Update := fun _ _ => none
    UpdateCert := fun _ thingKey _ _ _ => (thingKey, none)
    UpdateConnections := fun _ _ _ => none
    List := fun _ _ _ _ => ([], none)
    Remove := fun _ _ => none
    Bootstrap := fun _ externalID _ => (externalID, none)
    ChangeState := fun _ _ _ => none
    RemoveConfigHandler := fun _ => none
    RemoveChannelHandler := fun _ => none
    UpdateChannelHandler := fun _ => none
    DisconnectThingHandler := fun _ _ => none }

/-- A wrapped service all of whose calls fail with the error `e`. -/
def svcFail : Service T0 :=
  { Add := fun _ cfg => (cfg, some "e")
    View := fun _ id => (id, some "e")
    Update := fun _ _ => some "e"
    UpdateCert := fun _ thingKey _ _ _ => (thingKey, some "e")
    UpdateConnections := fun _ _ _ => some "e"
    List := fun _ _ _ _ => ([], some "e")
    Remove := fun _ _ => some "e"
    Bootstrap := fun _ _ _ => ("", some "e")
    ChangeState := fun _ _ _ => some "e"
    RemoveConfigHandler := fun _ => some "e"
    RemoveChannelHandler := fun _ => some "e"
    UpdateChannelHandler := fun _ => some "e"
    DisconnectThingHandler := fun _ _ => some "e" }

/-- A store that answers every command with an error. -/
def storeDown : Client := { reply := fun _ _ => some "down", sent := [] }

/-- A store that accepts every command. -/
def storeUp : Client := { reply := fun _ _ => none, sent := [] }

/-- A store that answers the probe and refuses every append. -/
def storeRejects : Client :=
  { reply := fun _ cmd => match cmd with
      | Cmd.Ping => none
      | Cmd.XAdd _ => some "refused"
    sent := [] }

/-- A store that fails its first command and accepts every later one. -/
def storeRecovers : Client :=
  { reply := fun n _ => if n = 0 then some "down" else none, sent := [] }

/-- A record for the worked examples. -/
def rec0 (name : String) : XAddArgs := record [("config", name)]

/-- A store that refuses its second and its fourth command. -/
def storeFlaky : Client :=
  { reply := fun n _ => if n = 1 ∨ n = 3 then some "refused" else none, sent := [] }

/-- A middleware with three buffered records in front of the flaky store. -/
def esBuffered : eventStore T0 :=
  { svc := svcOk, client := storeFlaky, unpublishedEvents := [rec0 "a", rec0 "b", rec0 "c"] }

end producer

namespace policies

open redis

/-- Concrete types for the worked examples. -/
def P0 : Types :=
  { AccessRequest := String, Policy := String, Page := Nat, PolicyPage := List String,
    zeroPolicy := "", zeroPolicyPage := [] }

/-- An encoding for the worked examples. -/
def Encode0 : event P0 → List (String × String)
  | event.authorizeEvent ar entity => [("request", ar), ("entity", entity)]
  | event.policyEvent policy operation.policyAdd => [("policy", policy), ("operation", "add")]
  | event.policyEvent policy operation.policyUpdate => [("policy", policy), ("operation", "update")]
  | event.policyEvent policy operation.policyDelete => [("policy", policy), ("operation", "delete")]
  | event.listPoliciesEvent _ => [("operation", "list")]

/-- A wrapped service all of whose calls succeed. -/
def svcOk : Service P0 :=
  { Authorize := fun _ entity => (entity, none)
    AddPolicy := fun _ policy => (policy, none)
    UpdatePolicy := fun _ policy => (policy, none)
    ListPolicies := fun _ _ => (["p"], none)
    DeletePolicy := fun _ _ => none }

/-- A wrapped service all of whose calls fail with the error `e`. -/
def svcFail : Service P0 :=
  { Authorize := fun _ entity => (entity, some "e")
    AddPolicy := fun _ policy => (policy, some "e")
    UpdatePolicy := fun _ policy => (policy, some "e")
    ListPolicies := fun _ _ => (["p"], some "e")
    DeletePolicy := fun _ _ => some "e" }

end policies

namespace nats

/-- The registry of the worked examples: a failing handler subscribed under
client `clientid3` to `channels.topic1`, as in `TestPubsub`. -/
def psFailing : pubsub handler :=
  (pubsub.Subscribe { subscriptions := [] } "clientid3" "channels.topic1" { fail := true }).1

/-- The cases of `TestPubsub`: topic, client identity, expected error, whether
the case subscribes (`true`) or unsubscribes (`false`), and the handler. -/
def subcases : List (String × String × error × Bool × handler) :=
  [ ("channels.topic", "clientid1", none, true, { fail := false }),
    ("channels.topic", "clientid2", none, true, { fail := false }),
    ("channels.topic", "clientid1", none, true, { fail := false }),
    ("channels.topic", "clientid1", none, false, { fail := false }),
    ("h", "clientid1", ErrNotSubscribed, false, { fail := false }),
    ("channels.topic", "clientidd2", ErrNotSubscribed, false, { fail := false }),
    ("channels.topic", "clientidd3", ErrNotSubscribed, false, { fail := false }),
    ("channels.topic", "clientid1", ErrNotSubscribed, false, { fail := false }),
    ("channels.topic.engine", "clientidd1", none, true, { fail := false }),
    ("channels.topic.engine", "clientidd1", none, true, { fail := false }),
    ("channels.topic.engine", "clientidd1", none, false, { fail := false }),
    ("channels.topic.engine", "clientid1", ErrNotSubscribed, false, { fail := false }),
    ("", "clientid1", ErrEmptyTopic, true, { fail := false }),
    ("", "clientid1", ErrEmptyTopic, false, { fail := false }),
    ("channels.topic", "", ErrEmptyID, true, { fail := false }),
    ("channels.topic", "", ErrEmptyID, false, { fail := false }),
    ("channels.topic1", "clientid3", none, true, { fail := true }),
    ("channels.topic1", "clientid3", errFailed, true, { fail := true }),
    ("channels.topic2", "clientid4", none, true, { fail := true }),
    ("channels.topic2", "clientid4", errFailed, false, { fail := true }) ]

/-- The loop of `TestPubsub`: the errors the calls return, in order. -/
def runSubcases (ps : pubsub handler) : List (String × String × error × Bool × handler) → List error
  | [] => []
  | (topic, clientID, _, true, h) :: rest =>
    (ps.Subscribe clientID topic h).2 :: runSubcases (ps.Subscribe clientID topic h).1 rest
  | (topic, clientID, _, false, _) :: rest =>
    (ps.Unsubscribe clientID topic).2 :: runSubcases (ps.Unsubscribe clientID topic).1 rest

end nats

namespace nats

open messaging

/-- A call of the registry. -/
inductive Call (H : Type) where
  | subscribe (id topic : String) (handler : H)
  | unsubscribe (id topic : String)

/-- The registry after a sequence of calls, run in order; the errors the
calls return are dropped. -/
def pubsub.run {H : Type} [MessageHandler H] (ps : pubsub H) : List (Call H) → pubsub H
  | [] => ps
  | Call.subscribe id topic h :: rest => pubsub.run (ps.Subscribe id topic h).1 rest
  | Call.unsubscribe id topic :: rest => pubsub.run (ps.Unsubscribe id topic).1 rest

end nats

namespace messaging

/-- Modelled from the spec: a topic is a dot-segmented string.  The first
segment of a topic and the segments after it, split at the dots. -/
def splitDots : List Char → List Char × List (List Char)
  | [] => ([], [])
  | c :: cs =>
    if c = '.' then ([], (splitDots cs).1 :: (splitDots cs).2)
    else (c :: (splitDots cs).1, (splitDots cs).2)

/-- The segments of a topic, in order. -/
def segments (topic : List Char) : List (List Char) :=
  (splitDots topic).1 :: (splitDots topic).2

/-- Modelled from the spec: `matches(subscriptionTopic, publishTopic)` of the
topic model, which has no source file among the sources: exact match unless
the subscription topic ends in `.>`, in which case any publish topic sharing
the stripped prefix matches, including the prefix itself with no further
segments.  Sharing the prefix is read by segments: the segments of the
stripped prefix are the first segments of the publish topic. -/
def topicMatches (subscriptionTopic publishTopic : String) : Bool :=
  if ['.', '>'].isSuffixOf subscriptionTopic.toList then
    (segments subscriptionTopic.toList.dropLast.dropLast).isPrefixOf
      (segments publishTopic.toList)
  else
    subscriptionTopic == publishTopic

end messaging

namespace rabbitmq

open messaging

/-- The fields of `amqp.Publishing` that `Publish` sets; `Headers` is the
empty table. -/
structure Publishing where
  ContentType : String
  Priority : Nat
  AppId : String
  Body : List Nat
deriving DecidableEq, Repr

/-- The calls `Publish` makes on the AMQP channel, with their arguments (the
last argument of `ExchangeDeclare` is `nil`). -/
inductive Cmd where
  | ExchangeDeclare (name kind : String) (durable autoDelete internal noWait : Bool)
  | Publish (exchange key : String) (mandatory immediate : Bool) (msg : Publishing)
deriving DecidableEq, Repr

/-- The AMQP channel with the broker behind it.  `reply n cmd` is the answer
the broker gives when `cmd` is the call made after `n` earlier ones; `sent` is
the log of the calls made so far with their answers, oldest first. -/
structure Channel where
  reply : Nat → Cmd → error
  sent : List (Cmd × error)

/-- Make one call: the broker answers and the exchange is logged. -/
def Channel.send (c : Channel) (cmd : Cmd) : Channel × error :=
  let err := c.reply c.sent.length cmd
  ({ c with sent := c.sent ++ [(cmd, err)] }, err)

def Channel.ExchangeDeclare (c : Channel) (name kind : String)
    (durable autoDelete internal noWait : Bool) : Channel × error :=
  c.send (Cmd.ExchangeDeclare name kind durable autoDelete internal noWait)

def Channel.Publish (c : Channel) (exchange key : String) (mandatory immediate : Bool)
    (msg : Publishing) : Channel × error :=
  c.send (Cmd.Publish exchange key mandatory immediate msg)

/-- The exchange and routing key of the messages handed to the broker among
logged calls, oldest first. -/
def destinations : List (Cmd × error) → List (String × String)
  | [] => []
  | (Cmd.Publish exchange key _ _ _, _) :: rest => (exchange, key) :: destinations rest
  | (Cmd.ExchangeDeclare _ _ _ _ _ _, _) :: rest => destinations rest

/-- What `publisher.go` names and other files declare: the constants
`exchange`, `chansPrefix`, `exchangeKind`, `routingKey`, `mandatory` and
`immediate` of the package, and `proto.Marshal`.  They are parameters of the
model. -/
structure Deps where
  exchange : String
  chansPrefix : String
  exchangeKind : String
  routingKey : String
  mandatory : Bool
  immediate : Bool
  Marshal : Message → List Nat × error

/-- The publisher; its `connection` is used by `Close` only. -/
structure publisher where
  channel : Channel

/-- The method `Publish` of `publisher.go`.  In the source the lines
`return err` and the closing brace that follow `proto.Marshal` have lost the
guard that opens their block; the model reads them as the body of
`if err != nil`, the guard the two later error checks of the method have. -/
def publisher.Publish (d : Deps) (pub : publisher) (topic : String) (msg : Message) :
    publisher × error :=
  let (data, err) := d.Marshal msg
  if err ≠ none then
    (pub, err)
  else
    let subject := d.exchange ++ "." ++ d.chansPrefix ++ "." ++ topic
    let (ch, err) := pub.channel.ExchangeDeclare subject d.exchangeKind true false false false
    let pub : publisher := { pub with channel := ch }
    if err ≠ none then
      (pub, err)
    else
      let (ch, err) := pub.channel.Publish subject d.routingKey d.mandatory d.immediate
        { ContentType := "text/plain", Priority := 2, AppId := "mainflux", Body := data }
      let pub : publisher := { pub with channel := ch }
      if err ≠ none then
        (pub, err)
      else
        (pub, none)

/-- Example values of the package's constants and a serialisation for the
worked examples: the payload after the lengths of the text fields. -/
def d0 : Deps :=
  { exchange := "mainflux", chansPrefix := "channels", exchangeKind := "direct",
    routingKey := "mfx", mandatory := false, immediate := false,
    Marshal := fun m =>
      (m.Channel.length :: m.Subtopic.length :: m.Publisher.length :: m.Protocol.length ::
        m.Payload, none) }

/-- A broker that accepts every call. -/
def brokerUp : Channel := { reply := fun _ _ => none, sent := [] }

/-- The message of `pubsub_test.go`, with a subtopic to choose and a fixed
time stamp. -/
def message (subtopic : String) : Message :=
  { Channel := "9b7b1b3f-b1b0-46a8-a717-b8213f9eda3b", Subtopic := subtopic,
    Publisher := "9b7b1b3f-b1b0-46a8-a717-b8213f9eda3b", Protocol := "mqtt",
    Payload := [112, 97, 121, 108, 111, 97, 100], Created := 1 }

end rabbitmq

namespace nats

open messaging

/-- The prefix `chansPrefix` of `pubsub_test.go`. -/
def chansPrefix : String := "channels"

/-- The NATS connection with the broker behind it: the messages published so
far, as subject and data, with the broker's answers, and the answer to each
further one. -/
structure Conn where
  reply : Nat → String × List Nat → error
  sent : List ((String × List Nat) × error)

/-- One `Publish(subject, data)` on the connection. -/
def Conn.Publish (c : Conn) (subject : String) (data : List Nat) : Conn × error :=
  let err := c.reply c.sent.length (subject, data)
  ({ c with sent := c.sent ++ [((subject, data), err)] }, err)

/-- Modelled from the spec: the publisher of the NATS variant, whose source
file is not among the sources. -/
structure publisher where
  conn : Conn

/-- Modelled from the spec: `Publish` of the NATS variant, whose source file
is not among the sources.  An empty topic is rejected with `EmptyTopic` before
reaching the broker; the message is serialised (`Marshal` is a parameter) and
sent to the subject `<prefix>.<topic>[.<subtopic>]`; a failure of the
transport is returned. -/
def publisher.Publish (Marshal : Message → List Nat × error) (pub : publisher)
    (topic : String) (msg : Message) : publisher × error :=
  if topic = "" then
    (pub, ErrEmptyTopic)
  else
    let (data, err) := Marshal msg
    if err ≠ none then
      (pub, err)
    else
      let subject := chansPrefix ++ "." ++ topic
      let subject := if msg.Subtopic ≠ "" then subject ++ "." ++ msg.Subtopic else subject
      let (c, err) := pub.conn.Publish subject data
      ({ pub with conn := c }, err)

end nats

namespace rabbitmq

open messaging

/-- The value of the variable `subject` of `Publish`. -/
def subject (d : Deps) (topic : String) : String :=
  d.exchange ++ "." ++ d.chansPrefix ++ "." ++ topic

/-- The exchange declaration `Publish` makes for a topic. -/
def declareCmd (d : Deps) (topic : String) : Cmd :=
  Cmd.ExchangeDeclare (subject d topic) d.exchangeKind true false false false

/-- The broker publish `Publish` makes for a topic and a message. -/
def publishCmd (d : Deps) (topic : String) (msg : Message) : Cmd :=
  Cmd.Publish (subject d topic) d.routingKey d.mandatory d.immediate
    { ContentType := "text/plain", Priority := 2, AppId := "mainflux",
      Body := (d.Marshal msg).1 }

end rabbitmq

namespace nats

/-- A NATS broker that accepts every message. -/
def connUp : Conn := { reply := fun _ _ => none, sent := [] }

end nats

namespace producer

open redis

/-- What can happen to the middleware: a call of one of its operations, with
the arguments of the call, or a tick of the publishing routine. -/
inductive Call (T : Types) where
  | Add (token : String) (cfg : T.Config)
  | View (token id : String)
  | Update (token : String) (cfg : T.Config)
  | UpdateCert (token thingKey clientCert clientKey caCert : String)
  | UpdateConnections (token id : String) (connections : List String)
  | List (token : String) (filter : Filter T) (offset limit : Nat)
  | Remove (token id : String)
  | Bootstrap (externalKey externalID : String) (secure : Bool)
  | ChangeState (token id : String) (state : T.State)
  | RemoveConfigHandler (id : String)
  | RemoveChannelHandler (id : String)
  | UpdateChannelHandler (channel : T.Channel)
  | DisconnectThingHandler (channelID thingID : String)
  | tick

/-- The middleware after one call or tick; the results of the call are
dropped. -/
def step {T : Types} (d : Deps T) (es : eventStore T) : Call T → Option (eventStore T)
  | Call.Add token cfg => some (es.Add d token cfg).1
  | Call.View token id => some (es.View d token id).1
  | Call.Update token cfg => some (es.Update d token cfg).1
  | Call.UpdateCert token thingKey clientCert clientKey caCert =>
    some (es.UpdateCert d token thingKey clientCert clientKey caCert).1
  | Call.UpdateConnections token id connections =>
    some (es.UpdateConnections d token id connections).1
  | Call.List token filter offset limit => some (es.List d token filter offset limit).1
  | Call.Remove token id => some (es.Remove d token id).1
  | Call.Bootstrap externalKey externalID secure =>
    some (es.Bootstrap d externalKey externalID secure).1
  | Call.ChangeState token id state => some (es.ChangeState d token id state).1
  | Call.RemoveConfigHandler id => some (es.RemoveConfigHandler d id).1
  | Call.RemoveChannelHandler id => some (es.RemoveChannelHandler d id).1
  | Call.UpdateChannelHandler channel => some (es.UpdateChannelHandler d channel).1
  | Call.DisconnectThingHandler channelID thingID =>
    some (es.DisconnectThingHandler d channelID thingID).1
  | Call.tick => es.tick

/-- The middleware after a sequence of calls and ticks, run in order. -/
def run {T : Types} (d : Deps T) (es : eventStore T) : List (Call T) → Option (eventStore T)
  | [] => some es
  | c :: rest =>
    match step d es c with
    | none => none
    | some es => run d es rest

end producer

namespace producer

open redis

/-- Every record the middleware has handed to the store, and every record in
its buffer, names the stream of the bootstrap service and carries its length
cap. -/
def eventStore.capped {T : Types} (es : eventStore T) : Prop :=
  (∀ r ∈ attempts es.client.sent, r.Stream = streamID ∧ r.MaxLenApprox = streamLen) ∧
  (∀ r ∈ es.unpublishedEvents, r.Stream = streamID ∧ r.MaxLenApprox = streamLen)

end producer

namespace producer

open redis

/-- Consecutive calls of `publish`, one for each event of the list in order;
the errors the calls return are dropped. -/
def publishAll {T : Types} (d : Deps T) (es : eventStore T) : List (event T) → eventStore T
  | [] => es
  | ev :: rest => publishAll d (es.publish d ev).1 rest

/-- Dependencies for the worked examples whose `encode` fails on every event. -/
def dFail : Deps T0 :=
  { encode := fun _ => ([], some "encode failed"), Wrap := d0.Wrap }

end producer

namespace producer

open redis

/-- A middleware with three buffered records in front of a store that is
down. -/
def esDown : eventStore T0 :=
  { svc := svcOk, client := storeDown, unpublishedEvents := [rec0 "a", rec0 "b", rec0 "c"] }

end producer

namespace http

/-- The status codes of `net/http` that the sources name. -/
def StatusOK : Nat := 200

def StatusCreated : Nat := 201

def StatusNoContent : Nat := 204

def StatusBadRequest : Nat := 400

def StatusUnauthorized : Nat := 401

def StatusForbidden : Nat := 403

def StatusNotFound : Nat := 404

def StatusConflict : Nat := 409

def StatusUnsupportedMediaType : Nat := 415

def StatusInternalServerError : Nat := 500

/-- The calls the encoders make on an `http.ResponseWriter`. -/
inductive Call where
  | SetHeader (key value : String)
  | WriteHeader (statusCode : Nat)
  | Write (data : String)
deriving DecidableEq, Repr

/-- An `http.ResponseWriter`: the calls made on it so far, oldest first. -/
abbrev ResponseWriter := List Call

/-- The status the response carries: that of the first `WriteHeader`, or 200
when the body is written first; `net/http` ignores a later `WriteHeader`. -/
def status : ResponseWriter → Option Nat
  | [] => none
  | Call.WriteHeader statusCode :: _ => some statusCode
  | Call.Write _ :: _ => some StatusOK
  | Call.SetHeader _ _ :: rest => status rest

/-- The headers set before the status is written, in the order of the calls. -/
def headers : ResponseWriter → List (String × String)
  | [] => []
  | Call.WriteHeader _ :: _ => []
  | Call.Write _ :: _ => []
  | Call.SetHeader key value :: rest => (key, value) :: headers rest

/-- The data written as the body, in order. -/
def body : ResponseWriter → List String
  | [] => []
  | Call.Write data :: rest => data :: body rest
  | _ :: rest => body rest

end http

namespace api

open http

def ContentType : String := "application/json"

/-- The interface `mainflux.Response`, by the three methods its
implementations in `responses.go` define. -/
class Response (R : Type) where
  Code : R → Nat
  Headers : R → List (String × String)
  Empty : R → Bool

/-- The call `json.NewEncoder(w).Encode(v)` on the writer, given what the
encoder does with the value: the data it writes, if it gets to write, and the
error it returns. -/
def encodeJSON (w : ResponseWriter) (outcome : Option String × error) : ResponseWriter × error :=
  match outcome.1 with
  | some data => (w ++ [Call.Write data], outcome.2)
  | none => (w, outcome.2)

/-- `EncodeResponse` of `common.go`.  `ar` is the result of the type assertion
`response.(mainflux.Response)`: the methods of the response when it has them.
`Encode` is the JSON encoder, a parameter of the model. -/
def EncodeResponse {R : Type} (Encode : R → Option String × error) (ar : Option (Response R))
    (w : ResponseWriter) (response : R) : ResponseWriter × error :=
  match ar with
  | some ar =>
    let w := w ++ (ar.Headers response).map fun kv => Call.SetHeader kv.1 kv.2
    let w := w ++ [Call.SetHeader "Content-Type" ContentType]
    let w := w ++ [Call.WriteHeader (ar.Code response)]
    if ar.Empty response then
      (w, none)
    else
      encodeJSON w (Encode response)
  | none => encodeJSON w (Encode response)

/-- What `EncodeError` names and other files declare: `errors.Contains`, the
errors of the packages `errors`, `apiutil` and `postgres`, the type assertion
`err.(errors.Error)` with the method `Msg` (`none` when the error is no
`errors.Error`), and the JSON encoder applied to the error response of a
message.  `E` is the type of Go's error values.  They are parameters of the
model. -/
structure Deps (E : Type) where
  Contains : E → E → Bool
  ErrMalformedEntity : E
  ErrAuthentication : E
  ErrNotFound : E
  ErrConflict : E
  ErrAuthorization : E
  ErrUnsupportedContentType : E
  ErrCreateEntity : E
  ErrUpdateEntity : E
  ErrViewEntity : E
  ErrRemoveEntity : E
  ErrMissingID : E
  ErrEmptyList : E
  ErrMissingMemberType : E
  ErrInvalidSecret : E
  ErrNameSize : E
  ErrMemberAlreadyAssigned : E
  Msg : E → Option String
  Encode : String → Option String × error

/-- The status the `switch` of `EncodeError` writes: the cases in the order of
the source, the first that holds decides. -/
def errorStatus {E : Type} [DecidableEq E] (d : Deps E) (err : E) : Nat :=
  if d.Contains err d.ErrMalformedEntity = true ∨ err = d.ErrMissingID ∨ err = d.ErrEmptyList ∨
      err = d.ErrMissingMemberType ∨ d.Contains err d.ErrInvalidSecret = true ∨
      err = d.ErrNameSize then
    StatusBadRequest
  else if d.Contains err d.ErrAuthentication = true then
    StatusUnauthorized
  else if d.Contains err d.ErrNotFound = true then
    StatusNotFound
  else if d.Contains err d.ErrConflict = true then
    StatusConflict
  else if d.Contains err d.ErrAuthorization = true then
    StatusForbidden
  else if d.Contains err d.ErrMemberAlreadyAssigned = true then
    StatusConflict
  else if d.Contains err d.ErrUnsupportedContentType = true then
    StatusUnsupportedMediaType
  else if d.Contains err d.ErrCreateEntity = true ∨ d.Contains err d.ErrUpdateEntity = true ∨
      d.Contains err d.ErrViewEntity = true ∨ d.Contains err d.ErrRemoveEntity = true then
    StatusInternalServerError
  else
    StatusInternalServerError

/-- `EncodeError` of `common.go`: the content type is set, the `switch`
writes the status, and an `errors.Error` is encoded as the body; when that
encoding fails `WriteHeader` is called once more. -/
def EncodeError {E : Type} [DecidableEq E] (d : Deps E) (err : E) (w : ResponseWriter) :
    ResponseWriter :=
  let w := w ++ [Call.SetHeader "Content-Type" ContentType]
  let w := w ++ [Call.WriteHeader (errorStatus d err)]
  match d.Msg err with
  | some msg =>
    let (w, err) := encodeJSON w (d.Encode msg)
    if err ≠ none then
      w ++ [Call.WriteHeader StatusInternalServerError]
    else
      w
  | none => w

end api

namespace api

/-- Errors for the worked examples: the messages of an error and of the errors
it wraps, outermost first; the empty list is `nil`. -/
def contains0 (e1 e2 : List String) : Bool :=
  match e2 with
  | [m] => e1.contains m
  | _ => e1 == e2

/-- Dependencies for the worked examples. -/
def d0 : Deps (List String) :=
  { Contains := contains0
    ErrMalformedEntity := ["malformed entity specification"]
    ErrAuthentication := ["failed to perform authentication over the entity"]
    ErrNotFound := ["entity not found"]
    ErrConflict := ["entity already exists"]
    ErrAuthorization := ["failed to perform authorization over the entity"]
    ErrUnsupportedContentType := ["unsupported content type"]
    ErrCreateEntity := ["failed to create entity"]
    ErrUpdateEntity := ["failed to update entity"]
    ErrViewEntity := ["view entity failed"]
    ErrRemoveEntity := ["failed to remove entity"]
    ErrMissingID := ["missing entity id"]
    ErrEmptyList := ["empty list provided"]
    ErrMissingMemberType := ["missing group member type"]
    ErrInvalidSecret := ["missing secret"]
    ErrNameSize := ["invalid name size"]
    ErrMemberAlreadyAssigned := ["member already assigned"]
    Msg := fun e => e.head?
    Encode := fun msg => (some ("\x7b\"error\":\"" ++ msg ++ "\"\x7d"), none) }

end api

namespace policies.responses

/-- The type `pageRes` of `responses.go`. -/
structure pageRes where
  Limit : Nat
  Offset : Nat
  Total : Nat
deriving DecidableEq, Repr

structure authorizeRes where
  ThingID : String
  Authorized : Bool
deriving DecidableEq, Repr

def authorizeRes.Code (res : authorizeRes) : Nat :=
  if !res.Authorized then
    http.StatusForbidden
  else
    http.StatusOK

def authorizeRes.Headers (_ : authorizeRes) : List (String × String) := []

def authorizeRes.Empty (_ : authorizeRes) : Bool := false

structure identityRes where
  ID : String
deriving DecidableEq, Repr

def identityRes.Code (_ : identityRes) : Nat := http.StatusOK

def identityRes.Headers (_ : identityRes) : List (String × String) := []

def identityRes.Empty (_ : identityRes) : Bool := false

/-- The type `addPolicyRes` of `responses.go`; `P` is `policies.Policy`. -/
structure addPolicyRes (P : Type) where
  created : Bool
  Policy : P

def addPolicyRes.Code {P : Type} (res : addPolicyRes P) : Nat :=
  if res.created then
    http.StatusCreated
  else
    http.StatusBadRequest

def addPolicyRes.Headers {P : Type} (_ : addPolicyRes P) : List (String × String) := []

def addPolicyRes.Empty {P : Type} (_ : addPolicyRes P) : Bool := true

structure viewPolicyRes (P : Type) where
  Policy : P

def viewPolicyRes.Code {P : Type} (_ : viewPolicyRes P) : Nat := http.StatusOK

def viewPolicyRes.Headers {P : Type} (_ : viewPolicyRes P) : List (String × String) := []

def viewPolicyRes.Empty {P : Type} (_ : viewPolicyRes P) : Bool := false

structure updatePolicyRes (P : Type) where
  updated : Bool
  Policy : P

def updatePolicyRes.Code {P : Type} (res : updatePolicyRes P) : Nat :=
  if res.updated then
    http.StatusNoContent
  else
    http.StatusBadRequest

def updatePolicyRes.Headers {P : Type} (_ : updatePolicyRes P) : List (String × String) := []

def updatePolicyRes.Empty {P : Type} (_ : updatePolicyRes P) : Bool := true

structure listPolicyRes (P : Type) extends pageRes where
  Policies : List P

def listPolicyRes.Code {P : Type} (_ : listPolicyRes P) : Nat := http.StatusOK

def listPolicyRes.Headers {P : Type} (_ : listPolicyRes P) : List (String × String) := []

def listPolicyRes.Empty {P : Type} (_ : listPolicyRes P) : Bool := false

structure deletePolicyRes where
  deleted : Bool
deriving DecidableEq, Repr

def deletePolicyRes.Code (res : deletePolicyRes) : Nat :=
  if res.deleted then
    http.StatusNoContent
  else
    http.StatusBadRequest

def deletePolicyRes.Headers (_ : deletePolicyRes) : List (String × String) := []

def deletePolicyRes.Empty (_ : deletePolicyRes) : Bool := true

/-- The assertions `var _ mainflux.Response = (*identityRes)(nil)` and so on:
each response type implements the interface by its three methods. -/
instance identityRes.Response : api.Response identityRes :=
  ⟨identityRes.Code, identityRes.Headers, identityRes.Empty⟩

instance authorizeRes.Response : api.Response authorizeRes :=
  ⟨authorizeRes.Code, authorizeRes.Headers, authorizeRes.Empty⟩

instance addPolicyRes.Response {P : Type} : api.Response (addPolicyRes P) :=
  ⟨addPolicyRes.Code, addPolicyRes.Headers, addPolicyRes.Empty⟩

instance viewPolicyRes.Response {P : Type} : api.Response (viewPolicyRes P) :=
  ⟨viewPolicyRes.Code, viewPolicyRes.Headers, viewPolicyRes.Empty⟩

instance listPolicyRes.Response {P : Type} : api.Response (listPolicyRes P) :=
  ⟨listPolicyRes.Code, listPolicyRes.Headers, listPolicyRes.Empty⟩

instance updatePolicyRes.Response {P : Type} : api.Response (updatePolicyRes P) :=
  ⟨updatePolicyRes.Code, updatePolicyRes.Headers, updatePolicyRes.Empty⟩

instance deletePolicyRes.Response : api.Response deletePolicyRes :=
  ⟨deletePolicyRes.Code, deletePolicyRes.Headers, deletePolicyRes.Empty⟩

/-- What `EncodeResponse` leaves on the writer for a response that implements
`mainflux.Response` with no headers of its own: the content type, the status,
and the data the JSON encoder writes, if it is run and writes. -/
def written (w : http.ResponseWriter) (code : Nat) (data : Option String) : http.ResponseWriter :=
  w ++ [http.Call.SetHeader "Content-Type" "application/json", http.Call.WriteHeader code]
    ++ data.toList.map http.Call.Write

end policies.responses

namespace timescale

/-- What `fmtCondition` names and other files declare: `json.Marshal` of the
page metadata (`none` when it fails), `json.Unmarshal` into the map `query`
(`none` when it fails; the entries are listed in the order in which `range`
visits them, which Go leaves open), and `readers.ParseValueComparator`.  `PM`
is `readers.PageMetadata`, `J` the JSON text, `V` the type of the values of
the map.  They are parameters of the model. -/
structure Deps (PM J V : Type) where
  Marshal : PM → Option J
  Unmarshal : J → Option (List (String × V))
  ParseValueComparator : List (String × V) → String

/-- The body of the loop of `fmtCondition`: the `switch` on the key `name`,
with `fmt.Sprintf` written as concatenation.  `comparator` is the value of
`readers.ParseValueComparator(query)`. -/
def step (comparator : String) (condition name : String) : String :=
  if name = "subtopic" ∨ name = "publisher" ∨ name = "name" ∨ name = "protocol" then
    condition ++ " AND " ++ name ++ " = :" ++ name
  else if name = "v" then
    condition ++ " AND value " ++ comparator ++ " :value"
  else if name = "vb" then
    condition ++ " AND bool_value = :bool_value"
  else if name = "vs" then
    if comparator = "=" then
      condition ++ " AND string_value = :string_value "
    else if comparator = ">" then
      condition ++ " AND string_value LIKE '%' || :string_value || '%' AND string_value <> :string_value"
    else if comparator = ">=" then
      condition ++ " AND string_value LIKE '%' || :string_value || '%'"
    else if comparator = "<=" then
      condition ++ " AND :string_value LIKE '%' || string_value || '%'"
    else if comparator = "<" then
      condition ++ " AND :string_value LIKE '%' || string_value || '%' AND string_value <> :string_value"
    else
      condition
  else if name = "vd" then
    condition ++ " AND data_value " ++ comparator ++ " :data_value"
  else if name = "from" then
    condition ++ " AND time >= :from"
  else if name = "to" then
    condition ++ " AND time < :to"
  else
    condition

/-- `fmtCondition` of `messages.go`. -/
def fmtCondition {PM J V : Type} (d : Deps PM J V) (chanID : String) (rpm : PM) : String :=
  let _ := chanID
  let condition := "channel = :channel"
  match d.Marshal rpm with
  | none => condition
  | some meta =>
    match d.Unmarshal meta with
    | none => condition
    | some query =>
      query.foldl (fun condition kv => step (d.ParseValueComparator query) condition kv.1)
        condition

/-- The map `query` that `fmtCondition` ranges over: the JSON form of the page
metadata, with no entry when marshalling or unmarshalling fails, where the
loop is not reached. -/
def queryOf {PM J V : Type} (d : Deps PM J V) (rpm : PM) : List (String × V) :=
  match d.Marshal rpm with
  | none => []
  | some meta => (d.Unmarshal meta).getD []

/-- The clause of a filter key under a comparator, `none` for a key that adds
nothing to the condition. -/
def clause (comparator name : String) : Option String :=
  if name = "subtopic" then some " AND subtopic = :subtopic"
  else if name = "publisher" then some " AND publisher = :publisher"
  else if name = "name" then some " AND name = :name"
  else if name = "protocol" then some " AND protocol = :protocol"
  else if name = "v" then some (" AND value " ++ comparator ++ " :value")
  else if name = "vb" then some " AND bool_value = :bool_value"
  else if name = "vd" then some (" AND data_value " ++ comparator ++ " :data_value")
  else if name = "from" then some " AND time >= :from"
  else if name = "to" then some " AND time < :to"
  else if name = "vs" then
    if comparator = "=" then some " AND string_value = :string_value "
    else if comparator = ">" then
      some " AND string_value LIKE '%' || :string_value || '%' AND string_value <> :string_value"
    else if comparator = ">=" then some " AND string_value LIKE '%' || :string_value || '%'"
    else if comparator = "<=" then some " AND :string_value LIKE '%' || string_value || '%'"
    else if comparator = "<" then
      some " AND :string_value LIKE '%' || string_value || '%' AND string_value <> :string_value"
    else none
  else none

/-- The clauses of the keys of a query, in the order of the keys. -/
def clauses {V : Type} (comparator : String) (query : List (String × V)) : List String :=
  query.filterMap fun kv => clause comparator kv.1

/-- Dependencies for the worked examples: page metadata and JSON text are the
list of entries, the comparator is read off the entry `comparator`. -/
def d0 : Deps (List (String × String)) (List (String × String)) String :=
  { Marshal := fun rpm => some rpm
    Unmarshal := fun meta => some meta
    ParseValueComparator := fun query =>
      match query.lookup "comparator" with
      | some "lt" => "<"
      | some "le" => "<="
      | some "gt" => ">"
      | some "ge" => ">="
      | _ => "=" }

end timescale

namespace timescale

/-- The comparator symbols of the `vs` case of `fmtCondition`. -/
def comparators : List String := ["=", ">", ">=", "<=", "<"]

/-- The clauses `fmtCondition` can add under those comparators, as text. -/
def fixedClauses : List String :=
  [" AND subtopic = :subtopic", " AND publisher = :publisher", " AND name = :name",
    " AND protocol = :protocol",
    " AND value = :value", " AND value > :value", " AND value >= :value",
    " AND value <= :value", " AND value < :value",
    " AND bool_value = :bool_value",
    " AND string_value = :string_value ",
    " AND string_value LIKE '%' || :string_value || '%' AND string_value <> :string_value",
    " AND string_value LIKE '%' || :string_value || '%'",
    " AND :string_value LIKE '%' || string_value || '%'",
    " AND :string_value LIKE '%' || string_value || '%' AND string_value <> :string_value",
    " AND data_value = :data_value", " AND data_value > :data_value",
    " AND data_value >= :data_value", " AND data_value <= :data_value",
    " AND data_value < :data_value",
    " AND time >= :from", " AND time < :to"]

/-- Dependencies for the worked examples whose `ParseValueComparator` answers
the entry `comparator` of the query as it stands, and `=` without one. -/
def dRaw : Deps (List (String × String)) (List (String × String)) String :=
  { Marshal := fun rpm => some rpm
    Unmarshal := fun meta => some meta
    ParseValueComparator := fun query => (query.lookup "comparator").getD "=" }

end timescale

/-! ## Theorems -/

namespace redis

theorem attempts_append (l₁ l₂ : List (Cmd × error)) :
    attempts (l₁ ++ l₂) = attempts l₁ ++ attempts l₂ := by
  induction l₁ with
  | nil => rfl
  | cons x rest ih =>
    obtain ⟨cmd, e⟩ := x
    cases cmd <;> simp [attempts, ih]

theorem appended_append (l₁ l₂ : List (Cmd × error)) :
    appended (l₁ ++ l₂) = appended l₁ ++ appended l₂ := by
  induction l₁ with
  | nil => rfl
  | cons x rest ih =>
    obtain ⟨cmd, e⟩ := x
    cases cmd <;> cases e <;> simp [appended, ih]

end redis

namespace producer

open redis

variable {T : Types}

/-- The result of `publish` when the event does not encode. -/
theorem publish_of_encode_fails (d : Deps T) (es : eventStore T) (ev : event T)
    (henc : (d.encode ev).2 ≠ none) : es.publish d ev = (es, (d.encode ev).2) := by
  simp [eventStore.publish, henc]

/-- The result of `publish` when the event encodes and the probe fails. -/
theorem publish_of_probe_fails (d : Deps T) (es : eventStore T) (ev : event T)
    (henc : (d.encode ev).2 = none) (hping : es.client.Ping.2 ≠ none) :
    es.publish d ev =
      ({ es with
          client := es.client.Ping.1
          unpublishedEvents := es.unpublishedEvents ++ [record (d.encode ev).1] }, none) := by
  simp [eventStore.publish, eventStore.checkRedisConnection, henc, hping]

/-- The result of `publish` when the event encodes and the probe succeeds. -/
theorem publish_of_probe_ok (d : Deps T) (es : eventStore T) (ev : event T)
    (henc : (d.encode ev).2 = none) (hping : es.client.Ping.2 = none) :
    es.publish d ev =
      ({ es with client := (es.client.Ping.1.XAdd (record (d.encode ev).1)).1 },
        (es.client.Ping.1.XAdd (record (d.encode ev).1)).2) := by
  simp [eventStore.publish, eventStore.checkRedisConnection, henc, hping]

/-- C1: when the event encodes and the connectivity probe fails, `publish`
returns no error, the unpublished buffer is the previous buffer with the
record of the event added at the end, and the only command sent to the store
is the probe: no append is attempted. -/
theorem publish_probe_fails_enqueues (d : Deps T) (es : eventStore T) (ev : event T)
    (henc : (d.encode ev).2 = none) (hping : es.client.Ping.2 ≠ none) :
    (es.publish d ev).2 = none ∧
    (es.publish d ev).1.unpublishedEvents
      = es.unpublishedEvents ++ [record (d.encode ev).1] ∧
    (es.publish d ev).1.client.sent = es.client.sent ++ [(Cmd.Ping, es.client.Ping.2)] ∧
    attempts (es.publish d ev).1.client.sent = attempts es.client.sent := by
  rw [publish_of_probe_fails d es ev henc hping]
  simp [Client.Ping, Client.send, attempts_append, attempts]

/-- C1 at a concrete input: a configuration event published while the store
is down. -/
theorem publish_probe_fails_enqueues_witness :
    (d0.encode (event.configEvent "cfg" operation.configCreate)).2 = none ∧
    (NewEventStoreMiddleware svcOk storeDown).client.Ping.2 ≠ none ∧
    ((NewEventStoreMiddleware svcOk storeDown).publish d0
        (event.configEvent "cfg" operation.configCreate)).1.unpublishedEvents
      = [⟨"mainflux.bootstrap", 1000, [("config", "cfg"), ("operation", "create")]⟩] :=
  ⟨rfl, by decide,
    (publish_probe_fails_enqueues d0 (NewEventStoreMiddleware svcOk storeDown)
      (event.configEvent "cfg" operation.configCreate) rfl (by decide)).2.1⟩

/-- One iteration of the flush loop at index `i`, when the index is in range. -/
theorem flush_succ (es : eventStore T) (i : Nat) (r : XAddArgs)
    (h : es.unpublishedEvents[i]? = some r) :
    es.flush (i + 1) =
      eventStore.flush
        { es with
          client := (es.client.XAdd r).1
          unpublishedEvents :=
            if (es.client.XAdd r).2 = none then
              es.unpublishedEvents.take i ++ es.unpublishedEvents.drop (i + 1)
            else es.unpublishedEvents } i := by
  rw [eventStore.flush, h]
  by_cases hx : (es.client.XAdd r).2 = none <;> simp [hx]

/-- The flush loop started at index `i - 1` on a buffer whose first `i`
records are those of `buf` and whose other records are the records of `buf`
from index `i` on whose append failed: it ends, every index it reads is in
range, and it leaves the records of `buf` whose append failed.  The append of
the record at index `j` is the command number `k + (buf.length - 1 - j)`. -/
theorem flush_loop (reply : Nat → Cmd → error) (k : Nat) (buf : List XAddArgs) :
    ∀ (i : Nat), i ≤ buf.length → ∀ (es : eventStore T),
      es.unpublishedEvents = buf.take i ++
        (((buf.drop i).enumFrom i).filter
          fun p => (reply (k + (buf.length - 1 - p.1)) (Cmd.XAdd p.2)).isSome).map Prod.snd →
      es.client.reply = reply →
      es.client.sent.length = k + (buf.length - i) →
      ∃ es' : eventStore T, es.flush i = some es' ∧
        es'.unpublishedEvents =
          ((buf.enum.filter
            fun p => (reply (k + (buf.length - 1 - p.1)) (Cmd.XAdd p.2)).isSome).map Prod.snd) ∧
        es'.svc = es.svc ∧ es'.client.reply = reply ∧
        es'.client.sent = es.client.sent ++
          ((buf.take i).enum.reverse.map
            fun p => (Cmd.XAdd p.2, reply (k + (buf.length - 1 - p.1)) (Cmd.XAdd p.2))) := by
  intro i
  induction i with
  | zero =>
    intro _ es hbuf hreply _
    refine ⟨es, rfl, ?_, rfl, hreply, ?_⟩
    · simpa [List.enum] using hbuf
    · simp [List.enum]
  | succ i ih =>
    intro hi es hbuf hreply hlen
    have hlt : i < buf.length := hi
    have hget : es.unpublishedEvents[i]? = some buf[i] := by
      rw [hbuf, List.getElem?_append_left (by simp; omega), List.getElem?_take_of_lt (by omega)]
      exact List.getElem?_eq_getElem hlt
    have herr : (es.client.XAdd buf[i]).2 = reply (k + (buf.length - 1 - i)) (Cmd.XAdd buf[i]) := by
      simp only [Client.XAdd, Client.send, hreply, hlen]
      congr 2
      omega
    have htake : buf.take (i + 1) = buf.take i ++ [buf[i]] := by
      rw [List.take_succ, List.getElem?_eq_getElem hlt]; rfl
    have hdrop : buf.drop i = buf[i] :: buf.drop (i + 1) := List.drop_eq_getElem_cons hlt
    rw [flush_succ es i buf[i] hget]
    obtain ⟨es', hfl, hb, hs, hr, hsent⟩ := ih (by omega)
      { es with
          client := (es.client.XAdd buf[i]).1
          unpublishedEvents :=
            if (es.client.XAdd buf[i]).2 = none then
              es.unpublishedEvents.take i ++ es.unpublishedEvents.drop (i + 1)
            else es.unpublishedEvents }
      (by
        have hl : (buf.take i).length = i := by simp; omega
        rw [hdrop, List.enumFrom_cons, List.filter_cons]
        by_cases hx : (es.client.XAdd buf[i]).2 = none
        · have hx' := hx
          rw [herr] at hx'
          simp only [hx, if_true, hx', Option.isSome_none]
          rw [hbuf, htake, List.append_assoc, List.take_left' hl,
            ← List.append_assoc, List.drop_left' (by simp; omega)]
          simp
        · have hx' := hx
          rw [herr] at hx'
          have hsome : (reply (k + (buf.length - 1 - i)) (Cmd.XAdd buf[i])).isSome = true :=
            Option.isSome_iff_ne_none.mpr hx'
          simp only [hx, if_false, hsome, if_true, List.map_cons]
          rw [hbuf, htake, List.append_assoc]
          simp)
      (by simp [Client.XAdd, Client.send, hreply])
      (by simp [Client.XAdd, Client.send, hlen]; omega)
    refine ⟨es', hfl, hb, hs, hr, ?_⟩
    rw [hsent, htake, List.enum_append]
    simp [Client.XAdd, Client.send, hreply, hlen, List.enumFrom_cons]
    congr 2
    have hl : (buf.take i).length = i := by simp; omega
    omega

/-- A flush cycle whose probe succeeds: the cycle ends, the buffer it leaves
is made of the records whose append failed, and the store has received the
probe and then one append for each record, newest record first. -/
theorem tick_of_probe_ok (es : eventStore T) (hping : es.client.Ping.2 = none) :
    ∃ es' : eventStore T, es.tick = some es' ∧
      es'.unpublishedEvents =
        ((es.unpublishedEvents.enum.filter fun p =>
          (es.client.reply (es.client.sent.length + 1 + (es.unpublishedEvents.length - 1 - p.1))
            (Cmd.XAdd p.2)).isSome).map Prod.snd) ∧
      List.Sublist es'.unpublishedEvents es.unpublishedEvents ∧
      es'.client.sent = es.client.sent ++ (Cmd.Ping, none) ::
        (es.unpublishedEvents.enum.reverse.map fun p =>
          (Cmd.XAdd p.2,
            es.client.reply (es.client.sent.length + 1 + (es.unpublishedEvents.length - 1 - p.1))
              (Cmd.XAdd p.2))) := by
  have hping' : es.client.reply es.client.sent.length Cmd.Ping = none := hping
  obtain ⟨es', hfl, hb, _, _, hsent⟩ :=
    flush_loop es.client.reply (es.client.sent.length + 1) es.unpublishedEvents
      es.unpublishedEvents.length (Nat.le_refl _)
      ({ es with client := es.client.Ping.1 } : eventStore T)
      (by simp) rfl (by simp [Client.Ping, Client.send])
  refine ⟨es', ?_, hb, ?_, ?_⟩
  · simpa [eventStore.tick, eventStore.checkRedisConnection, hping] using hfl
  · rw [hb]
    have h := (List.filter_sublist (l := es.unpublishedEvents.enum)
      (p := fun p => (es.client.reply (es.client.sent.length + 1 +
        (es.unpublishedEvents.length - 1 - p.1)) (Cmd.XAdd p.2)).isSome)).map Prod.snd
    simpa [List.enum_map_snd] using h
  · rw [hsent]
    simp [Client.Ping, Client.send, hping']

/-- C3: a flush cycle whose probe succeeds ends and leaves exactly the records
of the starting buffer whose append failed, in their original order (so the
result is a subsequence of the starting buffer).  The record at index `i` is
appended by the command that follows the probe and the appends of the records
after it; the log of the store shows these appends with their answers. -/
theorem tick_keeps_failed_appends (es : eventStore T) (hping : es.client.Ping.2 = none) :
    ∃ es' : eventStore T, es.tick = some es' ∧
      es'.unpublishedEvents =
        ((es.unpublishedEvents.enum.filter fun p =>
          (es.client.reply (es.client.sent.length + 1 + (es.unpublishedEvents.length - 1 - p.1))
            (Cmd.XAdd p.2)).isSome).map Prod.snd) ∧
      List.Sublist es'.unpublishedEvents es.unpublishedEvents ∧
      es'.client.sent = es.client.sent ++ (Cmd.Ping, none) ::
        (es.unpublishedEvents.enum.reverse.map fun p =>
          (Cmd.XAdd p.2,
            es.client.reply (es.client.sent.length + 1 + (es.unpublishedEvents.length - 1 - p.1))
              (Cmd.XAdd p.2))) := by
  obtain ⟨es', h1, h2, h3, h4⟩ := tick_of_probe_ok es hping
  exact ⟨es', h1, h2, h3, h4⟩

/-- C3 at a concrete input: of the buffered records `a`, `b`, `c` the store
refuses `c` (first append) and `a` (third append) and accepts `b`. -/
theorem tick_keeps_failed_appends_witness :
    esBuffered.client.Ping.2 = none ∧
    ∃ es' : eventStore T0, esBuffered.tick = some es' ∧
      es'.unpublishedEvents = [rec0 "a", rec0 "c"] :=
  ⟨rfl, by
    obtain ⟨es', h1, h2, _⟩ := tick_keeps_failed_appends esBuffered rfl
    exact ⟨es', h1, by rw [h2]; decide⟩⟩

end producer

/-- C4, as amended: when the wrapped call fails with the error `e`, every
operation of the two middlewares other than the bootstrap middleware's
`Bootstrap` returns exactly `e`, whatever the state of the store; `Bootstrap`
publishes its event with the success flag off and returns the error of that
publish when there is one, and `e` otherwise. -/
theorem service_error_is_returned {T : producer.Types} {P : policies.Types}
    (d : producer.Deps T) (es : producer.eventStore T)
    (Encode : policies.event P → List (String × String)) (ps : policies.eventStore P)
    (e : String) :
    (∀ token cfg, (es.svc.Add token cfg).2 = some e → (es.Add d token cfg).2.2 = some e) ∧
    (∀ token id, (es.svc.View token id).2 = some e → (es.View d token id).2.2 = some e) ∧
    (∀ token cfg, es.svc.Update token cfg = some e → (es.Update d token cfg).2 = some e) ∧
    (∀ token thingKey clientCert clientKey caCert,
      (es.svc.UpdateCert token thingKey clientCert clientKey caCert).2 = some e →
      (es.UpdateCert d token thingKey clientCert clientKey caCert).2.2 = some e) ∧
    (∀ token id connections, es.svc.UpdateConnections token id connections = some e →
      (es.UpdateConnections d token id connections).2 = some e) ∧
    (∀ token filter offset limit, (es.svc.List token filter offset limit).2 = some e →
      (es.List d token filter offset limit).2.2 = some e) ∧
    (∀ token id, es.svc.Remove token id = some e → (es.Remove d token id).2 = some e) ∧
    (∀ token id state, es.svc.ChangeState token id state = some e →
      (es.ChangeState d token id state).2 = some e) ∧
    (∀ id, es.svc.RemoveConfigHandler id = some e →
      (es.RemoveConfigHandler d id).2 = some e) ∧
    (∀ id, es.svc.RemoveChannelHandler id = some e →
      (es.RemoveChannelHandler d id).2 = some e) ∧
    (∀ channel, es.svc.UpdateChannelHandler channel = some e →
      (es.UpdateChannelHandler d channel).2 = some e) ∧
    (∀ channelID thingID, es.svc.DisconnectThingHandler channelID thingID = some e →
      (es.DisconnectThingHandler d channelID thingID).2 = some e) ∧
    (∀ externalKey externalID secure,
      (es.svc.Bootstrap externalKey externalID secure).2 = some e →
      (es.Bootstrap d externalKey externalID secure).2.2 =
        if (es.publish d (producer.event.bootstrapEvent
              (es.svc.Bootstrap externalKey externalID secure).1 externalID false)).2 ≠ none
        then (es.publish d (producer.event.bootstrapEvent
              (es.svc.Bootstrap externalKey externalID secure).1 externalID false)).2
        else some e) ∧
    (∀ ar entity, (ps.svc.Authorize ar entity).2 = some e →
      (ps.Authorize Encode ar entity).2.2 = some e) ∧
    (∀ token policy, (ps.svc.AddPolicy token policy).2 = some e →
      (ps.AddPolicy Encode token policy).2.2 = some e) ∧
    (∀ token policy, (ps.svc.UpdatePolicy token policy).2 = some e →
      (ps.UpdatePolicy Encode token policy).2.2 = some e) ∧
    (∀ token page, (ps.svc.ListPolicies token page).2 = some e →
      (ps.ListPolicies Encode token page).2.2 = some e) ∧
    (∀ token policy, ps.svc.DeletePolicy token policy = some e →
      (ps.DeletePolicy Encode token policy).2 = some e) := by
  refine ⟨?_, ?_, ?_, ?_, ?_, ?_, ?_, ?_, ?_, ?_, ?_, ?_, ?_, ?_, ?_, ?_, ?_, ?_⟩
  · intro token cfg h; simp [producer.eventStore.Add, h]
  · intro token id h; simp [producer.eventStore.View, h]
  · intro token cfg h; simp [producer.eventStore.Update, h]
  · intro token thingKey clientCert clientKey caCert h
    simp [producer.eventStore.UpdateCert, h]
  · intro token id connections h; simp [producer.eventStore.UpdateConnections, h]
  · intro token filter offset limit h; simp [producer.eventStore.List, h]
  · intro token id h; simp [producer.eventStore.Remove, h]
  · intro token id state h; simp [producer.eventStore.ChangeState, h]
  · intro id h; simp [producer.eventStore.RemoveConfigHandler, h]
  · intro id h; simp [producer.eventStore.RemoveChannelHandler, h]
  · intro channel h; simp [producer.eventStore.UpdateChannelHandler, h]
  · intro channelID thingID h; simp [producer.eventStore.DisconnectThingHandler, h]
  · intro externalKey externalID secure h
    simp only [producer.eventStore.Bootstrap, h]
    by_cases hp : (es.publish d (producer.event.bootstrapEvent
        (es.svc.Bootstrap externalKey externalID secure).1 externalID false)).2 = none
    · simp [hp]
    · simp [hp]
  · intro ar entity h; simp [policies.eventStore.Authorize, h]
  · intro token policy h; simp [policies.eventStore.AddPolicy, h]
  · intro token policy h; simp [policies.eventStore.UpdatePolicy, h]
  · intro token page h; simp [policies.eventStore.ListPolicies, h]
  · intro token policy h; simp [policies.eventStore.DeletePolicy, h]

/-- C4, as amended, at concrete inputs: `Update` and `AddPolicy` of failing
services hand the error `e` back, also in front of a store that refuses every
append. -/
theorem service_error_is_returned_witness :
    producer.svcFail.Update "token" "cfg" = some "e" ∧
    ((producer.NewEventStoreMiddleware producer.svcFail producer.storeRejects).Update
      producer.d0 "token" "cfg").2 = some "e" ∧
    (policies.svcFail.AddPolicy "token" "p").2 = some "e" ∧
    ((policies.NewEventStoreMiddleware policies.svcFail producer.storeRejects).AddPolicy
      policies.Encode0 "token" "p").2.2 = some "e" :=
  ⟨rfl,
    (service_error_is_returned producer.d0
      (producer.NewEventStoreMiddleware producer.svcFail producer.storeRejects)
      policies.Encode0
      (policies.NewEventStoreMiddleware policies.svcFail producer.storeRejects)
      "e").2.2.1 "token" "cfg" rfl,
    rfl,
    (service_error_is_returned producer.d0
      (producer.NewEventStoreMiddleware producer.svcFail producer.storeRejects)
      policies.Encode0
      (policies.NewEventStoreMiddleware policies.svcFail producer.storeRejects)
      "e").2.2.2.2.2.2.2.2.2.2.2.2.2.2.1 "token" "p" rfl⟩

/-- C4 fails as stated: the wrapped `Bootstrap` fails with `e`, the store
answers the probe and refuses the append, and the middleware's `Bootstrap`
returns the error of the append, not `e`. -/
theorem Bootstrap_returns_publish_error :
    (producer.svcFail.Bootstrap "key" "id" false).2 = some "e" ∧
    ((producer.NewEventStoreMiddleware producer.svcFail producer.storeRejects).Bootstrap
      producer.d0 "key" "id" false).2.2 = some "refused" ∧
    ((producer.NewEventStoreMiddleware producer.svcFail producer.storeRejects).Bootstrap
      producer.d0 "key" "id" false).2.2 ≠ some "e" := by
  refine ⟨rfl, ?_, ?_⟩ <;> decide

/-- C5, as amended: when the wrapped call fails, every operation of the two
middlewares other than the bootstrap middleware's `Bootstrap` leaves the
middleware as it was: no command is sent to the store (no probe, no append)
and the unpublished buffer is unchanged.  `Bootstrap` publishes its event
with the success flag off. -/
theorem failed_call_emits_nothing {T : producer.Types} {P : policies.Types}
    (d : producer.Deps T) (es : producer.eventStore T)
    (Encode : policies.event P → List (String × String)) (ps : policies.eventStore P) :
    (∀ token cfg, (es.svc.Add token cfg).2 ≠ none → (es.Add d token cfg).1 = es) ∧
    (∀ token id, (es.svc.View token id).2 ≠ none → (es.View d token id).1 = es) ∧
    (∀ token cfg, es.svc.Update token cfg ≠ none → (es.Update d token cfg).1 = es) ∧
    (∀ token thingKey clientCert clientKey caCert,
      (es.svc.UpdateCert token thingKey clientCert clientKey caCert).2 ≠ none →
      (es.UpdateCert d token thingKey clientCert clientKey caCert).1 = es) ∧
    (∀ token id connections, es.svc.UpdateConnections token id connections ≠ none →
      (es.UpdateConnections d token id connections).1 = es) ∧
    (∀ token filter offset limit, (es.svc.List token filter offset limit).2 ≠ none →
      (es.List d token filter offset limit).1 = es) ∧
    (∀ token id, es.svc.Remove token id ≠ none → (es.Remove d token id).1 = es) ∧
    (∀ token id state, es.svc.ChangeState token id state ≠ none →
      (es.ChangeState d token id state).1 = es) ∧
    (∀ id, es.svc.RemoveConfigHandler id ≠ none → (es.RemoveConfigHandler d id).1 = es) ∧
    (∀ id, es.svc.RemoveChannelHandler id ≠ none → (es.RemoveChannelHandler d id).1 = es) ∧
    (∀ channel, es.svc.UpdateChannelHandler channel ≠ none →
      (es.UpdateChannelHandler d channel).1 = es) ∧
    (∀ channelID thingID, es.svc.DisconnectThingHandler channelID thingID ≠ none →
      (es.DisconnectThingHandler d channelID thingID).1 = es) ∧
    (∀ externalKey externalID secure,
      (es.svc.Bootstrap externalKey externalID secure).2 ≠ none →
      (es.Bootstrap d externalKey externalID secure).1 =
        (es.publish d (producer.event.bootstrapEvent
          (es.svc.Bootstrap externalKey externalID secure).1 externalID false)).1) ∧
    (∀ ar entity, (ps.svc.Authorize ar entity).2 ≠ none →
      (ps.Authorize Encode ar entity).1 = ps) ∧
    (∀ token policy, (ps.svc.AddPolicy token policy).2 ≠ none →
      (ps.AddPolicy Encode token policy).1 = ps) ∧
    (∀ token policy, (ps.svc.UpdatePolicy token policy).2 ≠ none →
      (ps.UpdatePolicy Encode token policy).1 = ps) ∧
    (∀ token page, (ps.svc.ListPolicies token page).2 ≠ none →
      (ps.ListPolicies Encode token page).1 = ps) ∧
    (∀ token policy, ps.svc.DeletePolicy token policy ≠ none →
      (ps.DeletePolicy Encode token policy).1 = ps) := by
  refine ⟨?_, ?_, ?_, ?_, ?_, ?_, ?_, ?_, ?_, ?_, ?_, ?_, ?_, ?_, ?_, ?_, ?_, ?_⟩
  · intro token cfg h; simp [producer.eventStore.Add, h]
  · intro token id h; simp [producer.eventStore.View, h]
  · intro token cfg h; simp [producer.eventStore.Update, h]
  · intro token thingKey clientCert clientKey caCert h
    simp [producer.eventStore.UpdateCert, h]
  · intro token id connections h; simp [producer.eventStore.UpdateConnections, h]
  · intro token filter offset limit h; simp [producer.eventStore.List, h]
  · intro token id h; simp [producer.eventStore.Remove, h]
  · intro token id state h; simp [producer.eventStore.ChangeState, h]
  · intro id h; simp [producer.eventStore.RemoveConfigHandler, h]
  · intro id h; simp [producer.eventStore.RemoveChannelHandler, h]
  · intro channel h; simp [producer.eventStore.UpdateChannelHandler, h]
  · intro channelID thingID h; simp [producer.eventStore.DisconnectThingHandler, h]
  · intro externalKey externalID secure h
    simp only [producer.eventStore.Bootstrap, if_pos h]
    split <;> rfl
  · intro ar entity h; simp [policies.eventStore.Authorize, h]
  · intro token policy h; simp [policies.eventStore.AddPolicy, h]
  · intro token policy h; simp [policies.eventStore.UpdatePolicy, h]
  · intro token page h; simp [policies.eventStore.ListPolicies, h]
  · intro token policy h; simp [policies.eventStore.DeletePolicy, h]

/-- C5, as amended, at concrete inputs: a failing `Add` in front of a store
that is up sends it no command. -/
theorem failed_call_emits_nothing_witness :
    (producer.svcFail.Add "token" "cfg").2 ≠ none ∧
    ((producer.NewEventStoreMiddleware producer.svcFail producer.storeUp).Add
      producer.d0 "token" "cfg").1.client.sent = [] ∧
    ((producer.NewEventStoreMiddleware producer.svcFail producer.storeUp).Add
      producer.d0 "token" "cfg").1.unpublishedEvents = [] :=
  ⟨by decide,
    by rw [(failed_call_emits_nothing producer.d0
      (producer.NewEventStoreMiddleware producer.svcFail producer.storeUp) policies.Encode0
      (policies.NewEventStoreMiddleware policies.svcFail producer.storeUp)).1
        "token" "cfg" (by decide)]; rfl,
    by rw [(failed_call_emits_nothing producer.d0
      (producer.NewEventStoreMiddleware producer.svcFail producer.storeUp) policies.Encode0
      (policies.NewEventStoreMiddleware policies.svcFail producer.storeUp)).1
        "token" "cfg" (by decide)]; rfl⟩

/-- C5 fails as stated: the wrapped `Bootstrap` fails, and the middleware's
`Bootstrap` still emits its event: in front of a store that is down the
buffer grows by the record, in front of a store that is up the record is
appended to the stream. -/
theorem Bootstrap_failure_emits_event :
    (producer.svcFail.Bootstrap "key" "id" false).2 ≠ none ∧
    ((producer.NewEventStoreMiddleware producer.svcFail producer.storeDown).Bootstrap
      producer.d0 "key" "id" false).1.unpublishedEvents
        = [producer.record [("config", ""), ("success", "0")]] ∧
    redis.attempts
      ((producer.NewEventStoreMiddleware producer.svcFail producer.storeUp).Bootstrap
        producer.d0 "key" "id" false).1.client.sent
        = [producer.record [("config", ""), ("success", "0")]] := by
  refine ⟨by decide, ?_, ?_⟩ <;> decide

/-- C6, as amended: when the wrapped call succeeds, every operation of the
bootstrap middleware returns the error of `publish`: for an event that encodes
this is no error when the probe fails, and the answer of the append when the
probe succeeds (no error when the append succeeds, the append's error when it
fails).  `Add`, `View`, `List` and `Bootstrap` return the wrapped service's
result in every case, and `Add`, `View` and `List` pass a publish error
through `errors.Wrap`.  Every operation of the thing-policies middleware
returns the answer of its append as its error, and the wrapped service's
result when the append succeeds. -/
theorem successful_call_result {T : producer.Types} {P : policies.Types}
    (d : producer.Deps T) (es : producer.eventStore T)
    (Encode : policies.event P → List (String × String)) (ps : policies.eventStore P) :
    (∀ ev, (d.encode ev).2 = none → es.client.Ping.2 ≠ none → (es.publish d ev).2 = none) ∧
    (∀ ev, (d.encode ev).2 = none → es.client.Ping.2 = none →
      (es.publish d ev).2 = (es.client.Ping.1.XAdd (producer.record (d.encode ev).1)).2) ∧
    (∀ token cfg, (es.svc.Add token cfg).2 = none →
      (es.Add d token cfg).2.1 = (es.svc.Add token cfg).1 ∧
      (es.Add d token cfg).2.2 =
        if (es.publish d (producer.event.configEvent (es.svc.Add token cfg).1
              producer.operation.configCreate)).2 ≠ none
        then d.Wrap none (es.publish d (producer.event.configEvent (es.svc.Add token cfg).1
              producer.operation.configCreate)).2
        else none) ∧
    (∀ token id, (es.svc.View token id).2 = none →
      (es.View d token id).2.1 = (es.svc.View token id).1 ∧
      (es.View d token id).2.2 =
        if (es.publish d (producer.event.configEvent (es.svc.View token id).1
              producer.operation.configList)).2 ≠ none
        then d.Wrap none (es.publish d (producer.event.configEvent (es.svc.View token id).1
              producer.operation.configList)).2
        else none) ∧
    (∀ token cfg, es.svc.Update token cfg = none →
      (es.Update d token cfg).2 =
        (es.publish d (producer.event.configEvent cfg producer.operation.configUpdate)).2) ∧
    (∀ token thingKey clientCert clientKey caCert,
      (es.svc.UpdateCert token thingKey clientCert clientKey caCert).2 = none →
      (es.UpdateCert d token thingKey clientCert clientKey caCert).2.2 =
        (es.publish d (producer.event.updateCertEvent thingKey clientCert clientKey caCert)).2) ∧
    (∀ token id connections, es.svc.UpdateConnections token id connections = none →
      (es.UpdateConnections d token id connections).2 =
        (es.publish d (producer.event.updateConnectionsEvent id connections)).2) ∧
    (∀ token filter offset limit, (es.svc.List token filter offset limit).2 = none →
      (es.List d token filter offset limit).2.1 = (es.svc.List token filter offset limit).1 ∧
      (es.List d token filter offset limit).2.2 =
        if (es.publish d (producer.event.listConfigsEvent offset limit filter.FullMatch
              filter.PartialMatch)).2 ≠ none
        then d.Wrap none (es.publish d (producer.event.listConfigsEvent offset limit
              filter.FullMatch filter.PartialMatch)).2
        else none) ∧
    (∀ token id, es.svc.Remove token id = none →
      (es.Remove d token id).2 = (es.publish d (producer.event.removeConfigEvent id)).2) ∧
    (∀ externalKey externalID secure, (es.svc.Bootstrap externalKey externalID secure).2 = none →
      (es.Bootstrap d externalKey externalID secure).2.1 =
        (es.svc.Bootstrap externalKey externalID secure).1 ∧
      (es.Bootstrap d externalKey externalID secure).2.2 =
        (es.publish d (producer.event.bootstrapEvent
          (es.svc.Bootstrap externalKey externalID secure).1 externalID true)).2) ∧
    (∀ token id state, es.svc.ChangeState token id state = none →
      (es.ChangeState d token id state).2 =
        (es.publish d (producer.event.changeStateEvent id state)).2) ∧
    (∀ id, es.svc.RemoveConfigHandler id = none →
      (es.RemoveConfigHandler d id).2 =
        (es.publish d (producer.event.removeHandlerEvent id
          producer.operation.configHandlerRemove)).2) ∧
    (∀ id, es.svc.RemoveChannelHandler id = none →
      (es.RemoveChannelHandler d id).2 =
        (es.publish d (producer.event.removeHandlerEvent id
          producer.operation.channelHandlerRemove)).2) ∧
    (∀ channel, es.svc.UpdateChannelHandler channel = none →
      (es.UpdateChannelHandler d channel).2 =
        (es.publish d (producer.event.updateChannelHandlerEvent channel)).2) ∧
    (∀ channelID thingID, es.svc.DisconnectThingHandler channelID thingID = none →
      (es.DisconnectThingHandler d channelID thingID).2 =
        (es.publish d (producer.event.disconnectThingEvent channelID thingID)).2) ∧
    (∀ ar entity, (ps.svc.Authorize ar entity).2 = none →
      (ps.Authorize Encode ar entity).2.2 =
        (ps.client.XAdd (policies.record Encode (policies.event.authorizeEvent ar entity))).2 ∧
      (ps.Authorize Encode ar entity).2.1 = (ps.svc.Authorize ar entity).1) ∧
    (∀ token policy, (ps.svc.AddPolicy token policy).2 = none →
      (ps.AddPolicy Encode token policy).2.2 =
        (ps.client.XAdd (policies.record Encode (policies.event.policyEvent
          (ps.svc.AddPolicy token policy).1 policies.operation.policyAdd))).2 ∧
      ((ps.AddPolicy Encode token policy).2.2 = none →
        (ps.AddPolicy Encode token policy).2.1 = (ps.svc.AddPolicy token policy).1)) ∧
    (∀ token policy, (ps.svc.UpdatePolicy token policy).2 = none →
      (ps.UpdatePolicy Encode token policy).2.2 =
        (ps.client.XAdd (policies.record Encode (policies.event.policyEvent
          (ps.svc.UpdatePolicy token policy).1 policies.operation.policyUpdate))).2 ∧
      ((ps.UpdatePolicy Encode token policy).2.2 = none →
        (ps.UpdatePolicy Encode token policy).2.1 = (ps.svc.UpdatePolicy token policy).1)) ∧
    (∀ token page, (ps.svc.ListPolicies token page).2 = none →
      (ps.ListPolicies Encode token page).2.2 =
        (ps.client.XAdd (policies.record Encode (policies.event.listPoliciesEvent page))).2 ∧
      ((ps.ListPolicies Encode token page).2.2 = none →
        (ps.ListPolicies Encode token page).2.1 = (ps.svc.ListPolicies token page).1)) ∧
    (∀ token policy, ps.svc.DeletePolicy token policy = none →
      (ps.DeletePolicy Encode token policy).2 =
        (ps.client.XAdd (policies.record Encode (policies.event.policyEvent policy
          policies.operation.policyDelete))).2) := by
  refine ⟨?_, ?_, ?_, ?_, ?_, ?_, ?_, ?_, ?_, ?_, ?_, ?_, ?_, ?_, ?_, ?_, ?_, ?_, ?_, ?_⟩
  · intro ev henc hping; rw [producer.publish_of_probe_fails d es ev henc hping]
  · intro ev henc hping; rw [producer.publish_of_probe_ok d es ev henc hping]
  · intro token cfg h
    simp [producer.eventStore.Add, h]
    split <;> simp_all
  · intro token id h
    simp [producer.eventStore.View, h]
    split <;> simp_all
  · intro token cfg h; simp [producer.eventStore.Update, h]
  · intro token thingKey clientCert clientKey caCert h
    simp [producer.eventStore.UpdateCert, h]
  · intro token id connections h; simp [producer.eventStore.UpdateConnections, h]
  · intro token filter offset limit h
    simp [producer.eventStore.List, h]
    split <;> simp_all
  · intro token id h; simp [producer.eventStore.Remove, h]
  · intro externalKey externalID secure h
    simp [producer.eventStore.Bootstrap, h]
    split <;> simp_all
  · intro token id state h; simp [producer.eventStore.ChangeState, h]
  · intro id h; simp [producer.eventStore.RemoveConfigHandler, h]
  · intro id h; simp [producer.eventStore.RemoveChannelHandler, h]
  · intro channel h; simp [producer.eventStore.UpdateChannelHandler, h]
  · intro channelID thingID h; simp [producer.eventStore.DisconnectThingHandler, h]
  · intro ar entity h
    simp [policies.eventStore.Authorize, h]
    split <;> simp_all
  · intro token policy h
    simp [policies.eventStore.AddPolicy, h]
    split <;> simp_all
  · intro token policy h
    simp [policies.eventStore.UpdatePolicy, h]
    split <;> simp_all
  · intro token page h
    simp [policies.eventStore.ListPolicies, h]
    split <;> simp_all
  · intro token policy h
    simp [policies.eventStore.DeletePolicy, h]
    split <;> simp_all

/-- C6, as amended, at a concrete input: `Update` in front of a store that is
down returns no error. -/
theorem successful_call_result_witness :
    producer.svcOk.Update "token" "cfg" = none ∧
    (producer.NewEventStoreMiddleware producer.svcOk producer.storeDown).client.Ping.2 ≠ none ∧
    ((producer.NewEventStoreMiddleware producer.svcOk producer.storeDown).Update
      producer.d0 "token" "cfg").2 = none :=
  ⟨rfl, by decide,
    ((successful_call_result producer.d0
        (producer.NewEventStoreMiddleware producer.svcOk producer.storeDown) policies.Encode0
        (policies.NewEventStoreMiddleware policies.svcOk producer.storeDown)).2.2.2.2.1
      "token" "cfg" rfl).trans
    ((successful_call_result producer.d0
        (producer.NewEventStoreMiddleware producer.svcOk producer.storeDown) policies.Encode0
        (policies.NewEventStoreMiddleware policies.svcOk producer.storeDown)).1
      _ rfl (by decide))⟩

/-- C6 fails as stated: the wrapped calls succeed, the store answers the probe
and refuses the append, and the bootstrap middleware's `Update` and the
thing-policies middleware's `AddPolicy` return the error of the append (the
latter with the zero policy). -/
theorem Update_returns_append_error :
    producer.svcOk.Update "token" "cfg" = none ∧
    ((producer.NewEventStoreMiddleware producer.svcOk producer.storeRejects).Update
      producer.d0 "token" "cfg").2 = some "refused" ∧
    policies.svcOk.AddPolicy "token" "p" = ("p", none) ∧
    ((policies.NewEventStoreMiddleware policies.svcOk producer.storeRejects).AddPolicy
      policies.Encode0 "token" "p").2 = ("", some "refused") := by
  refine ⟨rfl, ?_, rfl, ?_⟩
  · decide
  · rfl

namespace producer

open redis

variable {T : Types}

/-- `UpdateCert` never changes the unpublished buffer of the middleware it is
called on. -/
theorem UpdateCert_buffer (d : Deps T) (es : eventStore T)
    (token thingKey clientCert clientKey caCert : String) :
    (es.UpdateCert d token thingKey clientCert clientKey caCert).1.unpublishedEvents
      = es.unpublishedEvents := by
  unfold eventStore.UpdateCert
  by_cases h : (es.svc.UpdateCert token thingKey clientCert clientKey caCert).2 = none <;>
    simp [h]

/-- The twelve operations with a pointer receiver, when the wrapped call
succeeds, the event encodes and the probe fails: the call returns the wrapped
service's result and no error, and the buffer of the middleware has grown by
the record of the event. -/
theorem store_down_buffers_event (d : Deps T) (es : eventStore T)
    (hping : es.client.Ping.2 ≠ none) (henc : ∀ ev, (d.encode ev).2 = none) :
    (∀ token cfg, (es.svc.Add token cfg).2 = none →
      (es.Add d token cfg).2 = ((es.svc.Add token cfg).1, none) ∧
      (es.Add d token cfg).1.unpublishedEvents = es.unpublishedEvents ++
        [record (d.encode (event.configEvent (es.svc.Add token cfg).1
          operation.configCreate)).1]) ∧
    (∀ token id, (es.svc.View token id).2 = none →
      (es.View d token id).2 = ((es.svc.View token id).1, none) ∧
      (es.View d token id).1.unpublishedEvents = es.unpublishedEvents ++
        [record (d.encode (event.configEvent (es.svc.View token id).1
          operation.configList)).1]) ∧
    (∀ token cfg, es.svc.Update token cfg = none →
      (es.Update d token cfg).2 = none ∧
      (es.Update d token cfg).1.unpublishedEvents = es.unpublishedEvents ++
        [record (d.encode (event.configEvent cfg operation.configUpdate)).1]) ∧
    (∀ token id connections, es.svc.UpdateConnections token id connections = none →
      (es.UpdateConnections d token id connections).2 = none ∧
      (es.UpdateConnections d token id connections).1.unpublishedEvents =
        es.unpublishedEvents ++
          [record (d.encode (event.updateConnectionsEvent id connections)).1]) ∧
    (∀ token filter offset limit, (es.svc.List token filter offset limit).2 = none →
      (es.List d token filter offset limit).2 =
        ((es.svc.List token filter offset limit).1, none) ∧
      (es.List d token filter offset limit).1.unpublishedEvents = es.unpublishedEvents ++
        [record (d.encode (event.listConfigsEvent offset limit filter.FullMatch
          filter.PartialMatch)).1]) ∧
    (∀ token id, es.svc.Remove token id = none →
      (es.Remove d token id).2 = none ∧
      (es.Remove d token id).1.unpublishedEvents = es.unpublishedEvents ++
        [record (d.encode (event.removeConfigEvent id)).1]) ∧
    (∀ externalKey externalID secure, (es.svc.Bootstrap externalKey externalID secure).2 = none →
      (es.Bootstrap d externalKey externalID secure).2 =
        ((es.svc.Bootstrap externalKey externalID secure).1, none) ∧
      (es.Bootstrap d externalKey externalID secure).1.unpublishedEvents =
        es.unpublishedEvents ++
          [record (d.encode (event.bootstrapEvent
            (es.svc.Bootstrap externalKey externalID secure).1 externalID true)).1]) ∧
    (∀ token id state, es.svc.ChangeState token id state = none →
      (es.ChangeState d token id state).2 = none ∧
      (es.ChangeState d token id state).1.unpublishedEvents = es.unpublishedEvents ++
        [record (d.encode (event.changeStateEvent id state)).1]) ∧
    (∀ id, es.svc.RemoveConfigHandler id = none →
      (es.RemoveConfigHandler d id).2 = none ∧
      (es.RemoveConfigHandler d id).1.unpublishedEvents = es.unpublishedEvents ++
        [record (d.encode (event.removeHandlerEvent id operation.configHandlerRemove)).1]) ∧
    (∀ id, es.svc.RemoveChannelHandler id = none →
      (es.RemoveChannelHandler d id).2 = none ∧
      (es.RemoveChannelHandler d id).1.unpublishedEvents = es.unpublishedEvents ++
        [record (d.encode (event.removeHandlerEvent id operation.channelHandlerRemove)).1]) ∧
    (∀ channel, es.svc.UpdateChannelHandler channel = none →
      (es.UpdateChannelHandler d channel).2 = none ∧
      (es.UpdateChannelHandler d channel).1.unpublishedEvents = es.unpublishedEvents ++
        [record (d.encode (event.updateChannelHandlerEvent channel)).1]) ∧
    (∀ channelID thingID, es.svc.DisconnectThingHandler channelID thingID = none →
      (es.DisconnectThingHandler d channelID thingID).2 = none ∧
      (es.DisconnectThingHandler d channelID thingID).1.unpublishedEvents =
        es.unpublishedEvents ++
          [record (d.encode (event.disconnectThingEvent channelID thingID)).1]) := by
  have hp : ∀ ev, es.publish d ev =
      ({ es with
          client := es.client.Ping.1
          unpublishedEvents := es.unpublishedEvents ++ [record (d.encode ev).1] }, none) :=
    fun ev => publish_of_probe_fails d es ev (henc ev) hping
  refine ⟨?_, ?_, ?_, ?_, ?_, ?_, ?_, ?_, ?_, ?_, ?_, ?_⟩
  · intro token cfg h; simp [eventStore.Add, h, hp]
  · intro token id h; simp [eventStore.View, h, hp]
  · intro token cfg h; simp [eventStore.Update, h, hp]
  · intro token id connections h; simp [eventStore.UpdateConnections, h, hp]
  · intro token filter offset limit h; simp [eventStore.List, h, hp]
  · intro token id h; simp [eventStore.Remove, h, hp]
  · intro externalKey externalID secure h; simp [eventStore.Bootstrap, h, hp]
  · intro token id state h; simp [eventStore.ChangeState, h, hp]
  · intro id h; simp [eventStore.RemoveConfigHandler, h, hp]
  · intro id h; simp [eventStore.RemoveChannelHandler, h, hp]
  · intro channel h; simp [eventStore.UpdateChannelHandler, h, hp]
  · intro channelID thingID h; simp [eventStore.DisconnectThingHandler, h, hp]

/-- C2 at the failing input: the wrapped `UpdateCert` succeeds and the store
is down; the middleware's `UpdateCert` returns no error and the probe is
sent, but the unpublished buffer of the middleware is still empty: the event
is lost.  `Update`, a method with a pointer receiver, buffers its record in
the same situation. -/
theorem UpdateCert_store_down_loses_event :
    (svcOk.UpdateCert "token" "key" "cert" "ckey" "ca").2 = none ∧
    (NewEventStoreMiddleware svcOk storeDown).client.Ping.2 ≠ none ∧
    ((NewEventStoreMiddleware svcOk storeDown).UpdateCert d0
      "token" "key" "cert" "ckey" "ca").2.2 = none ∧
    ((NewEventStoreMiddleware svcOk storeDown).UpdateCert d0
      "token" "key" "cert" "ckey" "ca").1.client.sent = [(Cmd.Ping, some "down")] ∧
    ((NewEventStoreMiddleware svcOk storeDown).UpdateCert d0
      "token" "key" "cert" "ckey" "ca").1.unpublishedEvents = [] ∧
    ((NewEventStoreMiddleware svcOk storeDown).Update d0
      "token" "cfg").1.unpublishedEvents.length = 1 := by
  refine ⟨rfl, ?_, ?_, ?_, ?_, ?_⟩ <;> decide

/-- C7, amended: on a freshly constructed middleware, when the config-create
event of the saved configuration encodes, `Add` with the store down and the
wrapped `Add` succeeding returns the saved configuration and no error and
leaves a buffer of length 1; the following flush cycle with the store up
leaves a buffer of length 0, and what it sent to the store is the probe and
one append, that of the config-create event of the saved configuration, which
the store accepted. -/
theorem Add_store_down_then_flush (d : Deps T) (svc : Service T) (client : Client)
    (token : String) (cfg saved : T.Config) (values : List (String × String))
    (hsvc : svc.Add token cfg = (saved, none))
    (henc : d.encode (event.configEvent saved operation.configCreate) = (values, none))
    (hdown : client.Ping.2 ≠ none)
    (hup : client.Ping.1.Ping.2 = none)
    (happ : (client.Ping.1.Ping.1.XAdd (record values)).2 = none) :
    ∃ es1 es2 : eventStore T,
      (NewEventStoreMiddleware svc client).Add d token cfg = (es1, saved, none) ∧
      es1.unpublishedEvents.length = 1 ∧
      es1.client.sent = client.sent ++ [(Cmd.Ping, client.Ping.2)] ∧
      es1.tick = some es2 ∧
      es2.unpublishedEvents.length = 0 ∧
      es2.client.sent = es1.client.sent ++ [(Cmd.Ping, none), (Cmd.XAdd (record values), none)] ∧
      appended es2.client.sent = appended client.sent ++ [record values] := by
  have hpub : (NewEventStoreMiddleware svc client).publish d
      (event.configEvent saved operation.configCreate) =
      ({ svc := svc, client := client.Ping.1, unpublishedEvents := [record values] }, none) := by
    rw [publish_of_probe_fails d _ _ (by rw [henc]) hdown]
    simp [NewEventStoreMiddleware, henc]
  have hfail : appended [(Cmd.Ping, client.Ping.2)] = [] := by
    cases h : client.Ping.2 <;> simp [appended]
  refine ⟨{ svc := svc, client := client.Ping.1, unpublishedEvents := [record values] },
    { svc := svc, client := (client.Ping.1.Ping.1.XAdd (record values)).1,
      unpublishedEvents := [] }, ?_, rfl, rfl, ?_, rfl, ?_, ?_⟩
  · have hs : (NewEventStoreMiddleware svc client).svc.Add token cfg = (saved, none) := hsvc
    simp [eventStore.Add, hs, hpub]
  · simp [eventStore.tick, eventStore.checkRedisConnection, hup, eventStore.flush, happ]
  · have hup' : client.Ping.1.reply client.Ping.1.sent.length Cmd.Ping = none := hup
    have happ' : client.Ping.1.Ping.1.reply client.Ping.1.Ping.1.sent.length
        (Cmd.XAdd (record values)) = none := happ
    simp only [Client.XAdd, Client.Ping, Client.send, List.length_append, List.length_singleton]
      at hup' happ' ⊢
    simp [hup', happ']
  · have hup' : client.Ping.1.reply client.Ping.1.sent.length Cmd.Ping = none := hup
    have happ' : client.Ping.1.Ping.1.reply client.Ping.1.Ping.1.sent.length
        (Cmd.XAdd (record values)) = none := happ
    simp only [Client.XAdd, Client.Ping, Client.send, List.length_append, List.length_singleton]
      at hup' happ' hfail ⊢
    simp [hup', happ', appended_append, appended, hfail]

/-- C7 at a concrete input: the store fails the first probe and accepts every
later command. -/
theorem Add_store_down_then_flush_witness :
    ∃ es1 es2 : eventStore T0,
      (NewEventStoreMiddleware svcOk storeRecovers).Add d0 "token" "cfg" = (es1, "cfg", none) ∧
      es1.unpublishedEvents.length = 1 ∧
      es1.tick = some es2 ∧
      es2.unpublishedEvents.length = 0 ∧
      appended es2.client.sent = [record [("config", "cfg"), ("operation", "create")]] := by
  obtain ⟨es1, es2, h1, h2, _, h3, h4, _, h5⟩ :=
    Add_store_down_then_flush d0 svcOk storeRecovers "token" "cfg" "cfg"
      [("config", "cfg"), ("operation", "create")] rfl rfl (by decide) (by decide) (by decide)
  exact ⟨es1, es2, h1, h2, h3, h4, h5⟩

/-- The buffer after `publish` is the buffer before it, or that buffer with
one record added at the end. -/
theorem publish_buffer (d : Deps T) (es : eventStore T) (ev : event T) :
    (es.publish d ev).1.unpublishedEvents = es.unpublishedEvents ∨
    (es.publish d ev).1.unpublishedEvents
      = es.unpublishedEvents ++ [record (d.encode ev).1] := by
  by_cases henc : (d.encode ev).2 = none
  · by_cases hping : es.client.Ping.2 = none
    · left; rw [publish_of_probe_ok d es ev henc hping]
    · right; rw [publish_of_probe_fails d es ev henc hping]
  · left; rw [publish_of_encode_fails d es ev henc]

/-- C8: the steps of the middleware and the unpublished buffer.  A `publish`
whose probe fails adds the record of the event at the end; a `publish` whose
probe succeeds leaves the buffer unchanged, whatever the answer to the append,
as does one whose event does not encode.  A flush tick whose probe fails ends
with the buffer unchanged and has sent the probe only; a flush tick whose
probe succeeds ends with the records whose append failed, a subsequence of
the buffer.  On the cancellation signal the routine returns with the
middleware as it was.  Every operation leaves the buffer as it was or as the
`publish` of one event leaves it. -/
theorem buffer_frame (d : Deps T) (es : eventStore T) :
    (∀ ev, (d.encode ev).2 = none → es.client.Ping.2 ≠ none →
      (es.publish d ev).1.unpublishedEvents
        = es.unpublishedEvents ++ [record (d.encode ev).1]) ∧
    (∀ ev, es.client.Ping.2 = none →
      (es.publish d ev).1.unpublishedEvents = es.unpublishedEvents) ∧
    (∀ ev, (d.encode ev).2 ≠ none → (es.publish d ev).1 = es) ∧
    (es.client.Ping.2 ≠ none →
      ∃ es' : eventStore T, es.tick = some es' ∧
        es'.unpublishedEvents = es.unpublishedEvents ∧
        es'.client.sent = es.client.sent ++ [(Cmd.Ping, es.client.Ping.2)]) ∧
    (es.client.Ping.2 = none →
      ∃ es' : eventStore T, es.tick = some es' ∧
        es'.unpublishedEvents =
          ((es.unpublishedEvents.enum.filter fun p =>
            (es.client.reply
              (es.client.sent.length + 1 + (es.unpublishedEvents.length - 1 - p.1))
              (Cmd.XAdd p.2)).isSome).map Prod.snd) ∧
        List.Sublist es'.unpublishedEvents es.unpublishedEvents) ∧
    (∀ rest, es.startPublishingRoutine (Signal.done :: rest) = some es) ∧
    (∀ token cfg, ∃ ev, (es.Add d token cfg).1.unpublishedEvents = es.unpublishedEvents ∨
      (es.Add d token cfg).1.unpublishedEvents = (es.publish d ev).1.unpublishedEvents) ∧
    (∀ token id, ∃ ev, (es.View d token id).1.unpublishedEvents = es.unpublishedEvents ∨
      (es.View d token id).1.unpublishedEvents = (es.publish d ev).1.unpublishedEvents) ∧
    (∀ token cfg, ∃ ev, (es.Update d token cfg).1.unpublishedEvents = es.unpublishedEvents ∨
      (es.Update d token cfg).1.unpublishedEvents = (es.publish d ev).1.unpublishedEvents) ∧
    (∀ token thingKey clientCert clientKey caCert,
      (es.UpdateCert d token thingKey clientCert clientKey caCert).1.unpublishedEvents
        = es.unpublishedEvents) ∧
    (∀ token id connections, ∃ ev,
      (es.UpdateConnections d token id connections).1.unpublishedEvents
        = es.unpublishedEvents ∨
      (es.UpdateConnections d token id connections).1.unpublishedEvents
        = (es.publish d ev).1.unpublishedEvents) ∧
    (∀ token filter offset limit, ∃ ev,
      (es.List d token filter offset limit).1.unpublishedEvents = es.unpublishedEvents ∨
      (es.List d token filter offset limit).1.unpublishedEvents
        = (es.publish d ev).1.unpublishedEvents) ∧
    (∀ token id, ∃ ev, (es.Remove d token id).1.unpublishedEvents = es.unpublishedEvents ∨
      (es.Remove d token id).1.unpublishedEvents = (es.publish d ev).1.unpublishedEvents) ∧
    (∀ externalKey externalID secure, ∃ ev,
      (es.Bootstrap d externalKey externalID secure).1.unpublishedEvents
        = (es.publish d ev).1.unpublishedEvents) ∧
    (∀ token id state, ∃ ev,
      (es.ChangeState d token id state).1.unpublishedEvents = es.unpublishedEvents ∨
      (es.ChangeState d token id state).1.unpublishedEvents
        = (es.publish d ev).1.unpublishedEvents) ∧
    (∀ id, ∃ ev, (es.RemoveConfigHandler d id).1.unpublishedEvents = es.unpublishedEvents ∨
      (es.RemoveConfigHandler d id).1.unpublishedEvents
        = (es.publish d ev).1.unpublishedEvents) ∧
    (∀ id, ∃ ev, (es.RemoveChannelHandler d id).1.unpublishedEvents = es.unpublishedEvents ∨
      (es.RemoveChannelHandler d id).1.unpublishedEvents
        = (es.publish d ev).1.unpublishedEvents) ∧
    (∀ channel, ∃ ev,
      (es.UpdateChannelHandler d channel).1.unpublishedEvents = es.unpublishedEvents ∨
      (es.UpdateChannelHandler d channel).1.unpublishedEvents
        = (es.publish d ev).1.unpublishedEvents) ∧
    (∀ channelID thingID, ∃ ev,
      (es.DisconnectThingHandler d channelID thingID).1.unpublishedEvents
        = es.unpublishedEvents ∨
      (es.DisconnectThingHandler d channelID thingID).1.unpublishedEvents
        = (es.publish d ev).1.unpublishedEvents) := by
  refine ⟨?_, ?_, ?_, ?_, ?_, ?_, ?_, ?_, ?_, ?_, ?_, ?_, ?_, ?_, ?_, ?_, ?_, ?_, ?_⟩
  · intro ev henc hping; rw [publish_of_probe_fails d es ev henc hping]
  · intro ev hping
    by_cases henc : (d.encode ev).2 = none
    · rw [publish_of_probe_ok d es ev henc hping]
    · rw [publish_of_encode_fails d es ev henc]
  · intro ev henc; rw [publish_of_encode_fails d es ev henc]
  · intro hping
    exact ⟨{ es with client := es.client.Ping.1 },
      by simp [eventStore.tick, eventStore.checkRedisConnection, hping], rfl,
      by simp [Client.Ping, Client.send]⟩
  · intro hping
    obtain ⟨es', h1, h2, h3, _⟩ := tick_of_probe_ok es hping
    exact ⟨es', h1, h2, h3⟩
  · intro rest; rfl
  · intro token cfg
    refine ⟨event.configEvent (es.svc.Add token cfg).1 operation.configCreate, ?_⟩
    by_cases h : (es.svc.Add token cfg).2 = none
    · right; simp [eventStore.Add, h]; split <;> rfl
    · left; simp [eventStore.Add, h]
  · intro token id
    refine ⟨event.configEvent (es.svc.View token id).1 operation.configList, ?_⟩
    by_cases h : (es.svc.View token id).2 = none
    · right; simp [eventStore.View, h]; split <;> rfl
    · left; simp [eventStore.View, h]
  · intro token cfg
    refine ⟨event.configEvent cfg operation.configUpdate, ?_⟩
    by_cases h : es.svc.Update token cfg = none
    · right; simp [eventStore.Update, h]
    · left; simp [eventStore.Update, h]
  · intro token thingKey clientCert clientKey caCert
    exact UpdateCert_buffer d es token thingKey clientCert clientKey caCert
  · intro token id connections
    refine ⟨event.updateConnectionsEvent id connections, ?_⟩
    by_cases h : es.svc.UpdateConnections token id connections = none
    · right; simp [eventStore.UpdateConnections, h]
    · left; simp [eventStore.UpdateConnections, h]
  · intro token filter offset limit
    refine ⟨event.listConfigsEvent offset limit filter.FullMatch filter.PartialMatch, ?_⟩
    by_cases h : (es.svc.List token filter offset limit).2 = none
    · right; simp [eventStore.List, h]; split <;> rfl
    · left; simp [eventStore.List, h]
  · intro token id
    refine ⟨event.removeConfigEvent id, ?_⟩
    by_cases h : es.svc.Remove token id = none
    · right; simp [eventStore.Remove, h]
    · left; simp [eventStore.Remove, h]
  · intro externalKey externalID secure
    by_cases h : (es.svc.Bootstrap externalKey externalID secure).2 = none
    · refine ⟨event.bootstrapEvent (es.svc.Bootstrap externalKey externalID secure).1
        externalID true, ?_⟩
      simp [eventStore.Bootstrap, h]; split <;> rfl
    · refine ⟨event.bootstrapEvent (es.svc.Bootstrap externalKey externalID secure).1
        externalID false, ?_⟩
      simp [eventStore.Bootstrap, h]; split <;> rfl
  · intro token id state
    refine ⟨event.changeStateEvent id state, ?_⟩
    by_cases h : es.svc.ChangeState token id state = none
    · right; simp [eventStore.ChangeState, h]
    · left; simp [eventStore.ChangeState, h]
  · intro id
    refine ⟨event.removeHandlerEvent id operation.configHandlerRemove, ?_⟩
    by_cases h : es.svc.RemoveConfigHandler id = none
    · right; simp [eventStore.RemoveConfigHandler, h]
    · left; simp [eventStore.RemoveConfigHandler, h]
  · intro id
    refine ⟨event.removeHandlerEvent id operation.channelHandlerRemove, ?_⟩
    by_cases h : es.svc.RemoveChannelHandler id = none
    · right; simp [eventStore.RemoveChannelHandler, h]
    · left; simp [eventStore.RemoveChannelHandler, h]
  · intro channel
    refine ⟨event.updateChannelHandlerEvent channel, ?_⟩
    by_cases h : es.svc.UpdateChannelHandler channel = none
    · right; simp [eventStore.UpdateChannelHandler, h]
    · left; simp [eventStore.UpdateChannelHandler, h]
  · intro channelID thingID
    refine ⟨event.disconnectThingEvent channelID thingID, ?_⟩
    by_cases h : es.svc.DisconnectThingHandler channelID thingID = none
    · right; simp [eventStore.DisconnectThingHandler, h]
    · left; simp [eventStore.DisconnectThingHandler, h]

/-- C8 at concrete inputs: a `publish` in front of a store that is down adds
its record; a flush tick in front of a store that is down leaves the three
buffered records. -/
theorem buffer_frame_witness :
    (d0.encode (event.removeConfigEvent "thing")).2 = none ∧
    (NewEventStoreMiddleware svcOk storeDown).client.Ping.2 ≠ none ∧
    ((NewEventStoreMiddleware svcOk storeDown).publish d0
      (event.removeConfigEvent "thing")).1.unpublishedEvents
        = [record [("operation", "other")]] ∧
    ∃ es' : eventStore T0,
      eventStore.tick { esBuffered with client := storeDown } = some es' ∧
      es'.unpublishedEvents = [rec0 "a", rec0 "b", rec0 "c"] :=
  ⟨rfl, by decide,
    (buffer_frame d0 (NewEventStoreMiddleware svcOk storeDown)).1
      (event.removeConfigEvent "thing") rfl (by decide),
    by
      obtain ⟨es', h1, h2, _⟩ :=
        (buffer_frame d0 { esBuffered with client := storeDown }).2.2.2.1 (by decide)
      exact ⟨es', h1, h2⟩⟩

end producer

namespace nats

open messaging

variable {H : Type}

/-- No entry is found under a key whose entries have been filtered out. -/
theorem lookup_filter_ne (k : String × String) (l : List ((String × String) × H)) :
    (l.filter fun e => e.1 ≠ k).lookup k = none := by
  induction l with
  | nil => rfl
  | cons x rest ih =>
    obtain ⟨key, h⟩ := x
    by_cases hx : key = k
    · rw [List.filter_cons_of_neg (by simp [hx])]
      exact ih
    · rw [List.filter_cons_of_pos (by simp [hx])]
      have hk : (k == key) = false := by
        simp only [beq_eq_false_iff_ne, ne_eq]
        exact fun h => hx h.symm
      simp only [List.lookup, hk]
      exact ih

/-- The registry of the model passes `TestPubsub`: each call returns the error
the case expects. -/
theorem TestPubsub_passes :
    runSubcases (pubsub.Subscribe { subscriptions := [] }
        "9b7b1b3f-b1b0-46a8-a717-b8213f9eda3b" "channels.>" { fail := false }).1 subcases
      = subcases.map fun c => c.2.2.1 := by
  decide

/-- C9: re-subscribing an existing key whose registered handler's `Cancel`
fails returns that error and leaves the registry unchanged: the key still
holds the original handler and the new handler is not registered. -/
theorem Subscribe_cancel_fails [MessageHandler H] (ps : pubsub H) (id topic : String)
    (old new : H) (e : String) (hid : id ≠ "") (htopic : topic ≠ "")
    (hfind : ps.find id topic = some old) (hcancel : MessageHandler.Cancel old = some e) :
    (ps.Subscribe id topic new).2 = some e ∧
    (ps.Subscribe id topic new).1 = ps ∧
    (ps.Subscribe id topic new).1.find id topic = some old := by
  have h : ps.Subscribe id topic new = (ps, some e) := by
    simp [pubsub.Subscribe, hid, htopic, hfind, hcancel]
  rw [h]
  exact ⟨rfl, rfl, hfind⟩

/-- C9 at the input of `TestPubsub`: client `clientid3` subscribes again to
`channels.topic1`, where its handler is one whose `Cancel` fails. -/
theorem Subscribe_cancel_fails_witness :
    psFailing.find "clientid3" "channels.topic1" = some { fail := true } ∧
    (psFailing.Subscribe "clientid3" "channels.topic1" { fail := false }).2 = errFailed ∧
    (psFailing.Subscribe "clientid3" "channels.topic1" { fail := false }).1.find
      "clientid3" "channels.topic1" = some { fail := true } :=
  ⟨by decide,
    (Subscribe_cancel_fails psFailing "clientid3" "channels.topic1" { fail := true }
      { fail := false } "failed" (by decide) (by decide) (by decide) rfl).1,
    (Subscribe_cancel_fails psFailing "clientid3" "channels.topic1" { fail := true }
      { fail := false } "failed" (by decide) (by decide) (by decide) rfl).2.2⟩

/-- C10: unsubscribing an existing key whose handler's `Cancel` fails returns
that error and still removes the entry: the registry is the old one without
the entries of the key, nothing is found under the key, and a following
`Unsubscribe` of the key fails with `ErrNotSubscribed`. -/
theorem Unsubscribe_cancel_fails [MessageHandler H] (ps : pubsub H) (id topic : String)
    (current : H) (e : String) (hid : id ≠ "") (htopic : topic ≠ "")
    (hfind : ps.find id topic = some current)
    (hcancel : MessageHandler.Cancel current = some e) :
    (ps.Unsubscribe id topic).2 = some e ∧
    (ps.Unsubscribe id topic).1.subscriptions
      = (ps.subscriptions.filter fun x => x.1 ≠ (id, topic)) ∧
    (ps.Unsubscribe id topic).1.find id topic = none ∧
    ((ps.Unsubscribe id topic).1.Unsubscribe id topic).2 = ErrNotSubscribed := by
  have h : ps.Unsubscribe id topic =
      ({ subscriptions := ps.subscriptions.filter fun x => x.1 ≠ (id, topic) }, some e) := by
    simp [pubsub.Unsubscribe, hid, htopic, hfind, hcancel]
  have hnone : pubsub.find
      ({ subscriptions := ps.subscriptions.filter fun x => x.1 ≠ (id, topic) } : pubsub H)
      id topic = none := lookup_filter_ne (id, topic) ps.subscriptions
  rw [h]
  refine ⟨rfl, rfl, hnone, ?_⟩
  show (pubsub.Unsubscribe
    ({ subscriptions := ps.subscriptions.filter fun x => x.1 ≠ (id, topic) } : pubsub H)
    id topic).2 = ErrNotSubscribed
  unfold pubsub.Unsubscribe
  rw [if_neg hid, if_neg htopic, hnone]

/-- C10 at the input of `TestPubsub`, for the registry with the failing
handler of client `clientid3`. -/
theorem Unsubscribe_cancel_fails_witness :
    psFailing.find "clientid3" "channels.topic1" = some { fail := true } ∧
    (psFailing.Unsubscribe "clientid3" "channels.topic1").2 = errFailed ∧
    (psFailing.Unsubscribe "clientid3" "channels.topic1").1.subscriptions = [] ∧
    ((psFailing.Unsubscribe "clientid3" "channels.topic1").1.Unsubscribe
      "clientid3" "channels.topic1").2 = ErrNotSubscribed :=
  ⟨by decide,
    (Unsubscribe_cancel_fails psFailing "clientid3" "channels.topic1" { fail := true }
      "failed" (by decide) (by decide) (by decide) rfl).1,
    by decide,
    (Unsubscribe_cancel_fails psFailing "clientid3" "channels.topic1" { fail := true }
      "failed" (by decide) (by decide) (by decide) rfl).2.2.2⟩

end nats

namespace nats

open messaging

variable {H : Type}

/-- Replacing the handler of a key that is present makes it the handler found
under the key. -/
theorem lookup_map_replace (k : String × String) (h : H) (l : List ((String × String) × H))
    (hl : l.lookup k ≠ none) :
    (l.map fun e => if e.1 = k then (e.1, h) else e).lookup k = some h := by
  induction l with
  | nil => exact absurd rfl hl
  | cons x rest ih =>
    obtain ⟨key, v⟩ := x
    by_cases hx : key = k
    · subst hx
      simp only [List.map_cons, if_true]
      simp [List.lookup]
    · have hk : (k == key) = false := by
        simp only [beq_eq_false_iff_ne, ne_eq]
        exact fun h => hx h.symm
      simp only [List.lookup, hk] at hl
      simp only [List.map_cons, hx, if_false]
      simp only [List.lookup, hk]
      exact ih hl

/-- Replacing the handler of a key leaves what is found under another key. -/
theorem lookup_map_replace_ne (k k' : String × String) (h : H)
    (l : List ((String × String) × H)) (hne : k' ≠ k) :
    (l.map fun e => if e.1 = k then (e.1, h) else e).lookup k' = l.lookup k' := by
  induction l with
  | nil => rfl
  | cons x rest ih =>
    obtain ⟨key, v⟩ := x
    by_cases hx : key = k
    · subst hx
      have hk : (k' == key) = false := by
        simp only [beq_eq_false_iff_ne, ne_eq]
        exact hne
      simp only [List.map_cons, if_true]
      simp only [List.lookup, hk]
      exact ih
    · simp only [List.map_cons, hx, if_false]
      simp only [List.lookup]
      rw [ih]

/-- Replacing a handler leaves the keys of the registry as they are. -/
theorem keys_map_replace (k : String × String) (h : H) (l : List ((String × String) × H)) :
    (l.map fun e => if e.1 = k then (e.1, h) else e).map Prod.fst = l.map Prod.fst := by
  induction l with
  | nil => rfl
  | cons x rest ih =>
    by_cases hx : x.1 = k <;> simp [hx, ih]

/-- Removing the entries of a key leaves what is found under another key. -/
theorem lookup_filter_other (k k' : String × String) (l : List ((String × String) × H))
    (hne : k' ≠ k) : (l.filter fun e => e.1 ≠ k).lookup k' = l.lookup k' := by
  induction l with
  | nil => rfl
  | cons x rest ih =>
    obtain ⟨key, v⟩ := x
    by_cases hx : key = k
    · subst hx
      have hk : (k' == key) = false := by
        simp only [beq_eq_false_iff_ne, ne_eq]
        exact hne
      rw [List.filter_cons_of_neg (by simp)]
      simp only [List.lookup, hk]
      exact ih
    · rw [List.filter_cons_of_pos (by simp [hx])]
      simp only [List.lookup]
      rw [ih]

/-- Nothing is found under a key exactly when the key is not among the keys. -/
theorem lookup_eq_none_iff_not_mem (k : String × String) (l : List ((String × String) × H)) :
    l.lookup k = none ↔ k ∉ l.map Prod.fst := by
  induction l with
  | nil => simp
  | cons x rest ih =>
    obtain ⟨key, v⟩ := x
    by_cases hx : key = k
    · subst hx
      simp [List.lookup]
    · have hk : (k == key) = false := by
        simp only [beq_eq_false_iff_ne, ne_eq]
        exact fun h => hx h.symm
      simp only [List.lookup, hk, List.map_cons, List.mem_cons, not_or]
      rw [ih]
      exact ⟨fun h => ⟨fun h' => hx h'.symm, h⟩, fun h => h.2⟩

/-- `Subscribe` of a key that is absent adds the entry at the end. -/
theorem Subscribe_absent [MessageHandler H] (ps : pubsub H) (id topic : String) (h : H)
    (hid : id ≠ "") (htopic : topic ≠ "") (hfind : ps.find id topic = none) :
    ps.Subscribe id topic h =
      ({ subscriptions := ps.subscriptions ++ [((id, topic), h)] }, none) := by
  simp [pubsub.Subscribe, hid, htopic, hfind]

/-- `Subscribe` of a key whose handler cancels cleanly replaces the handler. -/
theorem Subscribe_present [MessageHandler H] (ps : pubsub H) (id topic : String) (old h : H)
    (hid : id ≠ "") (htopic : topic ≠ "") (hfind : ps.find id topic = some old)
    (hcancel : MessageHandler.Cancel old = none) :
    ps.Subscribe id topic h =
      ({ subscriptions := ps.subscriptions.map
          fun e => if e.1 = (id, topic) then (e.1, h) else e }, none) := by
  simp [pubsub.Subscribe, hid, htopic, hfind, hcancel]

/-- `Unsubscribe` of a key that is absent fails and leaves the registry. -/
theorem Unsubscribe_absent [MessageHandler H] (ps : pubsub H) (id topic : String)
    (hid : id ≠ "") (htopic : topic ≠ "") (hfind : ps.find id topic = none) :
    ps.Unsubscribe id topic = (ps, ErrNotSubscribed) := by
  unfold pubsub.Unsubscribe
  rw [if_neg hid, if_neg htopic, hfind]

/-- `Unsubscribe` of a key that is present removes its entries and returns
what the handler's `Cancel` returns. -/
theorem Unsubscribe_present [MessageHandler H] (ps : pubsub H) (id topic : String)
    (current : H) (hid : id ≠ "") (htopic : topic ≠ "")
    (hfind : ps.find id topic = some current) :
    ps.Unsubscribe id topic =
      ({ subscriptions := ps.subscriptions.filter fun e => e.1 ≠ (id, topic) },
        MessageHandler.Cancel current) := by
  unfold pubsub.Unsubscribe
  rw [if_neg hid, if_neg htopic, hfind]

/-- After a `Subscribe` that returns no error the handler is the one found
under the key. -/
theorem find_after_Subscribe [MessageHandler H] (ps : pubsub H) (id topic : String) (h : H)
    (hid : id ≠ "") (htopic : topic ≠ "") (hok : (ps.Subscribe id topic h).2 = none) :
    (ps.Subscribe id topic h).1.find id topic = some h := by
  cases hfind : ps.find id topic with
  | none =>
    rw [Subscribe_absent ps id topic h hid htopic hfind]
    show (ps.subscriptions ++ [((id, topic), h)]).lookup (id, topic) = some h
    have hnone : ps.subscriptions.lookup (id, topic) = none := hfind
    rw [List.lookup_append, hnone]
    simp [List.lookup]
  | some old =>
    have hcancel : MessageHandler.Cancel old = none := by
      by_contra hc
      have : ps.Subscribe id topic h = (ps, MessageHandler.Cancel old) := by
        simp [pubsub.Subscribe, hid, htopic, hfind, hc]
      rw [this] at hok
      exact hc hok
    rw [Subscribe_present ps id topic old h hid htopic hfind hcancel]
    exact lookup_map_replace (id, topic) h ps.subscriptions
      (by
        have hsome : ps.subscriptions.lookup (id, topic) = some old := hfind
        rw [hsome]; exact Option.some_ne_none old)

/-- After an `Unsubscribe` of a key nothing is found under it. -/
theorem find_after_Unsubscribe [MessageHandler H] (ps : pubsub H) (id topic : String)
    (hid : id ≠ "") (htopic : topic ≠ "") :
    (ps.Unsubscribe id topic).1.find id topic = none := by
  cases hfind : ps.find id topic with
  | none => rw [Unsubscribe_absent ps id topic hid htopic hfind]; exact hfind
  | some current =>
    rw [Unsubscribe_present ps id topic current hid htopic hfind]
    exact lookup_filter_ne (id, topic) ps.subscriptions

/-- C11: for a non-empty client identity and topic, `Unsubscribe` of a key
that is not in the registry fails with `ErrNotSubscribed` and `Subscribe` of
it succeeds; after a `Subscribe` of the key that returned no error, with a
handler that cancels cleanly, `Unsubscribe` of the key succeeds and a second
`Unsubscribe` of it fails with `ErrNotSubscribed`. -/
theorem Unsubscribe_absent_and_after_Subscribe [MessageHandler H] (ps : pubsub H)
    (id topic : String) (h : H) (hid : id ≠ "") (htopic : topic ≠ "") :
    (ps.find id topic = none →
      ps.Unsubscribe id topic = (ps, ErrNotSubscribed) ∧ (ps.Subscribe id topic h).2 = none) ∧
    ((ps.Subscribe id topic h).2 = none → MessageHandler.Cancel h = none →
      ((ps.Subscribe id topic h).1.Unsubscribe id topic).2 = none ∧
      (((ps.Subscribe id topic h).1.Unsubscribe id topic).1.Unsubscribe id topic).2
        = ErrNotSubscribed) := by
  refine ⟨fun hfind => ⟨Unsubscribe_absent ps id topic hid htopic hfind, ?_⟩, ?_⟩
  · rw [Subscribe_absent ps id topic h hid htopic hfind]
  · intro hok hcancel
    have hf := find_after_Subscribe ps id topic h hid htopic hok
    refine ⟨?_, ?_⟩
    · rw [Unsubscribe_present _ id topic h hid htopic hf]
      exact hcancel
    · rw [Unsubscribe_absent _ id topic hid htopic
        (find_after_Unsubscribe _ id topic hid htopic)]

/-- C11 at the input of `TestPubsub`: client `clientid1` and the topic
`channels.topic` on the empty registry. -/
theorem Unsubscribe_absent_and_after_Subscribe_witness :
    ((pubsub.Unsubscribe ({ subscriptions := [] } : pubsub handler)
      "clientid1" "channels.topic").2 = ErrNotSubscribed) ∧
    ((pubsub.Subscribe ({ subscriptions := [] } : pubsub handler)
      "clientid1" "channels.topic" { fail := false }).2 = none) ∧
    (((pubsub.Subscribe ({ subscriptions := [] } : pubsub handler)
      "clientid1" "channels.topic" { fail := false }).1.Unsubscribe
        "clientid1" "channels.topic").2 = none) ∧
    ((((pubsub.Subscribe ({ subscriptions := [] } : pubsub handler)
      "clientid1" "channels.topic" { fail := false }).1.Unsubscribe
        "clientid1" "channels.topic").1.Unsubscribe "clientid1" "channels.topic").2
      = ErrNotSubscribed) :=
  have hw := Unsubscribe_absent_and_after_Subscribe ({ subscriptions := [] } : pubsub handler)
    "clientid1" "channels.topic" { fail := false } (by decide) (by decide)
  ⟨congrArg Prod.snd (hw.1 rfl).1, (hw.1 rfl).2, (hw.2 (hw.1 rfl).2 rfl).1,
    (hw.2 (hw.1 rfl).2 rfl).2⟩

/-- C12: `Subscribe` and `Unsubscribe` with an empty topic and a non-empty
client identity fail with `ErrEmptyTopic`, with an empty client identity and a
non-empty topic they fail with `ErrEmptyID`, and in both cases the registry is
the one they were called on. -/
theorem empty_topic_or_id_rejected [MessageHandler H] (ps : pubsub H) (id topic : String)
    (h : H) :
    (id ≠ "" →
      ps.Subscribe id "" h = (ps, ErrEmptyTopic) ∧ ps.Unsubscribe id "" = (ps, ErrEmptyTopic)) ∧
    (topic ≠ "" →
      ps.Subscribe "" topic h = (ps, ErrEmptyID) ∧ ps.Unsubscribe "" topic = (ps, ErrEmptyID)) := by
  refine ⟨fun hid => ⟨?_, ?_⟩, fun _ => ⟨?_, ?_⟩⟩
  · simp [pubsub.Subscribe, hid]
  · simp [pubsub.Unsubscribe, hid]
  · simp [pubsub.Subscribe]
  · simp [pubsub.Unsubscribe]

/-- C12 at the inputs of `TestPubsub`, on the registry that holds one
subscription. -/
theorem empty_topic_or_id_rejected_witness :
    (psFailing.Subscribe "clientid1" "" { fail := false }).2 = ErrEmptyTopic ∧
    (psFailing.Unsubscribe "clientid1" "").2 = ErrEmptyTopic ∧
    (psFailing.Subscribe "" "channels.topic" { fail := false }).2 = ErrEmptyID ∧
    (psFailing.Unsubscribe "" "channels.topic").2 = ErrEmptyID ∧
    (psFailing.Subscribe "" "channels.topic" { fail := false }).1 = psFailing :=
  have hw := empty_topic_or_id_rejected psFailing "clientid1" "channels.topic" { fail := false }
  ⟨congrArg Prod.snd (hw.1 (by decide)).1, congrArg Prod.snd (hw.1 (by decide)).2,
    congrArg Prod.snd (hw.2 (by decide)).1, congrArg Prod.snd (hw.2 (by decide)).2,
    by rw [(hw.2 (by decide)).1]⟩

end nats

namespace nats

open messaging

variable {H : Type}

/-- Adding an entry at the end leaves what is found under another key. -/
theorem lookup_append_ne (k k' : String × String) (h : H) (l : List ((String × String) × H))
    (hne : k' ≠ k) : (l ++ [(k, h)]).lookup k' = l.lookup k' := by
  have hk : (k' == k) = false := by
    simp only [beq_eq_false_iff_ne, ne_eq]
    exact hne
  rw [List.lookup_append]
  cases l.lookup k' <;> simp [List.lookup, hk]

/-- `Subscribe` under one key leaves what is found under every other key. -/
theorem find_Subscribe_other [MessageHandler H] (ps : pubsub H) (id topic id' topic' : String)
    (h : H) (hne : (id, topic) ≠ (id', topic')) :
    (ps.Subscribe id' topic' h).1.find id topic = ps.find id topic := by
  unfold pubsub.Subscribe
  by_cases hid : id' = ""
  · rw [if_pos hid]
  · rw [if_neg hid]
    by_cases htopic : topic' = ""
    · rw [if_pos htopic]
    · rw [if_neg htopic]
      cases hfind : ps.find id' topic' with
      | none => exact lookup_append_ne (id', topic') (id, topic) h ps.subscriptions hne
      | some old =>
        by_cases hc : MessageHandler.Cancel old = none
        · simp only [hc, ne_eq, not_true_eq_false, if_false]
          exact lookup_map_replace_ne (id', topic') (id, topic) h ps.subscriptions hne
        · simp only [ne_eq, hc, not_false_eq_true, if_true]

/-- `Unsubscribe` of one key leaves what is found under every other key. -/
theorem find_Unsubscribe_other [MessageHandler H] (ps : pubsub H)
    (id topic id' topic' : String) (hne : (id, topic) ≠ (id', topic')) :
    (ps.Unsubscribe id' topic').1.find id topic = ps.find id topic := by
  unfold pubsub.Unsubscribe
  by_cases hid : id' = ""
  · rw [if_pos hid]
  · rw [if_neg hid]
    by_cases htopic : topic' = ""
    · rw [if_pos htopic]
    · rw [if_neg htopic]
      cases hfind : ps.find id' topic' with
      | none => rfl
      | some current => exact lookup_filter_other (id', topic') (id, topic) ps.subscriptions hne

/-- `Subscribe` keeps the keys of the registry distinct. -/
theorem Subscribe_keys_nodup [MessageHandler H] (ps : pubsub H) (id topic : String) (h : H)
    (hnd : (ps.subscriptions.map Prod.fst).Nodup) :
    ((ps.Subscribe id topic h).1.subscriptions.map Prod.fst).Nodup := by
  unfold pubsub.Subscribe
  by_cases hid : id = ""
  · rw [if_pos hid]; exact hnd
  · rw [if_neg hid]
    by_cases htopic : topic = ""
    · rw [if_pos htopic]; exact hnd
    · rw [if_neg htopic]
      cases hfind : ps.find id topic with
      | none =>
        have hnot : (id, topic) ∉ ps.subscriptions.map Prod.fst :=
          (lookup_eq_none_iff_not_mem (id, topic) ps.subscriptions).mp hfind
        simp only [List.map_append, List.map_cons, List.map_nil]
        exact List.Nodup.append hnd (List.nodup_singleton _)
          (by
            intro a ha hb
            rw [List.mem_singleton] at hb
            exact hnot (hb ▸ ha))
      | some old =>
        by_cases hc : MessageHandler.Cancel old = none
        · simp only [hc, ne_eq, not_true_eq_false, if_false]
          rw [keys_map_replace]
          exact hnd
        · simp only [ne_eq, hc, not_false_eq_true, if_true]
          exact hnd

/-- `Unsubscribe` keeps the keys of the registry distinct. -/
theorem Unsubscribe_keys_nodup [MessageHandler H] (ps : pubsub H) (id topic : String)
    (hnd : (ps.subscriptions.map Prod.fst).Nodup) :
    ((ps.Unsubscribe id topic).1.subscriptions.map Prod.fst).Nodup := by
  unfold pubsub.Unsubscribe
  by_cases hid : id = ""
  · rw [if_pos hid]; exact hnd
  · rw [if_neg hid]
    by_cases htopic : topic = ""
    · rw [if_pos htopic]; exact hnd
    · rw [if_neg htopic]
      cases hfind : ps.find id topic with
      | none => exact hnd
      | some current =>
        exact List.Nodup.sublist
          ((List.filter_sublist (l := ps.subscriptions)).map Prod.fst) hnd

/-- Every sequence of calls keeps the keys of the registry distinct. -/
theorem run_keys_nodup [MessageHandler H] (calls : List (Call H)) :
    ∀ ps : pubsub H, (ps.subscriptions.map Prod.fst).Nodup →
      ((ps.run calls).subscriptions.map Prod.fst).Nodup := by
  induction calls with
  | nil => intro ps hnd; exact hnd
  | cons c rest ih =>
    intro ps hnd
    cases c with
    | subscribe id topic h => exact ih _ (Subscribe_keys_nodup ps id topic h hnd)
    | unsubscribe id topic => exact ih _ (Unsubscribe_keys_nodup ps id topic hnd)

/-- C13: subscriptions are keyed by `(clientID, topic)` and the key is unique.
After any sequence of calls from the empty registry no key occurs twice.
Re-subscribing a key whose handler cancels cleanly succeeds and replaces the
handler while the keys stay as they are, so one `Unsubscribe` of the key
succeeds and the next fails with `ErrNotSubscribed`.  Subscribing the same
topic under another client identity creates an entry of its own and leaves
the entry of the first client, as does unsubscribing it; unsubscribing the
topic under a client identity that has no entry fails with
`ErrNotSubscribed` and leaves the registry as it is. -/
theorem subscriptions_keyed_uniquely [MessageHandler H] :
    (∀ calls : List (Call H),
      ((pubsub.run ({ subscriptions := [] } : pubsub H) calls).subscriptions.map
        Prod.fst).Nodup) ∧
    (∀ (ps : pubsub H) (id topic : String) (old new : H), id ≠ "" → topic ≠ "" →
      ps.find id topic = some old → MessageHandler.Cancel old = none →
      MessageHandler.Cancel new = none →
      (ps.Subscribe id topic new).2 = none ∧
      (ps.Subscribe id topic new).1.find id topic = some new ∧
      (ps.Subscribe id topic new).1.subscriptions.map Prod.fst
        = ps.subscriptions.map Prod.fst ∧
      ((ps.Subscribe id topic new).1.Unsubscribe id topic).2 = none ∧
      (((ps.Subscribe id topic new).1.Unsubscribe id topic).1.Unsubscribe id topic).2
        = ErrNotSubscribed) ∧
    (∀ (ps : pubsub H) (id id' topic : String) (h : H), id' ≠ "" → topic ≠ "" → id ≠ id' →
      ps.find id' topic = none →
      (ps.Subscribe id' topic h).2 = none ∧
      (ps.Subscribe id' topic h).1.find id' topic = some h ∧
      (ps.Subscribe id' topic h).1.find id topic = ps.find id topic ∧
      ((ps.Subscribe id' topic h).1.Unsubscribe id' topic).1.find id topic
        = ps.find id topic) ∧
    (∀ (ps : pubsub H) (id' topic : String), id' ≠ "" → topic ≠ "" →
      ps.find id' topic = none → ps.Unsubscribe id' topic = (ps, ErrNotSubscribed)) := by
  refine ⟨fun calls => run_keys_nodup calls _ List.nodup_nil, ?_, ?_, ?_⟩
  · intro ps id topic old new hid htopic hfind hold hnew
    have heq := Subscribe_present ps id topic old new hid htopic hfind hold
    have hok : (ps.Subscribe id topic new).2 = none := by rw [heq]
    have hf := find_after_Subscribe ps id topic new hid htopic hok
    refine ⟨hok, hf, ?_, ?_, ?_⟩
    · rw [heq]; exact keys_map_replace (id, topic) new ps.subscriptions
    · rw [Unsubscribe_present _ id topic new hid htopic hf]; exact hnew
    · rw [Unsubscribe_absent _ id topic hid htopic
        (find_after_Unsubscribe _ id topic hid htopic)]
  · intro ps id id' topic h hid' htopic hne hfind
    have hk : (id, topic) ≠ (id', topic) := fun hk => hne (congrArg Prod.fst hk)
    have hok : (ps.Subscribe id' topic h).2 = none := by
      rw [Subscribe_absent ps id' topic h hid' htopic hfind]
    refine ⟨hok, find_after_Subscribe ps id' topic h hid' htopic hok,
      find_Subscribe_other ps id topic id' topic h hk, ?_⟩
    rw [find_Unsubscribe_other _ id topic id' topic hk]
    exact find_Subscribe_other ps id topic id' topic h hk
  · intro ps id' topic hid' htopic hfind
    exact Unsubscribe_absent ps id' topic hid' htopic hfind

/-- C13 at the inputs of `TestPubsub`: `clientid1` and `clientid2` subscribe to
`channels.topic`, `clientid1` subscribes again, and the registry holds the two
keys once each; `clientidd3`, which never subscribed, cannot unsubscribe. -/
theorem subscriptions_keyed_uniquely_witness :
    ((pubsub.run ({ subscriptions := [] } : pubsub handler)
        [Call.subscribe "clientid1" "channels.topic" { fail := false },
         Call.subscribe "clientid2" "channels.topic" { fail := false },
         Call.subscribe "clientid1" "channels.topic" { fail := false }]).subscriptions.map
      Prod.fst).Nodup ∧
    (pubsub.run ({ subscriptions := [] } : pubsub handler)
        [Call.subscribe "clientid1" "channels.topic" { fail := false },
         Call.subscribe "clientid2" "channels.topic" { fail := false },
         Call.subscribe "clientid1" "channels.topic" { fail := false }]).subscriptions.map
      Prod.fst = [("clientid1", "channels.topic"), ("clientid2", "channels.topic")] ∧
    (pubsub.Unsubscribe
      (pubsub.run ({ subscriptions := [] } : pubsub handler)
        [Call.subscribe "clientid1" "channels.topic" { fail := false },
         Call.subscribe "clientid2" "channels.topic" { fail := false },
         Call.subscribe "clientid1" "channels.topic" { fail := false }])
      "clientidd3" "channels.topic").2 = ErrNotSubscribed :=
  ⟨(subscriptions_keyed_uniquely (H := handler)).1 _, by decide,
    congrArg Prod.snd ((subscriptions_keyed_uniquely (H := handler)).2.2.2 _
      "clientidd3" "channels.topic" (by decide) (by decide) (by decide))⟩

end nats

namespace messaging

theorem segments_nil : segments [] = [[]] := rfl

theorem segments_cons_dot (cs : List Char) : segments ('.' :: cs) = [] :: segments cs := by
  simp [segments, splitDots]

theorem segments_cons_ne (c : Char) (cs : List Char) (hc : c ≠ '.') :
    segments (c :: cs) = (c :: (splitDots cs).1) :: (splitDots cs).2 := by
  simp [segments, splitDots, hc]

/-- The segments of a topic followed by a dot and a further topic. -/
theorem segments_append_dot (p r : List Char) :
    segments (p ++ '.' :: r) = segments p ++ segments r := by
  induction p with
  | nil => rw [List.nil_append, segments_cons_dot, segments_nil]; rfl
  | cons c cs ih =>
    by_cases hc : c = '.'
    · subst hc
      rw [List.cons_append, segments_cons_dot, segments_cons_dot, ih]; rfl
    · rw [List.cons_append, segments_cons_ne c _ hc, segments_cons_ne c _ hc]
      have h1 : (splitDots (cs ++ '.' :: r)).1 = (splitDots cs).1 := by
        have := congrArg List.head? ih
        simpa [segments] using this
      have h2 : (splitDots (cs ++ '.' :: r)).2 = (splitDots cs).2 ++ segments r := by
        have := congrArg List.tail ih
        simpa [segments] using this
      rw [h1, h2]; rfl

/-- The segments of a topic `p` are the first segments of a topic `q` exactly
when `q` is `p` or `p` followed by a dot and more. -/
theorem segments_prefix_iff (p : List Char) :
    ∀ q : List Char, segments p <+: segments q ↔ q = p ∨ ∃ r, q = p ++ '.' :: r := by
  induction p with
  | nil =>
    intro q
    cases q with
    | nil => exact ⟨fun _ => Or.inl rfl, fun _ => List.prefix_refl _⟩
    | cons d ds =>
      by_cases hd : d = '.'
      · subst hd
        rw [segments_nil, segments_cons_dot, List.cons_prefix_cons]
        exact ⟨fun _ => Or.inr ⟨ds, rfl⟩, fun _ => ⟨rfl, List.nil_prefix⟩⟩
      · rw [segments_nil, segments_cons_ne d ds hd, List.cons_prefix_cons]
        constructor
        · intro h; exact absurd h.1 (List.cons_ne_nil _ _).symm
        · rintro (h | ⟨r, h⟩)
          · exact absurd h (List.cons_ne_nil _ _)
          · exact absurd (List.head_eq_of_cons_eq h) hd
  | cons c cs ih =>
    intro q
    cases q with
    | nil =>
      constructor
      · intro h
        by_cases hc : c = '.'
        · subst hc
          rw [segments_cons_dot, segments_nil, List.cons_prefix_cons] at h
          exact absurd (List.prefix_nil.mp h.2) (List.cons_ne_nil _ _)
        · rw [segments_cons_ne c cs hc, segments_nil, List.cons_prefix_cons] at h
          exact absurd h.1 (List.cons_ne_nil _ _)
      · rintro (h | ⟨r, h⟩)
        · exact absurd h.symm (List.cons_ne_nil _ _)
        · exact absurd h.symm (List.cons_ne_nil _ _)
    | cons d ds =>
      by_cases hc : c = '.'
      · subst hc
        by_cases hd : d = '.'
        · subst hd
          rw [segments_cons_dot, segments_cons_dot, List.cons_prefix_cons, ih ds]
          constructor
          · rintro ⟨_, h | ⟨r, h⟩⟩
            · exact Or.inl (by rw [h])
            · exact Or.inr ⟨r, by rw [h]; rfl⟩
          · rintro (h | ⟨r, h⟩)
            · exact ⟨rfl, Or.inl (List.tail_eq_of_cons_eq h)⟩
            · exact ⟨rfl, Or.inr ⟨r, List.tail_eq_of_cons_eq h⟩⟩
        · rw [segments_cons_dot, segments_cons_ne d ds hd, List.cons_prefix_cons]
          constructor
          · intro h; exact absurd h.1 (List.cons_ne_nil _ _).symm
          · rintro (h | ⟨r, h⟩)
            · exact absurd (List.head_eq_of_cons_eq h) hd
            · exact absurd (List.head_eq_of_cons_eq h) hd
      · by_cases hd : d = '.'
        · subst hd
          rw [segments_cons_ne c cs hc, segments_cons_dot, List.cons_prefix_cons]
          constructor
          · intro h; exact absurd h.1 (List.cons_ne_nil _ _)
          · rintro (h | ⟨r, h⟩)
            · exact absurd (List.head_eq_of_cons_eq h).symm hc
            · exact absurd (List.head_eq_of_cons_eq h).symm hc
        · have ih' := ih ds
          rw [segments, segments, List.cons_prefix_cons] at ih'
          rw [segments_cons_ne c cs hc, segments_cons_ne d ds hd, List.cons_prefix_cons]
          constructor
          · rintro ⟨h1, h2⟩
            have hcd : c = d := List.head_eq_of_cons_eq h1
            have hseg : (splitDots cs).1 = (splitDots ds).1 := List.tail_eq_of_cons_eq h1
            subst hcd
            rcases ih'.mp ⟨hseg, h2⟩ with h | ⟨r, h⟩
            · exact Or.inl (by rw [h])
            · exact Or.inr ⟨r, by rw [h]; rfl⟩
          · rintro (h | ⟨r, h⟩)
            · have hcd : d = c := List.head_eq_of_cons_eq h
              have := ih'.mpr (Or.inl (List.tail_eq_of_cons_eq h))
              exact ⟨by rw [hcd, this.1], this.2⟩
            · have hcd : d = c := List.head_eq_of_cons_eq h
              have := ih'.mpr (Or.inr ⟨r, List.tail_eq_of_cons_eq h⟩)
              exact ⟨by rw [hcd, this.1], this.2⟩

end messaging

namespace messaging

/-- The matching of the model, by the characters of the two topics. -/
theorem topicMatches_data (sub pub : String) :
    topicMatches sub pub = true ↔
      sub.data = pub.data ∨
      ∃ p : List Char, sub.data = p ++ ['.', '>'] ∧
        (pub.data = p ∨ ∃ r : List Char, pub.data = p ++ '.' :: r) := by
  unfold topicMatches
  by_cases hs : ['.', '>'] <:+ sub.toList
  · obtain ⟨t, ht⟩ := hs
    have hsuf : (['.', '>'].isSuffixOf sub.toList) = true :=
      List.isSuffixOf_iff_suffix.mpr ⟨t, ht⟩
    have hdrop : sub.toList.dropLast.dropLast = t := by
      rw [← ht]
      simp [List.dropLast_append_cons]
    rw [if_pos hsuf, hdrop, List.isPrefixOf_iff_prefix, segments_prefix_iff]
    have ht' : sub.data = t ++ ['.', '>'] := ht.symm
    constructor
    · intro h
      exact Or.inr ⟨t, ht', h⟩
    · rintro (h | ⟨p, hp, h⟩)
      · exact Or.inr ⟨['>'], h.symm.trans ht'⟩
      · have hpt : p = t := List.append_cancel_right (hp.symm.trans ht')
        rw [hpt] at h
        exact h
  · have hsuf : ¬ (['.', '>'].isSuffixOf sub.toList) = true :=
      fun h => hs (List.isSuffixOf_iff_suffix.mp h)
    rw [if_neg hsuf, beq_iff_eq]
    constructor
    · intro h; exact Or.inl (by rw [h])
    · rintro (h | ⟨p, hp, _⟩)
      · exact String.ext h
      · exact absurd ⟨p, hp.symm⟩ hs

/-- C15: a subscription topic matches a publish topic exactly when the two are
equal strings, or the subscription topic ends in `.>` and the publish topic is
the stripped prefix itself or the stripped prefix followed by a dot and
further segments.  In particular a message published on `channels.C.engine`
is delivered to subscribers on `channels.C.>`, on `channels.C.engine` and on
`channels.>`, a message published with an empty subtopic, on `channels.C`, is
delivered to a subscriber on `channels.>`, and neither is delivered to a
subscriber on `channels.D.>`. -/
theorem topicMatches_iff :
    (∀ sub pub : String, topicMatches sub pub = true ↔
      sub = pub ∨
      ∃ p : String, sub = p ++ ".>" ∧ (pub = p ∨ ∃ rest : String, pub = p ++ "." ++ rest)) ∧
    topicMatches "channels.C.>" "channels.C.engine" = true ∧
    topicMatches "channels.C.engine" "channels.C.engine" = true ∧
    topicMatches "channels.>" "channels.C.engine" = true ∧
    topicMatches "channels.>" "channels.C" = true ∧
    topicMatches "channels.D.>" "channels.C.engine" = false ∧
    topicMatches "channels.D.>" "channels.C" = false := by
  refine ⟨?_, by decide, by decide, by decide, by decide, by decide, by decide⟩
  intro sub pub
  rw [topicMatches_data]
  constructor
  · rintro (h | ⟨p, hp, h⟩)
    · exact Or.inl (String.ext h)
    · refine Or.inr ⟨⟨p⟩, String.ext (by rw [hp, String.data_append]), ?_⟩
      rcases h with h | ⟨r, h⟩
      · exact Or.inl (String.ext h)
      · exact Or.inr ⟨⟨r⟩, String.ext (by
          rw [h, String.data_append, String.data_append]
          simp)⟩
  · rintro (h | ⟨p, hp, h⟩)
    · exact Or.inl (by rw [h])
    · refine Or.inr ⟨p.data, by rw [hp, String.data_append], ?_⟩
      rcases h with h | ⟨r, h⟩
      · exact Or.inl (by rw [h])
      · exact Or.inr ⟨r.data, by
          rw [h, String.data_append, String.data_append]
          simp⟩

end messaging

namespace rabbitmq

open messaging

/-- The result of `Publish` when the message does not serialise. -/
theorem Publish_of_marshal_fails (d : Deps) (pub : publisher) (topic : String) (msg : Message)
    (hm : (d.Marshal msg).2 ≠ none) : pub.Publish d topic msg = (pub, (d.Marshal msg).2) := by
  simp [publisher.Publish, hm]

/-- The result of `Publish` when the exchange declaration fails. -/
theorem Publish_of_declare_fails (d : Deps) (pub : publisher) (topic : String) (msg : Message)
    (hm : (d.Marshal msg).2 = none)
    (hd : pub.channel.reply pub.channel.sent.length (declareCmd d topic) ≠ none) :
    pub.Publish d topic msg =
      ({ channel :=
          { pub.channel with
            sent := pub.channel.sent ++
              [(declareCmd d topic,
                pub.channel.reply pub.channel.sent.length (declareCmd d topic))] } },
        pub.channel.reply pub.channel.sent.length (declareCmd d topic)) := by
  have hd' : pub.channel.reply pub.channel.sent.length
      (Cmd.ExchangeDeclare (d.exchange ++ "." ++ d.chansPrefix ++ "." ++ topic)
        d.exchangeKind true false false false) ≠ none := hd
  simp [publisher.Publish, hm, Channel.ExchangeDeclare, Channel.send, hd', declareCmd, subject]

/-- The result of `Publish` when the exchange declaration succeeds. -/
theorem Publish_of_declare_ok (d : Deps) (pub : publisher) (topic : String) (msg : Message)
    (hm : (d.Marshal msg).2 = none)
    (hd : pub.channel.reply pub.channel.sent.length (declareCmd d topic) = none) :
    pub.Publish d topic msg =
      ({ channel :=
          { pub.channel with
            sent := pub.channel.sent ++
              [(declareCmd d topic, none),
               (publishCmd d topic msg,
                pub.channel.reply (pub.channel.sent.length + 1) (publishCmd d topic msg))] } },
        pub.channel.reply (pub.channel.sent.length + 1) (publishCmd d topic msg)) := by
  have hd' : pub.channel.reply pub.channel.sent.length
      (Cmd.ExchangeDeclare (d.exchange ++ "." ++ d.chansPrefix ++ "." ++ topic)
        d.exchangeKind true false false false) = none := hd
  simp only [publisher.Publish, hm, Channel.ExchangeDeclare, Channel.Publish, Channel.send, hd',
    declareCmd, publishCmd, subject, ne_eq, not_true_eq_false, if_false, List.length_append,
    List.length_singleton, List.append_assoc, List.singleton_append]
  split <;> simp_all

/-- C17: the RabbitMQ `Publish` never silently drops a message.  If
serialising the message fails, that error is returned and the broker receives
no call; if the exchange declaration fails, that error is returned and the
broker has received the declaration only, no publish; otherwise the broker
receives the publish of the serialised message and its answer is returned.
So `Publish` returns no error exactly when serialising, declaring the
exchange and the broker publish all succeeded. -/
theorem Publish_reports_every_failure (d : Deps) (pub : publisher) (topic : String)
    (msg : Message) :
    ((d.Marshal msg).2 ≠ none →
      pub.Publish d topic msg = (pub, (d.Marshal msg).2)) ∧
    ((d.Marshal msg).2 = none →
      pub.channel.reply pub.channel.sent.length (declareCmd d topic) ≠ none →
      (pub.Publish d topic msg).2
        = pub.channel.reply pub.channel.sent.length (declareCmd d topic) ∧
      (pub.Publish d topic msg).1.channel.sent = pub.channel.sent ++
        [(declareCmd d topic,
          pub.channel.reply pub.channel.sent.length (declareCmd d topic))]) ∧
    ((d.Marshal msg).2 = none →
      pub.channel.reply pub.channel.sent.length (declareCmd d topic) = none →
      (pub.Publish d topic msg).2
        = pub.channel.reply (pub.channel.sent.length + 1) (publishCmd d topic msg) ∧
      (pub.Publish d topic msg).1.channel.sent = pub.channel.sent ++
        [(declareCmd d topic, none),
         (publishCmd d topic msg,
          pub.channel.reply (pub.channel.sent.length + 1) (publishCmd d topic msg))]) ∧
    ((pub.Publish d topic msg).2 = none ↔
      (d.Marshal msg).2 = none ∧
      pub.channel.reply pub.channel.sent.length (declareCmd d topic) = none ∧
      pub.channel.reply (pub.channel.sent.length + 1) (publishCmd d topic msg) = none) := by
  refine ⟨Publish_of_marshal_fails d pub topic msg, ?_, ?_, ?_⟩
  · intro hm hd
    rw [Publish_of_declare_fails d pub topic msg hm hd]
    exact ⟨rfl, rfl⟩
  · intro hm hd
    rw [Publish_of_declare_ok d pub topic msg hm hd]
    exact ⟨rfl, rfl⟩
  · by_cases hm : (d.Marshal msg).2 = none
    · by_cases hd : pub.channel.reply pub.channel.sent.length (declareCmd d topic) = none
      · rw [Publish_of_declare_ok d pub topic msg hm hd]
        exact ⟨fun h => ⟨hm, hd, h⟩, fun h => h.2.2⟩
      · rw [Publish_of_declare_fails d pub topic msg hm hd]
        exact ⟨fun h => absurd h hd, fun h => absurd h.2.1 hd⟩
    · rw [Publish_of_marshal_fails d pub topic msg hm]
      exact ⟨fun h => absurd h hm, fun h => absurd h.1 hm⟩

/-- C17 at a concrete input: the message of the test published on its channel
through a broker that accepts every call. -/
theorem Publish_reports_every_failure_witness :
    (d0.Marshal (message "engine")).2 = none ∧
    (publisher.Publish d0 { channel := brokerUp } "9b7b1b3f-b1b0-46a8-a717-b8213f9eda3b"
      (message "engine")).2 = none ∧
    destinations (publisher.Publish d0 { channel := brokerUp }
      "9b7b1b3f-b1b0-46a8-a717-b8213f9eda3b" (message "engine")).1.channel.sent
      = [("mainflux.channels.9b7b1b3f-b1b0-46a8-a717-b8213f9eda3b", "mfx")] :=
  ⟨rfl,
    ((Publish_reports_every_failure d0 { channel := brokerUp }
      "9b7b1b3f-b1b0-46a8-a717-b8213f9eda3b" (message "engine")).2.2.1 rfl rfl).1,
    by
      rw [((Publish_reports_every_failure d0 { channel := brokerUp }
        "9b7b1b3f-b1b0-46a8-a717-b8213f9eda3b" (message "engine")).2.2.1 rfl rfl).2]
      decide⟩

end rabbitmq

namespace rabbitmq

open messaging

theorem destinations_append (l₁ l₂ : List (Cmd × error)) :
    destinations (l₁ ++ l₂) = destinations l₁ ++ destinations l₂ := by
  induction l₁ with
  | nil => rfl
  | cons x rest ih =>
    obtain ⟨cmd, e⟩ := x
    cases cmd <;> simp [destinations, ih]

/-- C14 at the failing input: the RabbitMQ `Publish` with the empty topic,
through a broker that accepts every call, returns no error, and the broker
has received the declaration of the exchange `mainflux.channels.` and the
publish of the message to it. -/
theorem Publish_empty_topic_reaches_broker :
    (publisher.Publish d0 { channel := brokerUp } "" (message "engine")).2 = none ∧
    (publisher.Publish d0 { channel := brokerUp } "" (message "engine")).1.channel.sent =
      [(Cmd.ExchangeDeclare "mainflux.channels." "direct" true false false false, none),
       (Cmd.Publish "mainflux.channels." "mfx" false false
          { ContentType := "text/plain", Priority := 2, AppId := "mainflux",
            Body := [36, 6, 36, 4, 112, 97, 121, 108, 111, 97, 100] }, none)] := by
  constructor <;> decide

end rabbitmq

namespace nats

open messaging

/-- `Publish` of the NATS variant with the empty topic: the error is
`ErrEmptyTopic` and nothing reaches the broker. -/
theorem Publish_empty_topic (Marshal : Message → List Nat × error) (pub : publisher)
    (msg : Message) : pub.Publish Marshal "" msg = (pub, ErrEmptyTopic) := by
  simp [publisher.Publish]

/-- Two strings that continue the same string are different when the
continuations are. -/
theorem append_ne_of_ne (p s₁ s₂ : String) (h : s₁ ≠ s₂) : p ++ s₁ ≠ p ++ s₂ := by
  intro heq
  have hd := congrArg String.data heq
  rw [String.data_append, String.data_append] at hd
  exact h (String.ext (List.append_cancel_left hd))

end nats

/-- C18, as amended: the RabbitMQ `Publish`, when the message serialises and
the exchange is declared, hands the message to the exchange
`<exchange>.<chansPrefix>.<topic>` with the fixed routing key: the destination
is derived from the topic argument only, so two messages published on the same
topic go to the same destination whatever their subtopics.  In the NATS
variant the destination is `<prefix>.<topic>` when the message's subtopic is
empty and `<prefix>.<topic>.<subtopic>` when it is not, so two messages on
the same topic with different non-empty subtopics go to different
destinations. -/
theorem destination_of_Publish (d : rabbitmq.Deps) (pub : rabbitmq.publisher)
    (Marshal : messaging.Message → List Nat × error) (npub : nats.publisher)
    (topic : String) (msg msg' : messaging.Message) :
    ((d.Marshal msg).2 = none →
      pub.channel.reply pub.channel.sent.length (rabbitmq.declareCmd d topic) = none →
      rabbitmq.destinations (pub.Publish d topic msg).1.channel.sent =
        rabbitmq.destinations pub.channel.sent ++
          [(d.exchange ++ "." ++ d.chansPrefix ++ "." ++ topic, d.routingKey)]) ∧
    ((d.Marshal msg).2 = none → (d.Marshal msg').2 = none →
      pub.channel.reply pub.channel.sent.length (rabbitmq.declareCmd d topic) = none →
      rabbitmq.destinations (pub.Publish d topic msg).1.channel.sent =
        rabbitmq.destinations (pub.Publish d topic msg').1.channel.sent) ∧
    (topic ≠ "" → (Marshal msg).2 = none →
      (npub.Publish Marshal topic msg).1.conn.sent.map (fun x => x.1.1) =
        npub.conn.sent.map (fun x => x.1.1) ++
          [if msg.Subtopic = "" then nats.chansPrefix ++ "." ++ topic
           else nats.chansPrefix ++ "." ++ topic ++ "." ++ msg.Subtopic]) ∧
    (msg.Subtopic ≠ "" → msg'.Subtopic ≠ "" → msg.Subtopic ≠ msg'.Subtopic →
      nats.chansPrefix ++ "." ++ topic ++ "." ++ msg.Subtopic ≠
        nats.chansPrefix ++ "." ++ topic ++ "." ++ msg'.Subtopic) := by
  have hdest : ∀ m : messaging.Message, (d.Marshal m).2 = none →
      pub.channel.reply pub.channel.sent.length (rabbitmq.declareCmd d topic) = none →
      rabbitmq.destinations (pub.Publish d topic m).1.channel.sent =
        rabbitmq.destinations pub.channel.sent ++
          [(d.exchange ++ "." ++ d.chansPrefix ++ "." ++ topic, d.routingKey)] := by
    intro m hm hd
    rw [rabbitmq.Publish_of_declare_ok d pub topic m hm hd]
    simp [rabbitmq.destinations_append, rabbitmq.destinations, rabbitmq.declareCmd,
      rabbitmq.publishCmd, rabbitmq.subject]
  refine ⟨hdest msg, ?_, ?_, ?_⟩
  · intro hm hm' hd
    rw [hdest msg hm hd, hdest msg' hm' hd]
  · intro ht hm
    by_cases hs : msg.Subtopic = ""
    · simp [nats.publisher.Publish, ht, hm, hs, nats.Conn.Publish]
    · simp [nats.publisher.Publish, ht, hm, hs, nats.Conn.Publish]
  · intro _ _ hne
    exact nats.append_ne_of_ne _ _ _ hne

/-- C18, as amended, at concrete inputs: the message of the test published on
its channel through the RabbitMQ publisher, and through the NATS publisher
with the subtopic `engine`. -/
theorem destination_of_Publish_witness :
    (rabbitmq.d0.Marshal (rabbitmq.message "engine")).2 = none ∧
    rabbitmq.destinations
      (rabbitmq.publisher.Publish rabbitmq.d0 { channel := rabbitmq.brokerUp } "C"
        (rabbitmq.message "engine")).1.channel.sent = [("mainflux.channels.C", "mfx")] ∧
    (nats.publisher.Publish rabbitmq.d0.Marshal { conn := nats.connUp } "C"
        (rabbitmq.message "engine")).1.conn.sent.map (fun x => x.1.1)
      = ["channels.C.engine"] :=
  ⟨rfl,
    (destination_of_Publish rabbitmq.d0 { channel := rabbitmq.brokerUp } rabbitmq.d0.Marshal
      { conn := nats.connUp } "C" (rabbitmq.message "engine")
      (rabbitmq.message "motor")).1 rfl rfl,
    (destination_of_Publish rabbitmq.d0 { channel := rabbitmq.brokerUp } rabbitmq.d0.Marshal
      { conn := nats.connUp } "C" (rabbitmq.message "engine")
      (rabbitmq.message "motor")).2.2.1 (by decide) rfl⟩

/-- C18 fails as stated: two messages with the different non-empty subtopics
`engine` and `motor`, published on the same topic through the RabbitMQ
publisher, go to the same destination, the exchange `mainflux.channels.C`,
which names no subtopic. -/
theorem Publish_same_destination_for_subtopics :
    (rabbitmq.message "engine").Subtopic ≠ (rabbitmq.message "motor").Subtopic ∧
    (rabbitmq.message "engine").Subtopic ≠ "" ∧ (rabbitmq.message "motor").Subtopic ≠ "" ∧
    rabbitmq.destinations
      (rabbitmq.publisher.Publish rabbitmq.d0 { channel := rabbitmq.brokerUp } "C"
        (rabbitmq.message "engine")).1.channel.sent = [("mainflux.channels.C", "mfx")] ∧
    rabbitmq.destinations
      (rabbitmq.publisher.Publish rabbitmq.d0 { channel := rabbitmq.brokerUp } "C"
        (rabbitmq.message "motor")).1.channel.sent = [("mainflux.channels.C", "mfx")] := by
  refine ⟨?_, ?_, ?_, ?_, ?_⟩ <;> decide

namespace redis

theorem attempts_map_XAdd {α : Type} (f : α → XAddArgs) (g : α → error) (l : List α) :
    attempts (l.map fun p => (Cmd.XAdd (f p), g p)) = l.map f := by
  induction l with
  | nil => rfl
  | cons x rest ih => simp [attempts, ih]

end redis

namespace producer

open redis

variable {T : Types}

/-- The state after an operation whose wrapped call failed is the state
before it; after one whose wrapped call succeeded it is the state `publish`
leaves, except for `UpdateCert`, which keeps the client of that state only. -/
theorem step_state (d : Deps T) (es es' : eventStore T) (c : Call T) (hc : c ≠ Call.tick)
    (h : step d es c = some es') :
    es' = es ∨ (∃ ev, es' = (es.publish d ev).1) ∨
      ∃ ev, es' = { es with client := (es.publish d ev).1.client } := by
  cases c with
  | tick => exact absurd rfl hc
  | Add token cfg =>
    simp only [step, Option.some.injEq] at h
    subst h
    by_cases hs : (es.svc.Add token cfg).2 = none
    · right; left
      refine ⟨event.configEvent (es.svc.Add token cfg).1 operation.configCreate, ?_⟩
      simp [eventStore.Add, hs]; split <;> rfl
    · left; simp [eventStore.Add, hs]
  | View token id =>
    simp only [step, Option.some.injEq] at h
    subst h
    by_cases hs : (es.svc.View token id).2 = none
    · right; left
      refine ⟨event.configEvent (es.svc.View token id).1 operation.configList, ?_⟩
      simp [eventStore.View, hs]; split <;> rfl
    · left; simp [eventStore.View, hs]
  | Update token cfg =>
    simp only [step, Option.some.injEq] at h
    subst h
    by_cases hs : es.svc.Update token cfg = none
    · right; left
      exact ⟨event.configEvent cfg operation.configUpdate, by simp [eventStore.Update, hs]⟩
    · left; simp [eventStore.Update, hs]
  | UpdateCert token thingKey clientCert clientKey caCert =>
    simp only [step, Option.some.injEq] at h
    subst h
    by_cases hs : (es.svc.UpdateCert token thingKey clientCert clientKey caCert).2 = none
    · right; right
      exact ⟨event.updateCertEvent thingKey clientCert clientKey caCert,
        by simp [eventStore.UpdateCert, hs]⟩
    · left; simp [eventStore.UpdateCert, hs]
  | UpdateConnections token id connections =>
    simp only [step, Option.some.injEq] at h
    subst h
    by_cases hs : es.svc.UpdateConnections token id connections = none
    · right; left
      exact ⟨event.updateConnectionsEvent id connections,
        by simp [eventStore.UpdateConnections, hs]⟩
    · left; simp [eventStore.UpdateConnections, hs]
  | List token filter offset limit =>
    simp only [step, Option.some.injEq] at h
    subst h
    by_cases hs : (es.svc.List token filter offset limit).2 = none
    · right; left
      refine ⟨event.listConfigsEvent offset limit filter.FullMatch filter.PartialMatch, ?_⟩
      simp [eventStore.List, hs]; split <;> rfl
    · left; simp [eventStore.List, hs]
  | Remove token id =>
    simp only [step, Option.some.injEq] at h
    subst h
    by_cases hs : es.svc.Remove token id = none
    · right; left
      exact ⟨event.removeConfigEvent id, by simp [eventStore.Remove, hs]⟩
    · left; simp [eventStore.Remove, hs]
  | Bootstrap externalKey externalID secure =>
    simp only [step, Option.some.injEq] at h
    subst h
    right; left
    by_cases hs : (es.svc.Bootstrap externalKey externalID secure).2 = none
    · refine ⟨event.bootstrapEvent (es.svc.Bootstrap externalKey externalID secure).1
        externalID true, ?_⟩
      simp [eventStore.Bootstrap, hs]; split <;> rfl
    · refine ⟨event.bootstrapEvent (es.svc.Bootstrap externalKey externalID secure).1
        externalID false, ?_⟩
      simp [eventStore.Bootstrap, hs]; split <;> rfl
  | ChangeState token id state =>
    simp only [step, Option.some.injEq] at h
    subst h
    by_cases hs : es.svc.ChangeState token id state = none
    · right; left
      exact ⟨event.changeStateEvent id state, by simp [eventStore.ChangeState, hs]⟩
    · left; simp [eventStore.ChangeState, hs]
  | RemoveConfigHandler id =>
    simp only [step, Option.some.injEq] at h
    subst h
    by_cases hs : es.svc.RemoveConfigHandler id = none
    · right; left
      exact ⟨event.removeHandlerEvent id operation.configHandlerRemove,
        by simp [eventStore.RemoveConfigHandler, hs]⟩
    · left; simp [eventStore.RemoveConfigHandler, hs]
  | RemoveChannelHandler id =>
    simp only [step, Option.some.injEq] at h
    subst h
    by_cases hs : es.svc.RemoveChannelHandler id = none
    · right; left
      exact ⟨event.removeHandlerEvent id operation.channelHandlerRemove,
        by simp [eventStore.RemoveChannelHandler, hs]⟩
    · left; simp [eventStore.RemoveChannelHandler, hs]
  | UpdateChannelHandler channel =>
    simp only [step, Option.some.injEq] at h
    subst h
    by_cases hs : es.svc.UpdateChannelHandler channel = none
    · right; left
      exact ⟨event.updateChannelHandlerEvent channel,
        by simp [eventStore.UpdateChannelHandler, hs]⟩
    · left; simp [eventStore.UpdateChannelHandler, hs]
  | DisconnectThingHandler channelID thingID =>
    simp only [step, Option.some.injEq] at h
    subst h
    by_cases hs : es.svc.DisconnectThingHandler channelID thingID = none
    · right; left
      exact ⟨event.disconnectThingEvent channelID thingID,
        by simp [eventStore.DisconnectThingHandler, hs]⟩
    · left; simp [eventStore.DisconnectThingHandler, hs]

/-- The record `publish` builds names the stream and carries the cap. -/
theorem record_capped (values : List (String × String)) :
    (record values).Stream = streamID ∧ (record values).MaxLenApprox = streamLen :=
  ⟨rfl, rfl⟩

/-- `publish` keeps the records handed to the store and the buffered records
capped. -/
theorem publish_capped (d : Deps T) (es : eventStore T) (ev : event T) (h : es.capped) :
    (es.publish d ev).1.capped := by
  obtain ⟨hs, hb⟩ := h
  by_cases henc : (d.encode ev).2 = none
  · by_cases hping : es.client.Ping.2 = none
    · rw [publish_of_probe_ok d es ev henc hping]
      refine ⟨?_, hb⟩
      intro r hr
      simp only [Client.XAdd, Client.Ping, Client.send, attempts_append, attempts,
        List.append_nil, List.mem_append, List.mem_singleton] at hr
      rcases hr with hr | hr
      · exact hs r hr
      · rw [hr]; exact record_capped _
    · rw [publish_of_probe_fails d es ev henc hping]
      refine ⟨?_, ?_⟩
      · intro r hr
        simp only [Client.Ping, Client.send, attempts_append, attempts, List.append_nil] at hr
        exact hs r hr
      · intro r hr
        simp only [List.mem_append, List.mem_singleton] at hr
        rcases hr with hr | hr
        · exact hb r hr
        · rw [hr]; exact record_capped _
  · rw [publish_of_encode_fails d es ev henc]
    exact ⟨hs, hb⟩

/-- A flush tick ends and keeps the records handed to the store and the
buffered records capped. -/
theorem tick_capped (es : eventStore T) (h : es.capped) :
    ∃ es' : eventStore T, es.tick = some es' ∧ es'.capped := by
  obtain ⟨hs, hb⟩ := h
  by_cases hping : es.client.Ping.2 = none
  · obtain ⟨es', h1, _, h3, h4⟩ := tick_of_probe_ok es hping
    refine ⟨es', h1, ?_, fun r hr => hb r (h3.subset hr)⟩
    intro r hr
    rw [h4, attempts_append] at hr
    simp only [attempts, List.mem_append] at hr
    rcases hr with hr | hr
    · exact hs r hr
    · rw [attempts_map_XAdd] at hr
      simp only [List.map_reverse, List.enum_map_snd, List.mem_reverse] at hr
      exact hb r hr
  · refine ⟨{ es with client := es.client.Ping.1 },
      by simp [eventStore.tick, eventStore.checkRedisConnection, hping], ?_, hb⟩
    intro r hr
    simp only [Client.Ping, Client.send, attempts_append, attempts, List.append_nil] at hr
    exact hs r hr

/-- Every call and every tick ends and keeps the records handed to the store
and the buffered records capped. -/
theorem step_capped (d : Deps T) (es : eventStore T) (c : Call T) (h : es.capped) :
    ∃ es' : eventStore T, step d es c = some es' ∧ es'.capped := by
  by_cases hc : c = Call.tick
  · subst hc
    exact tick_capped es h
  · have hsome : ∃ es', step d es c = some es' := by
      cases c <;> first | exact ⟨_, rfl⟩ | exact absurd rfl hc
    obtain ⟨es', hes'⟩ := hsome
    refine ⟨es', hes', ?_⟩
    rcases step_state d es es' c hc hes' with h1 | ⟨ev, h1⟩ | ⟨ev, h1⟩
    · rw [h1]; exact h
    · rw [h1]; exact publish_capped d es ev h
    · rw [h1]; exact ⟨(publish_capped d es ev h).1, h.2⟩

/-- Every sequence of calls and ticks ends and keeps the records handed to
the store and the buffered records capped. -/
theorem run_capped (d : Deps T) (calls : List (Call T)) :
    ∀ es : eventStore T, es.capped → ∃ es' : eventStore T, run d es calls = some es' ∧ es'.capped := by
  induction calls with
  | nil => intro es h; exact ⟨es, rfl, h⟩
  | cons c rest ih =>
    intro es h
    obtain ⟨es1, h1, hc1⟩ := step_capped d es c h
    obtain ⟨es', h2, hc2⟩ := ih es1 hc1
    exact ⟨es', by simp [run, h1, h2], hc2⟩

end producer

/-- C19, as amended: every call of a thing-policies operation whose wrapped
call succeeds sends the store exactly one command, the append of the record
of its event: the authorize event for `Authorize`, the policy event tagged
`policyAdd` for `AddPolicy`, `policyUpdate` for `UpdatePolicy` and
`policyDelete` for `DeletePolicy`, the list event for `ListPolicies`.  A
bootstrap `Add` whose wrapped call succeeds and whose event encodes yields
exactly one record, that of the config event tagged `configCreate`: when the
probe fails the record is added to the buffer and no append is attempted;
when the probe succeeds the record is handed to the store in exactly one
append and the buffer is unchanged, and the record is in the stream when the
store accepts that append and is in neither the stream nor the buffer when
the store refuses it. -/
theorem one_record_per_successful_call {T : producer.Types} {P : policies.Types}
    (d : producer.Deps T) (es : producer.eventStore T)
    (Encode : policies.event P → List (String × String)) (ps : policies.eventStore P) :
    (∀ ar entity, (ps.svc.Authorize ar entity).2 = none →
      (ps.Authorize Encode ar entity).1.client.sent = ps.client.sent ++
        [(redis.Cmd.XAdd (policies.record Encode (policies.event.authorizeEvent ar entity)),
          (ps.client.XAdd
            (policies.record Encode (policies.event.authorizeEvent ar entity))).2)]) ∧
    (∀ token policy, (ps.svc.AddPolicy token policy).2 = none →
      (ps.AddPolicy Encode token policy).1.client.sent = ps.client.sent ++
        [(redis.Cmd.XAdd (policies.record Encode (policies.event.policyEvent
            (ps.svc.AddPolicy token policy).1 policies.operation.policyAdd)),
          (ps.client.XAdd (policies.record Encode (policies.event.policyEvent
            (ps.svc.AddPolicy token policy).1 policies.operation.policyAdd))).2)]) ∧
    (∀ token policy, (ps.svc.UpdatePolicy token policy).2 = none →
      (ps.UpdatePolicy Encode token policy).1.client.sent = ps.client.sent ++
        [(redis.Cmd.XAdd (policies.record Encode (policies.event.policyEvent
            (ps.svc.UpdatePolicy token policy).1 policies.operation.policyUpdate)),
          (ps.client.XAdd (policies.record Encode (policies.event.policyEvent
            (ps.svc.UpdatePolicy token policy).1 policies.operation.policyUpdate))).2)]) ∧
    (∀ token page, (ps.svc.ListPolicies token page).2 = none →
      (ps.ListPolicies Encode token page).1.client.sent = ps.client.sent ++
        [(redis.Cmd.XAdd (policies.record Encode (policies.event.listPoliciesEvent page)),
          (ps.client.XAdd
            (policies.record Encode (policies.event.listPoliciesEvent page))).2)]) ∧
    (∀ token policy, ps.svc.DeletePolicy token policy = none →
      (ps.DeletePolicy Encode token policy).1.client.sent = ps.client.sent ++
        [(redis.Cmd.XAdd (policies.record Encode (policies.event.policyEvent policy
            policies.operation.policyDelete)),
          (ps.client.XAdd (policies.record Encode (policies.event.policyEvent policy
            policies.operation.policyDelete))).2)]) ∧
    (∀ token cfg, (es.svc.Add token cfg).2 = none →
      (d.encode (producer.event.configEvent (es.svc.Add token cfg).1
        producer.operation.configCreate)).2 = none →
      (es.client.Ping.2 ≠ none →
        (es.Add d token cfg).1.unpublishedEvents = es.unpublishedEvents ++
          [producer.record (d.encode (producer.event.configEvent (es.svc.Add token cfg).1
            producer.operation.configCreate)).1] ∧
        redis.attempts (es.Add d token cfg).1.client.sent = redis.attempts es.client.sent) ∧
      (es.client.Ping.2 = none →
        (es.Add d token cfg).1.unpublishedEvents = es.unpublishedEvents ∧
        redis.attempts (es.Add d token cfg).1.client.sent = redis.attempts es.client.sent ++
          [producer.record (d.encode (producer.event.configEvent (es.svc.Add token cfg).1
            producer.operation.configCreate)).1] ∧
        redis.appended (es.Add d token cfg).1.client.sent = redis.appended es.client.sent ++
          if (es.client.Ping.1.XAdd (producer.record (d.encode (producer.event.configEvent
              (es.svc.Add token cfg).1 producer.operation.configCreate)).1)).2 = none
          then [producer.record (d.encode (producer.event.configEvent (es.svc.Add token cfg).1
              producer.operation.configCreate)).1]
          else [])) := by
  refine ⟨?_, ?_, ?_, ?_, ?_, ?_⟩
  · intro ar entity h
    simp [policies.eventStore.Authorize, h, redis.Client.XAdd, redis.Client.send]
    split <;> simp_all
  · intro token policy h
    simp [policies.eventStore.AddPolicy, h, redis.Client.XAdd, redis.Client.send]
    split <;> simp_all
  · intro token policy h
    simp [policies.eventStore.UpdatePolicy, h, redis.Client.XAdd, redis.Client.send]
    split <;> simp_all
  · intro token page h
    simp [policies.eventStore.ListPolicies, h, redis.Client.XAdd, redis.Client.send]
    split <;> simp_all
  · intro token policy h
    simp [policies.eventStore.DeletePolicy, h, redis.Client.XAdd, redis.Client.send]
    split <;> simp_all
  · intro token cfg h henc
    have hst : (es.Add d token cfg).1 = (es.publish d (producer.event.configEvent
        (es.svc.Add token cfg).1 producer.operation.configCreate)).1 := by
      simp [producer.eventStore.Add, h]; split <;> rfl
    rw [hst]
    refine ⟨fun hping => ?_, fun hping => ?_⟩
    · rw [producer.publish_of_probe_fails d es _ henc hping]
      refine ⟨rfl, ?_⟩
      simp [redis.Client.Ping, redis.Client.send, redis.attempts_append, redis.attempts]
    · rw [producer.publish_of_probe_ok d es _ henc hping]
      have hp : es.client.reply es.client.sent.length redis.Cmd.Ping = none := hping
      refine ⟨rfl, ?_, ?_⟩
      · simp [redis.Client.Ping, redis.Client.XAdd, redis.Client.send, redis.attempts_append,
          redis.attempts]
      · simp only [redis.Client.Ping, redis.Client.XAdd, redis.Client.send,
          redis.appended_append, List.append_assoc, hp]
        split <;> simp_all [redis.appended]

/-- C19, as amended, at concrete inputs: `AddPolicy` in front of a store that
is up sends it one append, of the record tagged `add`; `Add` in front of a
store that is down buffers one record tagged `create`. -/
theorem one_record_per_successful_call_witness :
    (policies.svcOk.AddPolicy "token" "p").2 = none ∧
    ((policies.NewEventStoreMiddleware policies.svcOk producer.storeUp).AddPolicy
      policies.Encode0 "token" "p").1.client.sent =
        [(redis.Cmd.XAdd ⟨"mainflux.things", 1000, [("policy", "p"), ("operation", "add")]⟩,
          none)] ∧
    ((producer.NewEventStoreMiddleware producer.svcOk producer.storeDown).Add
      producer.d0 "token" "cfg").1.unpublishedEvents =
        [⟨"mainflux.bootstrap", 1000, [("config", "cfg"), ("operation", "create")]⟩] :=
  ⟨rfl,
    (one_record_per_successful_call producer.d0
      (producer.NewEventStoreMiddleware producer.svcOk producer.storeDown) policies.Encode0
      (policies.NewEventStoreMiddleware policies.svcOk producer.storeUp)).2.1 "token" "p" rfl,
    ((one_record_per_successful_call producer.d0
      (producer.NewEventStoreMiddleware producer.svcOk producer.storeDown) policies.Encode0
      (policies.NewEventStoreMiddleware policies.svcOk producer.storeUp)).2.2.2.2.2
        "token" "cfg" rfl rfl).1 (by decide) |>.1⟩

/-- C19 fails as stated: the wrapped `Add` succeeds, the store answers the
probe and refuses the append, and the middleware's `Add` returns the saved
configuration and no error; the record was handed to the store once, but it
is neither in the stream nor in the buffer. -/
theorem Add_record_neither_appended_nor_buffered :
    (producer.svcOk.Add "token" "cfg").2 = none ∧
    ((producer.NewEventStoreMiddleware producer.svcOk producer.storeRejects).Add
      producer.d0 "token" "cfg").2 = ("cfg", none) ∧
    redis.attempts ((producer.NewEventStoreMiddleware producer.svcOk producer.storeRejects).Add
      producer.d0 "token" "cfg").1.client.sent =
        [⟨"mainflux.bootstrap", 1000, [("config", "cfg"), ("operation", "create")]⟩] ∧
    redis.appended ((producer.NewEventStoreMiddleware producer.svcOk producer.storeRejects).Add
      producer.d0 "token" "cfg").1.client.sent = [] ∧
    ((producer.NewEventStoreMiddleware producer.svcOk producer.storeRejects).Add
      producer.d0 "token" "cfg").1.unpublishedEvents = [] := by
  refine ⟨rfl, ?_, ?_, ?_, ?_⟩
  · rfl
  · decide
  · decide
  · decide

/-- C20: every record the two middlewares hand to the store names the fixed
stream of its service and carries the length cap 1000, whatever the event.
For the bootstrap middleware, freshly constructed over a client whose earlier
appends (if any) were such records, every sequence of calls and ticks ends,
and afterwards every record handed to the store, inline or from the buffer,
and every record still in the buffer names `mainflux.bootstrap` and carries
the cap 1000.  Every thing-policies operation sends the store nothing or
exactly one append, of a record that names `mainflux.things` and carries the
cap 1000. -/
theorem records_name_stream_and_cap {T : producer.Types} {P : policies.Types}
    (d : producer.Deps T) (svc : producer.Service T) (client : redis.Client)
    (calls : List (producer.Call T))
    (Encode : policies.event P → List (String × String)) (ps : policies.eventStore P)
    (hclient : ∀ r ∈ redis.attempts client.sent,
      r.Stream = "mainflux.bootstrap" ∧ r.MaxLenApprox = 1000) :
    (∀ values, (producer.record values).Stream = "mainflux.bootstrap" ∧
      (producer.record values).MaxLenApprox = 1000) ∧
    (∀ ev, (policies.record Encode ev).Stream = "mainflux.things" ∧
      (policies.record Encode ev).MaxLenApprox = 1000) ∧
    (∃ es' : producer.eventStore T,
      producer.run d (producer.NewEventStoreMiddleware svc client) calls = some es' ∧
      (∀ r ∈ redis.attempts es'.client.sent,
        r.Stream = "mainflux.bootstrap" ∧ r.MaxLenApprox = 1000) ∧
      (∀ r ∈ es'.unpublishedEvents,
        r.Stream = "mainflux.bootstrap" ∧ r.MaxLenApprox = 1000)) ∧
    (∀ ar entity, (ps.Authorize Encode ar entity).1.client.sent = ps.client.sent ∨
      ∃ ev e, (ps.Authorize Encode ar entity).1.client.sent =
        ps.client.sent ++ [(redis.Cmd.XAdd (policies.record Encode ev), e)]) ∧
    (∀ token policy, (ps.AddPolicy Encode token policy).1.client.sent = ps.client.sent ∨
      ∃ ev e, (ps.AddPolicy Encode token policy).1.client.sent =
        ps.client.sent ++ [(redis.Cmd.XAdd (policies.record Encode ev), e)]) ∧
    (∀ token policy, (ps.UpdatePolicy Encode token policy).1.client.sent = ps.client.sent ∨
      ∃ ev e, (ps.UpdatePolicy Encode token policy).1.client.sent =
        ps.client.sent ++ [(redis.Cmd.XAdd (policies.record Encode ev), e)]) ∧
    (∀ token page, (ps.ListPolicies Encode token page).1.client.sent = ps.client.sent ∨
      ∃ ev e, (ps.ListPolicies Encode token page).1.client.sent =
        ps.client.sent ++ [(redis.Cmd.XAdd (policies.record Encode ev), e)]) ∧
    (∀ token policy, (ps.DeletePolicy Encode token policy).1.client.sent = ps.client.sent ∨
      ∃ ev e, (ps.DeletePolicy Encode token policy).1.client.sent =
        ps.client.sent ++ [(redis.Cmd.XAdd (policies.record Encode ev), e)]) := by
  refine ⟨fun _ => ⟨rfl, rfl⟩, fun _ => ⟨rfl, rfl⟩, ?_, ?_, ?_, ?_, ?_, ?_⟩
  · have h0 : (producer.NewEventStoreMiddleware svc client).capped :=
      ⟨hclient, fun r hr => absurd hr (List.not_mem_nil r)⟩
    obtain ⟨es', h1, h2, h3⟩ := producer.run_capped d calls _ h0
    exact ⟨es', h1, h2, h3⟩
  · intro ar entity
    by_cases h : (ps.svc.Authorize ar entity).2 = none
    · right
      refine ⟨policies.event.authorizeEvent ar entity,
        (ps.client.XAdd (policies.record Encode (policies.event.authorizeEvent ar entity))).2, ?_⟩
      simp [policies.eventStore.Authorize, h, redis.Client.XAdd, redis.Client.send]
      split <;> simp_all
    · left; simp [policies.eventStore.Authorize, h]
  · intro token policy
    by_cases h : (ps.svc.AddPolicy token policy).2 = none
    · right
      refine ⟨policies.event.policyEvent (ps.svc.AddPolicy token policy).1
        policies.operation.policyAdd,
        (ps.client.XAdd (policies.record Encode (policies.event.policyEvent
          (ps.svc.AddPolicy token policy).1 policies.operation.policyAdd))).2, ?_⟩
      simp [policies.eventStore.AddPolicy, h, redis.Client.XAdd, redis.Client.send]
      split <;> simp_all
    · left; simp [policies.eventStore.AddPolicy, h]
  · intro token policy
    by_cases h : (ps.svc.UpdatePolicy token policy).2 = none
    · right
      refine ⟨policies.event.policyEvent (ps.svc.UpdatePolicy token policy).1
        policies.operation.policyUpdate,
        (ps.client.XAdd (policies.record Encode (policies.event.policyEvent
          (ps.svc.UpdatePolicy token policy).1 policies.operation.policyUpdate))).2, ?_⟩
      simp [policies.eventStore.UpdatePolicy, h, redis.Client.XAdd, redis.Client.send]
      split <;> simp_all
    · left; simp [policies.eventStore.UpdatePolicy, h]
  · intro token page
    by_cases h : (ps.svc.ListPolicies token page).2 = none
    · right
      refine ⟨policies.event.listPoliciesEvent page,
        (ps.client.XAdd (policies.record Encode (policies.event.listPoliciesEvent page))).2, ?_⟩
      simp [policies.eventStore.ListPolicies, h, redis.Client.XAdd, redis.Client.send]
      split <;> simp_all
    · left; simp [policies.eventStore.ListPolicies, h]
  · intro token policy
    by_cases h : ps.svc.DeletePolicy token policy = none
    · right
      refine ⟨policies.event.policyEvent policy policies.operation.policyDelete,
        (ps.client.XAdd (policies.record Encode (policies.event.policyEvent policy
          policies.operation.policyDelete))).2, ?_⟩
      simp [policies.eventStore.DeletePolicy, h, redis.Client.XAdd, redis.Client.send]
      split <;> simp_all
    · left; simp [policies.eventStore.DeletePolicy, h]

/-- C20 at a concrete input: `Add` while the store is down, then a tick after
it has recovered; the one record handed to the store names the stream and
carries the cap. -/
theorem records_name_stream_and_cap_witness :
    ∃ es' : producer.eventStore producer.T0,
      producer.run producer.d0
        (producer.NewEventStoreMiddleware producer.svcOk producer.storeRecovers)
        [producer.Call.Add "token" "cfg", producer.Call.tick] = some es' ∧
      (∀ r ∈ redis.attempts es'.client.sent,
        r.Stream = "mainflux.bootstrap" ∧ r.MaxLenApprox = 1000) ∧
      ∀ r ∈ es'.unpublishedEvents,
        r.Stream = "mainflux.bootstrap" ∧ r.MaxLenApprox = 1000 :=
  (records_name_stream_and_cap producer.d0 producer.svcOk producer.storeRecovers
    [producer.Call.Add "token" "cfg", producer.Call.tick] policies.Encode0
    (policies.NewEventStoreMiddleware policies.svcOk producer.storeUp)
    (fun r hr => absurd hr (List.not_mem_nil r))).2.2.1

namespace producer

open redis

variable {T : Types}

/-- C22: in a flush cycle whose probe succeeds, the appends are attempted on
the records of the starting buffer in reverse buffer order, newest first, and
each record of the starting buffer is attempted exactly once, whatever the
store answers: after the probe the store has received as many commands as the
starting buffer has records, and they are the appends of its records read
from the last to the first. -/
theorem tick_attempts_newest_first (es : eventStore T) (hping : es.client.Ping.2 = none) :
    ∃ es' : eventStore T, es.tick = some es' ∧
      attempts es'.client.sent = attempts es.client.sent ++ es.unpublishedEvents.reverse ∧
      es'.client.sent.length = es.client.sent.length + 1 + es.unpublishedEvents.length ∧
      es'.client.sent.drop (es.client.sent.length + 1) =
        (es.unpublishedEvents.enum.reverse.map fun p =>
          (Cmd.XAdd p.2,
            es.client.reply (es.client.sent.length + 1 + (es.unpublishedEvents.length - 1 - p.1))
              (Cmd.XAdd p.2))) := by
  obtain ⟨es', h1, _, _, h4⟩ := tick_of_probe_ok es hping
  refine ⟨es', h1, ?_, ?_, ?_⟩
  · rw [h4, attempts_append]
    simp only [attempts]
    rw [attempts_map_XAdd]
    simp [List.enum_map_snd]
  · rw [h4]
    simp [List.enum_length]
    omega
  · rw [h4]
    have : es.client.sent ++ (Cmd.Ping, none) ::
        (es.unpublishedEvents.enum.reverse.map fun p =>
          (Cmd.XAdd p.2,
            es.client.reply (es.client.sent.length + 1 + (es.unpublishedEvents.length - 1 - p.1))
              (Cmd.XAdd p.2)))
        = (es.client.sent ++ [(Cmd.Ping, none)]) ++
        (es.unpublishedEvents.enum.reverse.map fun p =>
          (Cmd.XAdd p.2,
            es.client.reply (es.client.sent.length + 1 + (es.unpublishedEvents.length - 1 - p.1))
              (Cmd.XAdd p.2))) := by simp
    rw [this]
    exact List.drop_left' (by simp)

/-- C22 at a concrete input: the three buffered records `a`, `b`, `c` are
attempted as `c`, `b`, `a`. -/
theorem tick_attempts_newest_first_witness :
    esBuffered.client.Ping.2 = none ∧
    ∃ es' : eventStore T0, esBuffered.tick = some es' ∧
      attempts es'.client.sent = [rec0 "c", rec0 "b", rec0 "a"] :=
  ⟨rfl, by
    obtain ⟨es', h1, h2, _⟩ := tick_attempts_newest_first esBuffered rfl
    exact ⟨es', h1, by rw [h2]; rfl⟩⟩

/-- Consecutive publishes of events that encode, each with the probe failing,
add the records of the events at the end of the buffer in order and attempt no
append. -/
theorem publishAll_probe_fails (d : Deps T) (evs : List (event T)) :
    ∀ es : eventStore T, (∀ ev ∈ evs, (d.encode ev).2 = none) →
      (∀ j, j < evs.length → es.client.reply (es.client.sent.length + j) Cmd.Ping ≠ none) →
      (publishAll d es evs).unpublishedEvents =
        es.unpublishedEvents ++ evs.map (fun ev => record (d.encode ev).1) ∧
      attempts (publishAll d es evs).client.sent = attempts es.client.sent := by
  induction evs with
  | nil => intro es _ _; simp [publishAll]
  | cons ev rest ih =>
    intro es henc hping
    have h0 : es.client.Ping.2 ≠ none := by
      have := hping 0 (by simp)
      simpa [Client.Ping, Client.send] using this
    have hpub := publish_of_probe_fails d es ev (henc ev (List.mem_cons_self _ _)) h0
    have := ih (es.publish d ev).1 (fun e he => henc e (List.mem_cons_of_mem _ he))
      (by
        intro j hj
        rw [hpub]
        have := hping (j + 1) (by simp; omega)
        simp only [Client.Ping, Client.send, List.length_append, List.length_singleton]
        rw [Nat.add_assoc, Nat.add_comm 1 j]
        exact this)
    simp only [publishAll]
    rw [this.1, this.2, hpub]
    simp [Client.Ping, Client.send, attempts_append, attempts]

/-- C23: the unpublished buffer has no capacity limit and no eviction.  For
every starting buffer and every list of events that encode, published one
after the other with the probe failing each time, the buffer afterwards has
the length of the starting buffer plus the number of events, its first records
are the starting buffer and its last records are the records of the events in
publish order. -/
theorem buffer_grows_without_bound (d : Deps T) (es : eventStore T) (evs : List (event T))
    (henc : ∀ ev ∈ evs, (d.encode ev).2 = none)
    (hping : ∀ j, j < evs.length →
      es.client.reply (es.client.sent.length + j) Cmd.Ping ≠ none) :
    (publishAll d es evs).unpublishedEvents.length
      = es.unpublishedEvents.length + evs.length ∧
    (publishAll d es evs).unpublishedEvents.take es.unpublishedEvents.length
      = es.unpublishedEvents ∧
    (publishAll d es evs).unpublishedEvents.drop es.unpublishedEvents.length
      = evs.map (fun ev => record (d.encode ev).1) := by
  have h := (publishAll_probe_fails d evs es henc hping).1
  rw [h]
  refine ⟨by simp, ?_, ?_⟩
  · exact List.take_left' rfl
  · exact List.drop_left' rfl

/-- C23 at a concrete input: two events published in front of a store that
is down, on a buffer that holds three records. -/
theorem buffer_grows_without_bound_witness :
    (publishAll d0 esDown
      [event.removeConfigEvent "t1",
        event.configEvent "cfg" operation.configCreate]).unpublishedEvents.length = 3 + 2 ∧
    (publishAll d0 esDown
      [event.removeConfigEvent "t1",
        event.configEvent "cfg" operation.configCreate]).unpublishedEvents.take 3
      = [rec0 "a", rec0 "b", rec0 "c"] ∧
    (publishAll d0 esDown
      [event.removeConfigEvent "t1",
        event.configEvent "cfg" operation.configCreate]).unpublishedEvents.drop 3
      = [record [("operation", "other")], record [("config", "cfg"), ("operation", "create")]] :=
  buffer_grows_without_bound d0 esDown
    [event.removeConfigEvent "t1", event.configEvent "cfg" operation.configCreate]
    (by intro ev hev; simp at hev; rcases hev with h | h <;> rw [h] <;> rfl)
    (by intro j _; simp [esDown, storeDown])

end producer

namespace producer

open redis

variable {T : Types}

/-- C24: the flush loop never reads the unpublished buffer out of range.  For
every starting buffer, the empty one included, and whatever the store answers
to the appends, the loop started at the last index ends (a read out of range
would stop it) after exactly as many appends as the starting buffer has
records, and so does the tick around it for either answer to the probe.  The
read is checked: started one index higher, the loop stops on its first
read. -/
theorem flush_reads_in_range (es : eventStore T) :
    (∃ es' : eventStore T, es.flush es.unpublishedEvents.length = some es' ∧
      es'.client.sent.length = es.client.sent.length + es.unpublishedEvents.length ∧
      attempts es'.client.sent = attempts es.client.sent ++ es.unpublishedEvents.reverse ∧
      es'.unpublishedEvents.length ≤ es.unpublishedEvents.length) ∧
    (∃ es' : eventStore T, es.tick = some es') ∧
    es.flush (es.unpublishedEvents.length + 1) = none := by
  refine ⟨?_, ?_, ?_⟩
  · obtain ⟨es', h1, h2, _, _, h5⟩ :=
      flush_loop es.client.reply es.client.sent.length es.unpublishedEvents
        es.unpublishedEvents.length (Nat.le_refl _) es (by simp) rfl (by simp)
    refine ⟨es', h1, ?_, ?_, ?_⟩
    · rw [h5]; simp [List.enum_length]
    · rw [h5, attempts_append, attempts_map_XAdd]
      simp [List.enum_map_snd]
    · rw [h2]
      calc ((es.unpublishedEvents.enum.filter _).map Prod.snd).length
          = (es.unpublishedEvents.enum.filter _).length := List.length_map _ _
        _ ≤ es.unpublishedEvents.enum.length := List.length_filter_le _ _
        _ = es.unpublishedEvents.length := List.enum_length
  · by_cases hping : es.client.Ping.2 = none
    · obtain ⟨es', h1, _⟩ := tick_of_probe_ok es hping
      exact ⟨es', h1⟩
    · exact ⟨{ es with client := es.client.Ping.1 },
        by simp [eventStore.tick, eventStore.checkRedisConnection, hping]⟩
  · simp [eventStore.flush]

/-- `Bootstrap` in terms of `publish`: the event published carries the
configuration the wrapped service returned, the external identity, and a
success flag that is on exactly when the wrapped call returned no error.  The
call returns that configuration with the error of `publish` when publishing
fails, and with the wrapped service's error otherwise. -/
theorem Bootstrap_eq_publish (d : Deps T) (es : eventStore T)
    (externalKey externalID : String) (secure : Bool) :
    es.Bootstrap d externalKey externalID secure =
      ((es.publish d (event.bootstrapEvent (es.svc.Bootstrap externalKey externalID secure).1
          externalID (decide ((es.svc.Bootstrap externalKey externalID secure).2 = none)))).1,
        (es.svc.Bootstrap externalKey externalID secure).1,
        if (es.publish d (event.bootstrapEvent
            (es.svc.Bootstrap externalKey externalID secure).1 externalID
            (decide ((es.svc.Bootstrap externalKey externalID secure).2 = none)))).2 ≠ none
        then (es.publish d (event.bootstrapEvent
            (es.svc.Bootstrap externalKey externalID secure).1 externalID
            (decide ((es.svc.Bootstrap externalKey externalID secure).2 = none)))).2
        else (es.svc.Bootstrap externalKey externalID secure).2) := by
  by_cases h : (es.svc.Bootstrap externalKey externalID secure).2 = none
  · simp [eventStore.Bootstrap, h]
    split <;> simp_all
  · simp [eventStore.Bootstrap, h]
    split <;> simp_all

/-- C26: if encoding the event fails, `publish` returns the encode error and
leaves the middleware as it was: the store receives no command, neither the
probe nor an append, and the unpublished buffer is unchanged. -/
theorem publish_encode_error (d : Deps T) (es : eventStore T) (ev : event T)
    (henc : (d.encode ev).2 ≠ none) :
    (es.publish d ev).2 = (d.encode ev).2 ∧
    (es.publish d ev).1 = es ∧
    (es.publish d ev).1.client.sent = es.client.sent ∧
    (es.publish d ev).1.unpublishedEvents = es.unpublishedEvents := by
  rw [publish_of_encode_fails d es ev henc]
  exact ⟨rfl, rfl, rfl, rfl⟩

/-- C26 at a concrete input: an event that does not encode, in front of a
store that is up. -/
theorem publish_encode_error_witness :
    (dFail.encode (event.removeConfigEvent "thing")).2 ≠ none ∧
    ((NewEventStoreMiddleware svcOk storeUp).publish dFail
      (event.removeConfigEvent "thing")).2 = some "encode failed" ∧
    ((NewEventStoreMiddleware svcOk storeUp).publish dFail
      (event.removeConfigEvent "thing")).1.client.sent = [] ∧
    ((NewEventStoreMiddleware svcOk storeUp).publish dFail
      (event.removeConfigEvent "thing")).1.unpublishedEvents = [] :=
  ⟨by decide,
    (publish_encode_error dFail (NewEventStoreMiddleware svcOk storeUp)
      (event.removeConfigEvent "thing") (by decide)).1,
    (publish_encode_error dFail (NewEventStoreMiddleware svcOk storeUp)
      (event.removeConfigEvent "thing") (by decide)).2.2.1,
    (publish_encode_error dFail (NewEventStoreMiddleware svcOk storeUp)
      (event.removeConfigEvent "thing") (by decide)).2.2.2⟩

end producer

namespace policies

open redis

variable {T : Types}

/-- C27: in the thing-policies middleware, when the wrapped call succeeds and
the append to the stream fails, the append error is returned; with it
`Authorize` returns the identity the wrapped service produced, `AddPolicy` and
`UpdatePolicy` the zero policy and `ListPolicies` the zero page.  When the
wrapped call itself fails, its error is returned, with the empty string by
`Authorize`, the zero policy by `AddPolicy` and `UpdatePolicy` and the zero
page by `ListPolicies`. -/
theorem results_on_failure (Encode : event T → List (String × String)) (es : eventStore T) :
    (∀ ar entity, (es.svc.Authorize ar entity).2 = none →
      (es.client.XAdd (record Encode (event.authorizeEvent ar entity))).2 ≠ none →
      (es.Authorize Encode ar entity).2 =
        ((es.svc.Authorize ar entity).1,
          (es.client.XAdd (record Encode (event.authorizeEvent ar entity))).2)) ∧
    (∀ token policy, (es.svc.AddPolicy token policy).2 = none →
      (es.client.XAdd (record Encode (event.policyEvent (es.svc.AddPolicy token policy).1
        operation.policyAdd))).2 ≠ none →
      (es.AddPolicy Encode token policy).2 =
        (T.zeroPolicy, (es.client.XAdd (record Encode (event.policyEvent
          (es.svc.AddPolicy token policy).1 operation.policyAdd))).2)) ∧
    (∀ token policy, (es.svc.UpdatePolicy token policy).2 = none →
      (es.client.XAdd (record Encode (event.policyEvent (es.svc.UpdatePolicy token policy).1
        operation.policyUpdate))).2 ≠ none →
      (es.UpdatePolicy Encode token policy).2 =
        (T.zeroPolicy, (es.client.XAdd (record Encode (event.policyEvent
          (es.svc.UpdatePolicy token policy).1 operation.policyUpdate))).2)) ∧
    (∀ token page, (es.svc.ListPolicies token page).2 = none →
      (es.client.XAdd (record Encode (event.listPoliciesEvent page))).2 ≠ none →
      (es.ListPolicies Encode token page).2 =
        (T.zeroPolicyPage, (es.client.XAdd (record Encode (event.listPoliciesEvent page))).2)) ∧
    (∀ token policy, es.svc.DeletePolicy token policy = none →
      (es.client.XAdd (record Encode (event.policyEvent policy operation.policyDelete))).2
        ≠ none →
      (es.DeletePolicy Encode token policy).2 =
        (es.client.XAdd (record Encode (event.policyEvent policy operation.policyDelete))).2) ∧
    (∀ ar entity, (es.svc.Authorize ar entity).2 ≠ none →
      (es.Authorize Encode ar entity).2 = ("", (es.svc.Authorize ar entity).2)) ∧
    (∀ token policy, (es.svc.AddPolicy token policy).2 ≠ none →
      (es.AddPolicy Encode token policy).2 = (T.zeroPolicy, (es.svc.AddPolicy token policy).2)) ∧
    (∀ token policy, (es.svc.UpdatePolicy token policy).2 ≠ none →
      (es.UpdatePolicy Encode token policy).2 =
        (T.zeroPolicy, (es.svc.UpdatePolicy token policy).2)) ∧
    (∀ token page, (es.svc.ListPolicies token page).2 ≠ none →
      (es.ListPolicies Encode token page).2 =
        (T.zeroPolicyPage, (es.svc.ListPolicies token page).2)) ∧
    (∀ token policy, es.svc.DeletePolicy token policy ≠ none →
      (es.DeletePolicy Encode token policy).2 = es.svc.DeletePolicy token policy) := by
  refine ⟨?_, ?_, ?_, ?_, ?_, ?_, ?_, ?_, ?_, ?_⟩
  · intro ar entity h hx; simp [eventStore.Authorize, h, hx]
  · intro token policy h hx; simp [eventStore.AddPolicy, h, hx]
  · intro token policy h hx; simp [eventStore.UpdatePolicy, h, hx]
  · intro token page h hx; simp [eventStore.ListPolicies, h, hx]
  · intro token policy h hx; simp [eventStore.DeletePolicy, h, hx]
  · intro ar entity h; simp [eventStore.Authorize, h]
  · intro token policy h; simp [eventStore.AddPolicy, h]
  · intro token policy h; simp [eventStore.UpdatePolicy, h]
  · intro token page h; simp [eventStore.ListPolicies, h]
  · intro token policy h; simp [eventStore.DeletePolicy, h]

/-- C27 at concrete inputs: in front of a store that refuses every append,
`Authorize` keeps the identity and `AddPolicy` returns the zero policy, both
with the append error. -/
theorem results_on_failure_witness :
    (svcOk.Authorize "request" "thing").2 = none ∧
    ((NewEventStoreMiddleware svcOk producer.storeRejects).Authorize Encode0
      "request" "thing").2 = ("thing", some "refused") ∧
    ((NewEventStoreMiddleware svcOk producer.storeRejects).AddPolicy Encode0
      "token" "p").2 = (P0.zeroPolicy, some "refused") :=
  ⟨rfl,
    (results_on_failure Encode0 (NewEventStoreMiddleware svcOk producer.storeRejects)).1
      "request" "thing" rfl (by decide),
    (results_on_failure Encode0 (NewEventStoreMiddleware svcOk producer.storeRejects)).2.1
      "token" "p" rfl (by decide)⟩

end policies

namespace api

open http

/-- C28: `EncodeError` sets the content type to `application/json` and then
writes exactly one status, chosen by the first case that holds, in this
order: 400 if the error contains `ErrMalformedEntity` or `ErrInvalidSecret`
or equals `ErrMissingID`, `ErrEmptyList`, `ErrMissingMemberType` or
`ErrNameSize`; else 401 if it contains `ErrAuthentication`; else 404 for
`ErrNotFound`; else 409 for `ErrConflict`; else 403 for `ErrAuthorization`;
else 409 for `ErrMemberAlreadyAssigned`; else 415 for
`ErrUnsupportedContentType`; else 500.  So an error that contains both
`ErrMalformedEntity` and `ErrNotFound` yields 400 and an error no case
recognises yields 500.  On a writer nothing was written to, this is the
status the response carries, with the content type as its one header. -/
theorem EncodeError_status {E : Type} [DecidableEq E] (d : Deps E) (err : E)
    (w : ResponseWriter) :
    (∃ rest, EncodeError d err w =
      w ++ Call.SetHeader "Content-Type" "application/json" ::
        Call.WriteHeader (errorStatus d err) :: rest) ∧
    status (EncodeError d err []) = some (errorStatus d err) ∧
    headers (EncodeError d err []) = [("Content-Type", "application/json")] ∧
    errorStatus d err =
      (if d.Contains err d.ErrMalformedEntity = true ∨ d.Contains err d.ErrInvalidSecret = true ∨
          err = d.ErrMissingID ∨ err = d.ErrEmptyList ∨ err = d.ErrMissingMemberType ∨
          err = d.ErrNameSize then 400
        else if d.Contains err d.ErrAuthentication = true then 401
        else if d.Contains err d.ErrNotFound = true then 404
        else if d.Contains err d.ErrConflict = true then 409
        else if d.Contains err d.ErrAuthorization = true then 403
        else if d.Contains err d.ErrMemberAlreadyAssigned = true then 409
        else if d.Contains err d.ErrUnsupportedContentType = true then 415
        else 500) ∧
    (d.Contains err d.ErrMalformedEntity = true → d.Contains err d.ErrNotFound = true →
      errorStatus d err = 400) ∧
    (d.Contains err d.ErrMalformedEntity = false → d.Contains err d.ErrInvalidSecret = false →
      err ≠ d.ErrMissingID → err ≠ d.ErrEmptyList → err ≠ d.ErrMissingMemberType →
      err ≠ d.ErrNameSize → d.Contains err d.ErrAuthentication = false →
      d.Contains err d.ErrNotFound = false → d.Contains err d.ErrConflict = false →
      d.Contains err d.ErrAuthorization = false →
      d.Contains err d.ErrMemberAlreadyAssigned = false →
      d.Contains err d.ErrUnsupportedContentType = false → errorStatus d err = 500) := by
  have hshape : ∀ w : ResponseWriter, ∃ rest, EncodeError d err w =
      w ++ Call.SetHeader "Content-Type" "application/json" ::
        Call.WriteHeader (errorStatus d err) :: rest := by
    intro w
    unfold EncodeError
    cases hmsg : d.Msg err with
    | none => exact ⟨[], by simp [ContentType]⟩
    | some msg =>
      cases hdata : (d.Encode msg).1 with
      | none =>
        by_cases he : (d.Encode msg).2 = none
        · exact ⟨[], by simp [encodeJSON, hdata, he, ContentType]⟩
        · exact ⟨[Call.WriteHeader StatusInternalServerError],
            by simp [encodeJSON, hdata, he, ContentType]⟩
      | some data =>
        by_cases he : (d.Encode msg).2 = none
        · exact ⟨[Call.Write data], by simp [encodeJSON, hdata, he, ContentType]⟩
        · exact ⟨[Call.Write data, Call.WriteHeader StatusInternalServerError],
            by simp [encodeJSON, hdata, he, ContentType]⟩
  have hstatus : errorStatus d err =
      (if d.Contains err d.ErrMalformedEntity = true ∨ d.Contains err d.ErrInvalidSecret = true ∨
          err = d.ErrMissingID ∨ err = d.ErrEmptyList ∨ err = d.ErrMissingMemberType ∨
          err = d.ErrNameSize then 400
        else if d.Contains err d.ErrAuthentication = true then 401
        else if d.Contains err d.ErrNotFound = true then 404
        else if d.Contains err d.ErrConflict = true then 409
        else if d.Contains err d.ErrAuthorization = true then 403
        else if d.Contains err d.ErrMemberAlreadyAssigned = true then 409
        else if d.Contains err d.ErrUnsupportedContentType = true then 415
        else 500) := by
    unfold errorStatus
    by_cases h1 : d.Contains err d.ErrMalformedEntity = true ∨ err = d.ErrMissingID ∨
        err = d.ErrEmptyList ∨ err = d.ErrMissingMemberType ∨
        d.Contains err d.ErrInvalidSecret = true ∨ err = d.ErrNameSize
    · have h1' : d.Contains err d.ErrMalformedEntity = true ∨
          d.Contains err d.ErrInvalidSecret = true ∨ err = d.ErrMissingID ∨
          err = d.ErrEmptyList ∨ err = d.ErrMissingMemberType ∨ err = d.ErrNameSize := by
        tauto
      rw [if_pos h1, if_pos h1']; rfl
    · have h1' : ¬ (d.Contains err d.ErrMalformedEntity = true ∨
          d.Contains err d.ErrInvalidSecret = true ∨ err = d.ErrMissingID ∨
          err = d.ErrEmptyList ∨ err = d.ErrMissingMemberType ∨ err = d.ErrNameSize) := by
        tauto
      rw [if_neg h1, if_neg h1']
      simp only [StatusUnauthorized, StatusNotFound, StatusConflict, StatusForbidden,
        StatusUnsupportedMediaType, StatusInternalServerError, ite_self]
  refine ⟨hshape w, ?_, ?_, hstatus, ?_, ?_⟩
  · obtain ⟨rest, h⟩ := hshape []
    rw [h]; rfl
  · obtain ⟨rest, h⟩ := hshape []
    rw [h]; rfl
  · intro hm _
    rw [hstatus, if_pos (Or.inl hm)]
  · intro h1 h2 h3 h4 h5 h6 h7 h8 h9 h10 h11 h12
    rw [hstatus]
    simp [h1, h2, h3, h4, h5, h6, h7, h8, h9, h10, h11, h12]

/-- C28 at concrete inputs: an error that wraps both the malformed-entity and
the not-found error yields 400; an error no case recognises yields 500. -/
theorem EncodeError_status_witness :
    d0.Contains ["malformed entity specification", "entity not found"] d0.ErrMalformedEntity
      = true ∧
    d0.Contains ["malformed entity specification", "entity not found"] d0.ErrNotFound = true ∧
    status (EncodeError d0 ["malformed entity specification", "entity not found"] [])
      = some 400 ∧
    status (EncodeError d0 ["connection reset"] []) = some 500 ∧
    headers (EncodeError d0 ["connection reset"] []) = [("Content-Type", "application/json")] :=
  have h1 := EncodeError_status d0 ["malformed entity specification", "entity not found"] []
  have h2 := EncodeError_status d0 ["connection reset"] []
  ⟨by decide, by decide,
    h1.2.1.trans (congrArg some (h1.2.2.2.2.1 (by decide) (by decide))),
    h2.2.1.trans (congrArg some (h2.2.2.2.2.2 (by decide) (by decide) (by decide) (by decide)
      (by decide) (by decide) (by decide) (by decide) (by decide) (by decide) (by decide)
      (by decide))),
    h2.2.2.1⟩

end api

namespace policies.responses

open http api

/-- C29: the status codes of the thing-policies HTTP responses:
`authorizeRes` is 200 iff `Authorized` and 403 otherwise; `addPolicyRes` is
201 iff `created` and 400 otherwise; `updatePolicyRes` and `deletePolicyRes`
are 204 iff their flag is set and 400 otherwise; `identityRes`,
`viewPolicyRes` and `listPolicyRes` are always 200.  `Empty` is true exactly
for `addPolicyRes`, `updatePolicyRes` and `deletePolicyRes`: for those three
`EncodeResponse` writes the content type and the status, never runs the
encoder and returns no error; for the other four it writes the content type
and the status, then runs the JSON encoder, whose data is the body and whose
error is the result. -/
theorem responses_status_and_body {P : Type} :
    (∀ res : authorizeRes, (res.Code = 200 ↔ res.Authorized = true) ∧
      (res.Code = 403 ↔ res.Authorized = false) ∧ res.Empty = false) ∧
    (∀ res : addPolicyRes P, (res.Code = 201 ↔ res.created = true) ∧
      (res.Code = 400 ↔ res.created = false) ∧ res.Empty = true) ∧
    (∀ res : updatePolicyRes P, (res.Code = 204 ↔ res.updated = true) ∧
      (res.Code = 400 ↔ res.updated = false) ∧ res.Empty = true) ∧
    (∀ res : deletePolicyRes, (res.Code = 204 ↔ res.deleted = true) ∧
      (res.Code = 400 ↔ res.deleted = false) ∧ res.Empty = true) ∧
    (∀ res : identityRes, res.Code = 200 ∧ res.Empty = false) ∧
    (∀ res : viewPolicyRes P, res.Code = 200 ∧ res.Empty = false) ∧
    (∀ res : listPolicyRes P, res.Code = 200 ∧ res.Empty = false) ∧
    (∀ Encode w (res : addPolicyRes P),
      EncodeResponse Encode (some addPolicyRes.Response) w res
        = (written w res.Code none, none)) ∧
    (∀ Encode w (res : updatePolicyRes P),
      EncodeResponse Encode (some updatePolicyRes.Response) w res
        = (written w res.Code none, none)) ∧
    (∀ Encode w (res : deletePolicyRes),
      EncodeResponse Encode (some deletePolicyRes.Response) w res
        = (written w res.Code none, none)) ∧
    (∀ Encode w (res : authorizeRes),
      EncodeResponse Encode (some authorizeRes.Response) w res
        = (written w res.Code (Encode res).1, (Encode res).2)) ∧
    (∀ Encode w (res : identityRes),
      EncodeResponse Encode (some identityRes.Response) w res
        = (written w 200 (Encode res).1, (Encode res).2)) ∧
    (∀ Encode w (res : viewPolicyRes P),
      EncodeResponse Encode (some viewPolicyRes.Response) w res
        = (written w 200 (Encode res).1, (Encode res).2)) ∧
    (∀ Encode w (res : listPolicyRes P),
      EncodeResponse Encode (some listPolicyRes.Response) w res
        = (written w 200 (Encode res).1, (Encode res).2)) := by
  have henc : ∀ (w : ResponseWriter) (code : Nat) (outcome : Option String × error),
      encodeJSON (w ++ [Call.SetHeader "Content-Type" ContentType] ++ [Call.WriteHeader code])
        outcome = (written w code outcome.1, outcome.2) := by
    intro w code outcome
    cases h : outcome.1 <;> simp [encodeJSON, written, ContentType, h]
  refine ⟨?_, ?_, ?_, ?_, ?_, ?_, ?_, ?_, ?_, ?_, ?_, ?_, ?_, ?_⟩
  · intro res
    cases h : res.Authorized <;>
      simp [authorizeRes.Code, authorizeRes.Empty, h, StatusOK, StatusForbidden]
  · intro res
    cases h : res.created <;>
      simp [addPolicyRes.Code, addPolicyRes.Empty, h, StatusCreated, StatusBadRequest]
  · intro res
    cases h : res.updated <;>
      simp [updatePolicyRes.Code, updatePolicyRes.Empty, h, StatusNoContent, StatusBadRequest]
  · intro res
    cases h : res.deleted <;>
      simp [deletePolicyRes.Code, deletePolicyRes.Empty, h, StatusNoContent, StatusBadRequest]
  · intro res; exact ⟨rfl, rfl⟩
  · intro res; exact ⟨rfl, rfl⟩
  · intro res; exact ⟨rfl, rfl⟩
  · intro Encode w res
    simp [EncodeResponse, addPolicyRes.Response, addPolicyRes.Headers, addPolicyRes.Empty,
      written, ContentType]
  · intro Encode w res
    simp [EncodeResponse, updatePolicyRes.Response, updatePolicyRes.Headers,
      updatePolicyRes.Empty, written, ContentType]
  · intro Encode w res
    simp [EncodeResponse, deletePolicyRes.Response, deletePolicyRes.Headers,
      deletePolicyRes.Empty, written, ContentType]
  · intro Encode w res
    have := henc w res.Code (Encode res)
    simpa [EncodeResponse, authorizeRes.Response, authorizeRes.Headers, authorizeRes.Empty]
      using this
  · intro Encode w res
    have := henc w 200 (Encode res)
    simpa [EncodeResponse, identityRes.Response, identityRes.Headers, identityRes.Empty,
      identityRes.Code, StatusOK] using this
  · intro Encode w res
    have := henc w 200 (Encode res)
    simpa [EncodeResponse, viewPolicyRes.Response, viewPolicyRes.Headers, viewPolicyRes.Empty,
      viewPolicyRes.Code, StatusOK] using this
  · intro Encode w res
    have := henc w 200 (Encode res)
    simpa [EncodeResponse, listPolicyRes.Response, listPolicyRes.Headers, listPolicyRes.Empty,
      listPolicyRes.Code, StatusOK] using this

end policies.responses

namespace timescale

theorem foldl_append_left (l : List String) (a b : String) :
    List.foldl (fun r s => r ++ s) (a ++ b) l = a ++ List.foldl (fun r s => r ++ s) b l := by
  induction l generalizing b with
  | nil => rfl
  | cons c l ih => simp only [List.foldl_cons, String.append_assoc, ih]

theorem join_cons (c : String) (l : List String) : String.join (c :: l) = c ++ String.join l := by
  unfold String.join
  rw [List.foldl_cons, ← foldl_append_left, String.empty_append, String.append_empty]

theorem step_eq_clause (comparator condition name : String) :
    step comparator condition name = condition ++ ((clause comparator name).getD "") := by
  by_cases h1 : name = "subtopic"
  · subst h1; simp [step, clause, String.append_assoc]
  by_cases h2 : name = "publisher"
  · subst h2; simp [step, clause, String.append_assoc]
  by_cases h3 : name = "name"
  · subst h3; simp [step, clause, String.append_assoc]
  by_cases h4 : name = "protocol"
  · subst h4; simp [step, clause, String.append_assoc]
  by_cases h5 : name = "v"
  · subst h5; simp [step, clause, String.append_assoc]
  by_cases h6 : name = "vb"
  · subst h6; simp [step, clause, String.append_assoc]
  by_cases h7 : name = "vd"
  · subst h7; simp [step, clause, String.append_assoc]
  by_cases h8 : name = "from"
  · subst h8; simp [step, clause, String.append_assoc]
  by_cases h9 : name = "to"
  · subst h9; simp [step, clause, String.append_assoc]
  by_cases h10 : name = "vs"
  · subst h10
    by_cases c1 : comparator = "="
    · subst c1; simp [step, clause]
    by_cases c2 : comparator = ">"
    · subst c2; simp [step, clause]
    by_cases c3 : comparator = ">="
    · subst c3; simp [step, clause]
    by_cases c4 : comparator = "<="
    · subst c4; simp [step, clause]
    by_cases c5 : comparator = "<"
    · subst c5; simp [step, clause]
    simp [step, clause, c1, c2, c3, c4, c5]
  simp [step, clause, h1, h2, h3, h4, h5, h6, h7, h8, h9, h10]

theorem foldl_step (comparator : String) {V : Type} (query : List (String × V))
    (condition : String) :
    query.foldl (fun condition kv => step comparator condition kv.1) condition
      = condition ++ String.join (clauses comparator query) := by
  induction query generalizing condition with
  | nil => simp [clauses, String.join]
  | cons kv query ih =>
    rw [List.foldl_cons, ih, step_eq_clause]
    unfold clauses
    rw [List.filterMap_cons]
    cases h : clause comparator kv.1 with
    | none => simp
    | some c => simp [join_cons, String.append_assoc]

end timescale
namespace timescale

theorem fmtCondition_eq {PM J V : Type} (d : Deps PM J V) (chanID : String) (rpm : PM) :
    fmtCondition d chanID rpm = "channel = :channel" ++
      String.join (clauses (d.ParseValueComparator (queryOf d rpm)) (queryOf d rpm)) := by
  unfold fmtCondition queryOf
  cases hm : d.Marshal rpm with
  | none => simp [clauses, String.join]
  | some meta =>
    simp only []
    cases hu : d.Unmarshal meta with
    | none => simp [clauses, String.join]
    | some query => simp [foldl_step]

theorem clause_isSome_iff (comparator name : String) :
    (clause comparator name).isSome = true ↔
      name ∈ ["subtopic", "publisher", "name", "protocol", "v", "vb", "vd", "from", "to"] ∨
      (name = "vs" ∧ comparator ∈ ["=", ">", ">=", "<=", "<"]) := by
  by_cases h1 : name = "subtopic"
  · subst h1; simp [clause]
  by_cases h2 : name = "publisher"
  · subst h2; simp [clause]
  by_cases h3 : name = "name"
  · subst h3; simp [clause]
  by_cases h4 : name = "protocol"
  · subst h4; simp [clause]
  by_cases h5 : name = "v"
  · subst h5; simp [clause]
  by_cases h6 : name = "vb"
  · subst h6; simp [clause]
  by_cases h7 : name = "vd"
  · subst h7; simp [clause]
  by_cases h8 : name = "from"
  · subst h8; simp [clause]
  by_cases h9 : name = "to"
  · subst h9; simp [clause]
  by_cases h10 : name = "vs"
  · subst h10
    by_cases c1 : comparator = "="
    · subst c1; simp [clause]
    by_cases c2 : comparator = ">"
    · subst c2; simp [clause]
    by_cases c3 : comparator = ">="
    · subst c3; simp [clause]
    by_cases c4 : comparator = "<="
    · subst c4; simp [clause]
    by_cases c5 : comparator = "<"
    · subst c5; simp [clause]
    simp [clause, c1, c2, c3, c4, c5]
  simp [clause, h1, h2, h3, h4, h5, h6, h7, h8, h9, h10]

theorem clause_starts_with_AND (comparator name c : String)
    (h : clause comparator name = some c) : ∃ rest, c = " AND " ++ rest := by
  have e1 : " AND value " = " AND " ++ "value " := by decide
  have e2 : " AND data_value " = " AND " ++ "data_value " := by decide
  by_cases h1 : name = "subtopic"
  · subst h1
    simp [clause] at h
    exact ⟨"subtopic = :subtopic", by rw [← h]; decide⟩
  by_cases h2 : name = "publisher"
  · subst h2
    simp [clause] at h
    exact ⟨"publisher = :publisher", by rw [← h]; decide⟩
  by_cases h3 : name = "name"
  · subst h3
    simp [clause] at h
    exact ⟨"name = :name", by rw [← h]; decide⟩
  by_cases h4 : name = "protocol"
  · subst h4
    simp [clause] at h
    exact ⟨"protocol = :protocol", by rw [← h]; decide⟩
  by_cases h5 : name = "v"
  · subst h5
    simp [clause] at h
    exact ⟨"value " ++ comparator ++ " :value",
      by rw [← h, e1]; simp only [String.append_assoc]⟩
  by_cases h6 : name = "vb"
  · subst h6
    simp [clause] at h
    exact ⟨"bool_value = :bool_value", by rw [← h]; decide⟩
  by_cases h7 : name = "vd"
  · subst h7
    simp [clause] at h
    exact ⟨"data_value " ++ comparator ++ " :data_value",
      by rw [← h, e2]; simp only [String.append_assoc]⟩
  by_cases h8 : name = "from"
  · subst h8
    simp [clause] at h
    exact ⟨"time >= :from", by rw [← h]; decide⟩
  by_cases h9 : name = "to"
  · subst h9
    simp [clause] at h
    exact ⟨"time < :to", by rw [← h]; decide⟩
  by_cases h10 : name = "vs"
  · subst h10
    by_cases c1 : comparator = "="
    · subst c1
      simp [clause] at h
      exact ⟨"string_value = :string_value ", by rw [← h]; decide⟩
    by_cases c2 : comparator = ">"
    · subst c2
      simp [clause] at h
      exact ⟨"string_value LIKE '%' || :string_value || '%' AND string_value <> :string_value", by rw [← h]; decide⟩
    by_cases c3 : comparator = ">="
    · subst c3
      simp [clause] at h
      exact ⟨"string_value LIKE '%' || :string_value || '%'", by rw [← h]; decide⟩
    by_cases c4 : comparator = "<="
    · subst c4
      simp [clause] at h
      exact ⟨":string_value LIKE '%' || string_value || '%'", by rw [← h]; decide⟩
    by_cases c5 : comparator = "<"
    · subst c5
      simp [clause] at h
      exact ⟨":string_value LIKE '%' || string_value || '%' AND string_value <> :string_value", by rw [← h]; decide⟩
    simp [clause, c1, c2, c3, c4, c5] at h
  simp [clause, h1, h2, h3, h4, h5, h6, h7, h8, h9, h10] at h

theorem clauses_eq_map {V : Type} (comparator : String) (query : List (String × V)) :
    clauses comparator query = (query.map Prod.fst).filterMap (clause comparator) := by
  unfold clauses
  rw [List.filterMap_map]
  rfl

end timescale
namespace timescale

theorem clause_cases (comparator name c : String) (h : clause comparator name = some c) :
    c = " AND subtopic = :subtopic" ∨ c = " AND publisher = :publisher" ∨
    c = " AND name = :name" ∨ c = " AND protocol = :protocol" ∨
    c = " AND value " ++ comparator ++ " :value" ∨ c = " AND bool_value = :bool_value" ∨
    c = " AND data_value " ++ comparator ++ " :data_value" ∨
    c = " AND time >= :from" ∨ c = " AND time < :to" ∨
    (comparator ∈ comparators ∧ c ∈ fixedClauses) := by
  by_cases h1 : name = "subtopic"
  · subst h1; simp [clause] at h; simp [← h]
  by_cases h2 : name = "publisher"
  · subst h2; simp [clause] at h; simp [← h]
  by_cases h3 : name = "name"
  · subst h3; simp [clause] at h; simp [← h]
  by_cases h4 : name = "protocol"
  · subst h4; simp [clause] at h; simp [← h]
  by_cases h5 : name = "v"
  · subst h5; simp [clause] at h; simp [← h]
  by_cases h6 : name = "vb"
  · subst h6; simp [clause] at h; simp [← h]
  by_cases h7 : name = "vd"
  · subst h7; simp [clause] at h; simp [← h]
  by_cases h8 : name = "from"
  · subst h8; simp [clause] at h; simp [← h]
  by_cases h9 : name = "to"
  · subst h9; simp [clause] at h; simp [← h]
  by_cases h10 : name = "vs"
  · subst h10
    by_cases c1 : comparator = "="
    · subst c1; simp [clause] at h; simp [← h, comparators, fixedClauses]
    by_cases c2 : comparator = ">"
    · subst c2; simp [clause] at h; simp [← h, comparators, fixedClauses]
    by_cases c3 : comparator = ">="
    · subst c3; simp [clause] at h; simp [← h, comparators, fixedClauses]
    by_cases c4 : comparator = "<="
    · subst c4; simp [clause] at h; simp [← h, comparators, fixedClauses]
    by_cases c5 : comparator = "<"
    · subst c5; simp [clause] at h; simp [← h, comparators, fixedClauses]
    simp [clause, c1, c2, c3, c4, c5] at h
  simp [clause, h1, h2, h3, h4, h5, h6, h7, h8, h9, h10] at h

theorem clause_mem_fixedClauses (comparator name c : String) (hc : comparator ∈ comparators)
    (h : clause comparator name = some c) : c ∈ fixedClauses := by
  have hcases := clause_cases comparator name c h
  simp only [comparators, List.mem_cons, List.mem_singleton, List.not_mem_nil, or_false] at hc
  rcases hcases with h | h | h | h | h | h | h | h | h | h
  · subst h; decide
  · subst h; decide
  · subst h; decide
  · subst h; decide
  · rcases hc with rfl | rfl | rfl | rfl | rfl <;> subst h <;> decide
  · subst h; decide
  · rcases hc with rfl | rfl | rfl | rfl | rfl <;> subst h <;> decide
  · subst h; decide
  · subst h; decide
  · exact h.2

/-- C30, amended: for every channel ID and page metadata, the condition built
by `fmtCondition` is `channel = :channel` followed by the clauses of the keys
of the metadata's JSON form, one for each key that has a clause, in the order
the keys are visited, and by nothing else.  A key has a clause exactly when
it is one of `subtopic`, `publisher`, `name`, `protocol`, `v`, `vb`, `vd`,
`from`, `to`, or is `vs` with a comparator among `=`, `>`, `>=`, `<=`, `<`,
and every clause starts with ` AND `.  The condition is fixed by the keys
and the comparator that `readers.ParseValueComparator` returns: the channel
ID and the values of the keys do not enter it otherwise.  The comparator is
formatted into the `v` and `vd` clauses as it is: when it is one of the five
symbols, every clause is one of the fixed texts, which name values through
placeholders only.  Visiting the keys in another order permutes the
clauses. -/
theorem fmtCondition_clauses {PM J V : Type} (d : Deps PM J V) (chanID : String) (rpm : PM) :
    fmtCondition d chanID rpm = "channel = :channel" ++
      String.join (((queryOf d rpm).map Prod.fst).filterMap
        (clause (d.ParseValueComparator (queryOf d rpm)))) ∧
    (d.Marshal rpm = none → fmtCondition d chanID rpm = "channel = :channel") ∧
    (∀ comparator name, (clause comparator name).isSome = true ↔
      name ∈ ["subtopic", "publisher", "name", "protocol", "v", "vb", "vd", "from", "to"] ∨
      (name = "vs" ∧ comparator ∈ ["=", ">", ">=", "<=", "<"])) ∧
    (∀ comparator name c, clause comparator name = some c → ∃ rest, c = " AND " ++ rest) ∧
    clause "" "subtopic" = some " AND subtopic = :subtopic" ∧
    clause "" "from" = some " AND time >= :from" ∧
    (∀ comparator, clause comparator "v" = some (" AND value " ++ comparator ++ " :value")) ∧
    (∀ {PM2 J2 V2 : Type} (d2 : Deps PM2 J2 V2) (chanID2 : String) (rpm2 : PM2),
      (queryOf d2 rpm2).map Prod.fst = (queryOf d rpm).map Prod.fst →
      d2.ParseValueComparator (queryOf d2 rpm2) = d.ParseValueComparator (queryOf d rpm) →
      fmtCondition d2 chanID2 rpm2 = fmtCondition d chanID rpm) ∧
    (∀ comparator (keys : List String), List.Perm keys ((queryOf d rpm).map Prod.fst) →
      List.Perm (keys.filterMap (clause comparator))
        (((queryOf d rpm).map Prod.fst).filterMap (clause comparator))) ∧
    (d.ParseValueComparator (queryOf d rpm) ∈ comparators →
      ∀ c ∈ ((queryOf d rpm).map Prod.fst).filterMap
          (clause (d.ParseValueComparator (queryOf d rpm))),
        c ∈ fixedClauses) := by
  refine ⟨?_, ?_, clause_isSome_iff, clause_starts_with_AND, by decide, by decide, ?_, ?_, ?_,
    ?_⟩
  · rw [fmtCondition_eq, clauses_eq_map]
  · intro hm
    simp [fmtCondition, hm]
  · intro comparator
    simp [clause]
  · intro PM2 J2 V2 d2 chanID2 rpm2 hk hc
    rw [fmtCondition_eq, fmtCondition_eq, clauses_eq_map, clauses_eq_map, hk, hc]
  · intro comparator keys hp
    exact hp.filterMap _
  · intro hc c hmem
    obtain ⟨name, _, hname⟩ := List.mem_filterMap.1 hmem
    exact clause_mem_fixedClauses _ name c hc hname

/-- C30 at concrete inputs: three filters and a key with no clause under the
comparator `>=`, every clause a fixed text; a value that reads as SQL does
not enter the condition. -/
theorem fmtCondition_clauses_witness :
    fmtCondition d0 "9b7b1b3f"
        [("offset", "0"), ("subtopic", "engine"), ("v", "5"), ("comparator", "ge"),
          ("to", "1700")]
      = "channel = :channel AND subtopic = :subtopic AND value >= :value AND time < :to" ∧
    (∀ c ∈ [" AND subtopic = :subtopic", " AND value >= :value", " AND time < :to"],
      c ∈ fixedClauses) ∧
    fmtCondition d0 "9b7b1b3f" [("subtopic", "x OR 1=1"), ("vs", "engine"), ("comparator", "eq")]
      = "channel = :channel AND subtopic = :subtopic AND string_value = :string_value " :=
  ⟨(fmtCondition_clauses d0 "9b7b1b3f"
      [("offset", "0"), ("subtopic", "engine"), ("v", "5"), ("comparator", "ge"),
        ("to", "1700")]).1.trans (by decide),
    (fmtCondition_clauses d0 "9b7b1b3f"
      [("offset", "0"), ("subtopic", "engine"), ("v", "5"), ("comparator", "ge"),
        ("to", "1700")]).2.2.2.2.2.2.2.2.2 (by decide),
    by decide⟩

/-- With a `ParseValueComparator` that answers the entry `comparator` as it
stands, the text of that entry is formatted into the condition: two queries
with the same keys and different values get different conditions, one of
them with a clause that is no fixed text. -/
theorem fmtCondition_splices_comparator :
    fmtCondition dRaw "9b7b1b3f" [("v", "1"), ("comparator", "= 1 OR 1=1 --")]
      = "channel = :channel AND value = 1 OR 1=1 -- :value" ∧
    fmtCondition dRaw "9b7b1b3f" [("v", "1"), ("comparator", "=")]
      = "channel = :channel AND value = :value" ∧
    " AND value = 1 OR 1=1 -- :value" ∉ fixedClauses := by
  refine ⟨by decide, by decide, by decide⟩

end timescale

namespace producer

open redis

/-- With an event that does not encode, `Add` in front of a store that is down
returns the saved configuration and no error, buffers nothing and sends
nothing; a flush cycle with the store up then appends no record. -/
theorem Add_encode_fails_buffers_nothing :
    svcOk.Add "token" "cfg" = ("cfg", none) ∧
    storeDown.Ping.2 ≠ none ∧
    ((NewEventStoreMiddleware svcOk storeDown).Add dFail "token" "cfg").2 = ("cfg", none) ∧
    ((NewEventStoreMiddleware svcOk storeDown).Add dFail "token" "cfg").1.unpublishedEvents.length
      = 0 ∧
    ((NewEventStoreMiddleware svcOk storeDown).Add dFail "token" "cfg").1.client.sent = [] ∧
    (eventStore.tick
      { svc := svcOk, client := storeUp,
        unpublishedEvents :=
          ((NewEventStoreMiddleware svcOk storeDown).Add dFail "token" "cfg").1.unpublishedEvents
      }).map (fun es => (es.unpublishedEvents.length, appended es.client.sent))
      = some (0, []) := by
  refine ⟨rfl, by decide, rfl, rfl, rfl, ?_⟩
  decide

end producer

namespace producer

open redis

/-- C25, amended: `Bootstrap` builds the bootstrap event of the configuration
the wrapped service returned, the external identity and a success flag that
is on exactly when the wrapped call returned no error, whether that call
succeeded or not.  When the event encodes, it is emitted: with the probe
failing its record is added at the end of the buffer and the call returns the
configuration with the wrapped service's error; with the probe succeeding the
record is sent to the store as one append and the call returns the
configuration with the error of that append if there is one and the wrapped
service's error otherwise.  When the event does not encode, nothing is sent
or buffered and the call returns the configuration with the encode error. -/
theorem Bootstrap_emits_encoded_event (d : Deps T) (es : eventStore T)
    (externalKey externalID : String) (secure : Bool) (cfg : T.Config) (err : error)
    (hsvc : es.svc.Bootstrap externalKey externalID secure = (cfg, err)) :
    (∀ values, d.encode (event.bootstrapEvent cfg externalID (decide (err = none)))
        = (values, none) → es.client.Ping.2 ≠ none →
      es.Bootstrap d externalKey externalID secure =
        ({ svc := es.svc, client := es.client.Ping.1,
           unpublishedEvents := es.unpublishedEvents ++ [record values] }, cfg, err) ∧
      es.client.Ping.1.sent = es.client.sent ++ [(Cmd.Ping, es.client.Ping.2)]) ∧
    (∀ values, d.encode (event.bootstrapEvent cfg externalID (decide (err = none)))
        = (values, none) → es.client.Ping.2 = none →
      es.Bootstrap d externalKey externalID secure =
        ({ svc := es.svc, client := (es.client.Ping.1.XAdd (record values)).1,
           unpublishedEvents := es.unpublishedEvents }, cfg,
          if (es.client.Ping.1.XAdd (record values)).2 ≠ none then
            (es.client.Ping.1.XAdd (record values)).2
          else err) ∧
      (es.client.Ping.1.XAdd (record values)).1.sent =
        es.client.sent ++ [(Cmd.Ping, none),
          (Cmd.XAdd (record values), (es.client.Ping.1.XAdd (record values)).2)]) ∧
    (∀ values e, d.encode (event.bootstrapEvent cfg externalID (decide (err = none)))
        = (values, some e) →
      es.Bootstrap d externalKey externalID secure = (es, cfg, some e)) := by
  have hev : (if err ≠ none then event.bootstrapEvent cfg externalID false
      else event.bootstrapEvent cfg externalID true)
      = event.bootstrapEvent cfg externalID (decide (err = none)) := by
    cases err <;> simp
  have hB : es.Bootstrap d externalKey externalID secure =
      ((es.publish d (event.bootstrapEvent cfg externalID (decide (err = none)))).1, cfg,
        if (es.publish d (event.bootstrapEvent cfg externalID (decide (err = none)))).2 ≠ none
        then (es.publish d (event.bootstrapEvent cfg externalID (decide (err = none)))).2
        else err) := by
    unfold eventStore.Bootstrap
    simp only [hsvc, hev]
    split <;> rfl
  refine ⟨?_, ?_, ?_⟩
  · intro values henc hping
    have h2 : (d.encode (event.bootstrapEvent cfg externalID (decide (err = none)))).2 = none := by
      rw [henc]
    rw [hB, publish_of_probe_fails d es _ h2 hping, henc]
    exact ⟨by simp, rfl⟩
  · intro values henc hping
    have h2 : (d.encode (event.bootstrapEvent cfg externalID (decide (err = none)))).2 = none := by
      rw [henc]
    rw [hB, publish_of_probe_ok d es _ h2 hping, henc]
    refine ⟨rfl, ?_⟩
    have hp : es.client.reply es.client.sent.length Cmd.Ping = none := hping
    simp [Client.XAdd, Client.Ping, Client.send, hp]
  · intro values e henc
    have h2 : (d.encode (event.bootstrapEvent cfg externalID (decide (err = none)))).2 ≠ none := by
      rw [henc]; simp
    rw [hB, publish_of_encode_fails d es _ h2, henc]
    simp

/-- C25 at concrete inputs: the wrapped call fails and the store is down, so
the event with the flag off is buffered; the wrapped call succeeds and the
store is up, so the event with the flag on is appended. -/
theorem Bootstrap_emits_encoded_event_witness :
    (NewEventStoreMiddleware svcFail storeDown).Bootstrap d0 "key" "id" false =
      ({ svc := svcFail, client := storeDown.Ping.1,
         unpublishedEvents := [record [("config", ""), ("success", "0")]] }, "", some "e") ∧
    ((NewEventStoreMiddleware svcOk storeUp).Bootstrap d0 "key" "id" false).2 = ("id", none) ∧
    appended ((NewEventStoreMiddleware svcOk storeUp).Bootstrap d0 "key" "id" false).1.client.sent
      = [record [("config", "id"), ("success", "1")]] :=
  ⟨((Bootstrap_emits_encoded_event d0 (NewEventStoreMiddleware svcFail storeDown)
      "key" "id" false "" (some "e") rfl).1 [("config", ""), ("success", "0")] rfl
      (by decide)).1,
    by rw [((Bootstrap_emits_encoded_event d0 (NewEventStoreMiddleware svcOk storeUp)
      "key" "id" false "id" none rfl).2.1 [("config", "id"), ("success", "1")] rfl
      (by decide)).1]; rfl,
    by decide⟩

/-- With an event that does not encode, `Bootstrap` emits nothing, whether the
wrapped call succeeds or fails and whether the store is up or down: no
command reaches the store, the buffer stays empty, and the call returns the
encode error. -/
theorem Bootstrap_encode_fails_emits_nothing :
    ((NewEventStoreMiddleware svcOk storeUp).Bootstrap dFail "key" "id" false).1.client.sent
      = [] ∧
    ((NewEventStoreMiddleware svcOk storeUp).Bootstrap dFail "key" "id" false).1.unpublishedEvents
      = [] ∧
    ((NewEventStoreMiddleware svcOk storeUp).Bootstrap dFail "key" "id" false).2
      = ("id", some "encode failed") ∧
    ((NewEventStoreMiddleware svcFail storeDown).Bootstrap dFail "key" "id" false).1.client.sent
      = [] ∧
    ((NewEventStoreMiddleware svcFail storeDown).Bootstrap dFail "key" "id"
      false).1.unpublishedEvents = [] ∧
    ((NewEventStoreMiddleware svcFail storeDown).Bootstrap dFail "key" "id" false).2
      = ("", some "encode failed") := by
  refine ⟨rfl, rfl, rfl, rfl, rfl, rfl⟩

end producer
